import Mathlib

/-!
# go-local-date: the packages `dates` and `nulldates`

A shallow embedding of `dates/localdate.go` and `nulldates/localdate.go`
together with the parts of Go's standard library that the packages call:
of `time`, `time.Date`, the field accessors, `Add`, `Sub`, the comparisons and
`time.ParseInLocation`; of `strconv`, `Itoa` and `Atoi`; the two regular
expressions of the package; `driver.String.ConvertValue`; and `json.Marshal`
and `json.Unmarshal` on strings and `null`.

Conventions.
* Go `int` values are `Int`, Go `uint` values are `Nat`; the conversions
  `int(x)` and `uint(x)` written in the source are the functions `GoInt.toInt`
  and `GoInt.toUint`, which wrap at 64 bits.
* `time.Duration` is an `Int` kept inside the signed 64-bit range by
  `GoInt.wrap64` wherever the source computes one.
* The package `time` is that of the Go 1.22 sources (`norm`,
  `daysSinceEpoch`, `absDate`, `Date`, `abs`, `addSec`, `Add`, `Sub`, the
  comparisons), in its 64-bit arithmetic: every result of an operation on
  `int`, `int64` or `Duration` goes through `GoInt.wrap64` and every result
  of an operation on `uint64` through `GoInt.wrapU64`, except where the
  operands keep it within the range. A `time.Time` holds the seconds since
  January 1 of year 1 as a signed 64-bit value; it carries no monotonic clock
  reading.
* The functions `epochDays`, `monthStart` and `civilSec` are not part of the
  code: they give the exact, unbounded day count and Unix second of a civil
  tuple, the calendar-normalised instant, to which the theorems compare what
  the code computes.
* A `*time.Location` is a fixed zone, given by its offset in seconds east of
  UTC.
* A Go `string` or `[]byte` is the list of its characters.
* A method with a pointer receiver takes the receiver as an `Option` (`none`
  is the nil pointer) and returns an `Outcome`: the value the receiver points
  to afterwards and the error, or a panic.
* `time.ParseInLocation` is embedded for layouts made of the chunks `2006`,
  `01`, `02`, `15`, `04`, `05` and `Z07:00` and literal text.
-/

namespace GoInt

/-- The conversion `int(u)` of an unsigned 64-bit value: values from `2^63`
upwards wrap to negative numbers. -/
def toInt (u : Nat) : Int :=
  if u % 18446744073709551616 < 9223372036854775808 then
    ((u % 18446744073709551616 : Nat) : Int)
  else
    ((u % 18446744073709551616 : Nat) : Int) - 18446744073709551616

/-- The conversion `uint(i)` of a signed 64-bit value: reduction modulo `2^64`. -/
def toUint (i : Int) : Nat :=
  (i % 18446744073709551616).toNat

/-- The integer is a value of Go's 64-bit `int`. -/
def isInt (i : Int) : Prop :=
  -9223372036854775808 ≤ i ∧ i ≤ 9223372036854775807

/-- Signed 64-bit wrap-around of an integer result. -/
def wrap64 (i : Int) : Int :=
  (i + 9223372036854775808) % 18446744073709551616 - 9223372036854775808

/-- Unsigned 64-bit wrap-around of an integer result, and the conversion
`uint64(i)`: reduction modulo `2^64`. -/
def wrapU64 (i : Int) : Int :=
  i % 18446744073709551616

/-- The integer is at most `2^62` in absolute value: the sum of two such
values and a carry stays within the signed 64-bit range. -/
def small (i : Int) : Prop :=
  -4611686018427387904 ≤ i ∧ i ≤ 4611686018427387904

/-- Go's integer quotient, truncated toward zero (positive divisor). -/
def quo (a b : Int) : Int :=
  if 0 ≤ a then a / b else -((-a) / b)

/-- Go's integer remainder, with the sign of the dividend. -/
def rem (a b : Int) : Int :=
  a - b * quo a b

end GoInt

namespace GoTime

open GoInt

def secondsPerMinute : Int := 60

def secondsPerHour : Int := 60 * 60

def secondsPerDay : Int := 24 * 3600

def daysPer400Years : Int := 365 * 400 + 97

def daysPer100Years : Int := 365 * 100 + 24

def daysPer4Years : Int := 365 * 4 + 1

/-- The year of the zero of the "absolute" time scale used by the calendar
calculations. -/
def absoluteZeroYear : Int := -292277022399

/-- Seconds from the absolute zero to January 1 of year 1:
`(absoluteZeroYear - internalYear) * 365.2425 * secondsPerDay`. -/
def absoluteToInternal : Int := -9223371966579724800

def internalToAbsolute : Int := -absoluteToInternal

/-- Seconds from January 1, 1970 back to January 1 of year 1. -/
def unixToInternal : Int := (1969 * 365 + 1969 / 4 - 1969 / 100 + 1969 / 400) * secondsPerDay

def internalToUnix : Int := -unixToInternal

/-- A `time.Duration` of one second, in nanoseconds. -/
def Second : Int := 1000000000

/-- A `time.Duration` of one hour, in nanoseconds. -/
def Hour : Int := 60 * (60 * Second)

def minDuration : Int := -9223372036854775808

def maxDuration : Int := 9223372036854775807

/-- A fixed time zone: only its offset (seconds east of UTC) matters here. -/
structure Location where
  offset : Int
  deriving DecidableEq, Repr

/-- The function `time.FixedZone(name, offset)`. -/
def FixedZone (offset : Int) : Location := ⟨offset⟩

/-- A `time.Time` without monotonic clock reading: the field `wall` then
holds the nanoseconds within the second and the field `ext` the seconds since
January 1 of year 1, a signed 64-bit value; `loc` is the location used for
presentation. -/
structure Time where
  wall : Int
  ext : Int
  loc : Location
  deriving DecidableEq, Repr

/-- The method `Time.nsec`: the nanoseconds within the second. -/
def Time.nsec (t : Time) : Int := t.wall

/-- The method `Time.sec`: the seconds since January 1 of year 1. -/
def Time.sec (t : Time) : Int := t.ext

/-- The method `Time.unixSec`, in signed 64-bit arithmetic. -/
def Time.unixSec (t : Time) : Int := wrap64 (t.sec + internalToUnix)

/-- The function `unixTime(sec, nsec)` followed by `setLoc(loc)`. -/
def unixTime (sec nsec : Int) (loc : Location) : Time :=
  { wall := nsec, ext := wrap64 (sec + unixToInternal), loc := loc }

/-- The helper `norm(hi, lo, base)`: moves the overflow of `lo` into `hi` so
that `0 ≤ lo < base`, in signed 64-bit arithmetic. The divisions have
non-negative dividends. -/
def norm (hi lo base : Int) : Int × Int :=
  let p : Int × Int :=
    if lo < 0 then
      let n := wrap64 (wrap64 (wrap64 (-lo) - 1) / base + 1)
      (wrap64 (hi - n), wrap64 (lo + wrap64 (n * base)))
    else (hi, lo)
  if p.2 ≥ base then
    let n := p.2 / base
    (wrap64 (p.1 + n), wrap64 (p.2 - wrap64 (n * base)))
  else p

/-- The table `daysBefore`: `daysBefore[m]` counts the days of a non-leap year
before month `m + 1`. -/
def daysBeforeTable : List Int :=
  [0, 31, 31 + 28, 31 + 28 + 31, 31 + 28 + 31 + 30, 31 + 28 + 31 + 30 + 31,
   31 + 28 + 31 + 30 + 31 + 30, 31 + 28 + 31 + 30 + 31 + 30 + 31,
   31 + 28 + 31 + 30 + 31 + 30 + 31 + 31, 31 + 28 + 31 + 30 + 31 + 30 + 31 + 31 + 30,
   31 + 28 + 31 + 30 + 31 + 30 + 31 + 31 + 30 + 31,
   31 + 28 + 31 + 30 + 31 + 30 + 31 + 31 + 30 + 31 + 30,
   31 + 28 + 31 + 30 + 31 + 30 + 31 + 31 + 30 + 31 + 30 + 31]

/-- Indexing `daysBefore[i]`. -/
def daysBefore (i : Int) : Int :=
  daysBeforeTable.getD i.toNat 0

/-- The predicate `isLeap(year)`; the remainders are only tested against zero. -/
def isLeap (year : Int) : Bool :=
  year % 4 == 0 && (year % 100 != 0 || year % 400 == 0)

/-- The function `daysIn(m, year)`: the number of days of month `m`. -/
def daysIn (m year : Int) : Int :=
  if m == 2 && isLeap year then 29 else daysBefore m - daysBefore (m - 1)

/-- The function `daysSinceEpoch(year)`: days from the absolute zero to the
start of `year`, in unsigned 64-bit arithmetic. -/
def daysSinceEpoch (year : Int) : Int :=
  let y := wrapU64 (wrap64 (year - absoluteZeroYear))
  let n400 := y / 400
  let y1 := y - 400 * n400
  let d1 := wrapU64 (daysPer400Years * n400)
  let n100 := y1 / 100
  let y2 := y1 - 100 * n100
  let d2 := wrapU64 (d1 + daysPer100Years * n100)
  let n4 := y2 / 4
  let y3 := y2 - 4 * n4
  let d3 := wrapU64 (d2 + daysPer4Years * n4)
  wrapU64 (d3 + 365 * y3)

/-- The constructor `time.Date(year, month, day, hour, min, sec, nsec, loc)`:
the arguments are values of `int`, the day count and the absolute seconds are
unsigned 64-bit values, the Unix seconds a signed one. The zone of `loc` is
fixed, so its lookup gives the same offset at every instant. -/
def Date (year month day hour min sec nsec : Int) (loc : Location) : Time :=
  let m := wrap64 (month - 1)
  let ym := norm year m 12
  let year := ym.1
  let month := ym.2 + 1
  let sn := norm sec nsec 1000000000
  let ms := norm min sn.1 60
  let hm := norm hour ms.1 60
  let dh := norm day hm.1 24
  let d := daysSinceEpoch year
  let d := wrapU64 (d + daysBefore (month - 1))
  let d := if isLeap year && month ≥ 3 then wrapU64 (d + 1) else d
  let d := wrapU64 (d + wrapU64 (wrap64 (dh.1 - 1)))
  let abs := wrapU64 (d * secondsPerDay)
  let abs := wrapU64 (abs + wrapU64 (dh.2 * secondsPerHour + hm.2 * secondsPerMinute + ms.2))
  let unix := wrap64 (wrap64 abs + (absoluteToInternal + internalToUnix))
  let unix := if loc.offset ≠ 0 then wrap64 (unix - loc.offset) else unix
  unixTime unix sn.2 loc

/-- The result of `absDate`. -/
structure AbsDate where
  year : Int
  month : Int
  day : Int
  yday : Int
  deriving DecidableEq, Repr

/-- The function `absDate(abs, full)`: year, month, day and day of the year of
an absolute time, an unsigned 64-bit value; no step of it leaves the 64-bit
range. -/
def absDate (abs : Int) (full : Bool) : AbsDate :=
  let d := abs / secondsPerDay
  let n := d / daysPer400Years
  let y := 400 * n
  let d := d - daysPer400Years * n
  let n := d / daysPer100Years
  let n := n - n / 4
  let y := y + 100 * n
  let d := d - daysPer100Years * n
  let n := d / daysPer4Years
  let y := y + 4 * n
  let d := d - daysPer4Years * n
  let n := d / 365
  let n := n - n / 4
  let y := y + n
  let d := d - 365 * n
  let year := y + absoluteZeroYear
  let yday := d
  if !full then ⟨year, 0, 0, yday⟩
  else
    let leapDay := isLeap year && yday == 31 + 29 - 1
    let day := if isLeap year && yday > 31 + 29 - 1 then yday - 1 else yday
    if leapDay then ⟨year, 2, 29, yday⟩
    else
      let month := day / 31
      let endd := daysBefore (month + 1)
      let begin := if day ≥ endd then endd else daysBefore month
      let month := if day ≥ endd then month + 1 else month
      ⟨year, month + 1, day - begin + 1, yday⟩

/-- The year part of `absDate`: the year and the day of the year of an
absolute day number (the 400-, 100-, 4- and 1-year cycles). -/
def yearOfDays (d : Int) : Int × Int :=
  let n := d / daysPer400Years
  let y := 400 * n
  let d := d - daysPer400Years * n
  let n := d / daysPer100Years
  let n := n - n / 4
  let y := y + 100 * n
  let d := d - daysPer100Years * n
  let n := d / daysPer4Years
  let y := y + 4 * n
  let d := d - daysPer4Years * n
  let n := d / 365
  let n := n - n / 4
  let y := y + n
  let d := d - 365 * n
  (y + absoluteZeroYear, d)

/-- The month part of `absDate`: month and day of the month of a day of the
year from which a leap day has been removed (the estimate `day / 31` and its
adjustment). -/
def monthOfDay (day : Int) : Int × Int :=
  let month := day / 31
  let endd := daysBefore (month + 1)
  let begin := if day ≥ endd then endd else daysBefore month
  let month := if day ≥ endd then month + 1 else month
  (month + 1, day - begin + 1)

/-- The number of days from the absolute zero to the start of `year`, for
every integer `year`: the value of `daysSinceEpoch` when nothing wraps. -/
def epochDays (year : Int) : Int :=
  let y := year - absoluteZeroYear
  let n400 := y / 400
  let y1 := y - 400 * n400
  let d1 := daysPer400Years * n400
  let n100 := y1 / 100
  let y2 := y1 - 100 * n100
  let d2 := d1 + daysPer100Years * n100
  let n4 := y2 / 4
  let y3 := y2 - 4 * n4
  let d3 := d2 + daysPer4Years * n4
  d3 + 365 * y3

/-- The absolute day number of the first day of month `month` (1..12) of
`year`. -/
def monthStart (year month : Int) : Int :=
  if isLeap year && month ≥ 3 then epochDays year + daysBefore (month - 1) + 1
  else epochDays year + daysBefore (month - 1)

/-- The Unix second of the civil tuple `(y, m, d, h, mi, s)` read in UTC, any
field out of its usual range, as an exact integer: the calendar-normalised
instant, which `Date` computes as long as no step of it leaves the 64-bit
range. -/
def civilSec (y m d h mi s : Int) : Int :=
  (monthStart (y + (m - 1) / 12) ((m - 1) % 12 + 1) + (d - 1)) * 86400
    + (h * 3600 + mi * 60 + s) + (absoluteToInternal + internalToUnix)

/-- The method `Time.abs`: the absolute time of the wall clock in the
location of `t`, an unsigned 64-bit value. -/
def Time.abs (t : Time) : Int :=
  wrapU64 (wrap64 (t.unixSec + t.loc.offset) + (unixToInternal + internalToAbsolute))

def Time.Unix (t : Time) : Int := t.unixSec

def Time.Year (t : Time) : Int := (absDate t.abs false).year

def Time.Month (t : Time) : Int := (absDate t.abs true).month

def Time.Day (t : Time) : Int := (absDate t.abs true).day

def Time.Hour (t : Time) : Int := (t.abs % secondsPerDay) / secondsPerHour

def Time.Minute (t : Time) : Int := (t.abs % secondsPerHour) / secondsPerMinute

def Time.Second (t : Time) : Int := t.abs % secondsPerMinute

/-- The method `Time.After`: the comparison of the seconds since year 1, then
of the nanoseconds. -/
def Time.After (t u : Time) : Bool :=
  decide (t.sec > u.sec) || (decide (t.sec = u.sec) && decide (t.nsec > u.nsec))

/-- The method `Time.Before`. -/
def Time.Before (t u : Time) : Bool :=
  decide (t.sec < u.sec) || (decide (t.sec = u.sec) && decide (t.nsec < u.nsec))

/-- The method `Time.Equal`: same instant, whatever the locations. -/
def Time.Equal (t u : Time) : Bool :=
  decide (t.sec = u.sec) && decide (t.nsec = u.nsec)

/-- The method `Time.addSec`: adds `d` seconds, and stays at the largest or
smallest value of the seconds when the sum leaves the signed 64-bit range. -/
def Time.addSec (t : Time) (d : Int) : Time :=
  let sum := wrap64 (t.ext + d)
  if decide (sum > t.ext) = decide (d > 0) then { t with ext := sum }
  else if d > 0 then { t with ext := 9223372036854775807 }
  else { t with ext := -9223372036854775807 }

/-- The method `Time.Add`. -/
def Time.Add (t : Time) (d : Int) : Time :=
  let dsec := GoInt.quo d 1000000000
  let nsec := t.nsec + GoInt.rem d 1000000000
  if nsec ≥ 1000000000 then ({ t with wall := nsec - 1000000000 }).addSec (dsec + 1)
  else if nsec < 0 then ({ t with wall := nsec + 1000000000 }).addSec (dsec - 1)
  else ({ t with wall := nsec }).addSec dsec

/-- The method `Time.Sub`: the duration `t - u`, computed in 64 bits and
replaced by the extreme durations when adding it back to `u` does not give
`t`. -/
def Time.Sub (t u : Time) : Int :=
  let d := GoInt.wrap64 (GoInt.wrap64 (GoInt.wrap64 (t.sec - u.sec) * GoTime.Second)
    + (t.nsec - u.nsec))
  if (u.Add d).Equal t then d
  else if t.Before u then minDuration
  else maxDuration

end GoTime

namespace Dates

open GoInt GoTime

def MaxYear : Nat := 999999999

def MinYear : Nat := 0

def MaxMonthOfYear : Nat := 12

def MinMonthOfYear : Nat := 1

def MaxDayOfMonth : Nat := 31

def MinDayOfMonth : Nat := 1

def MaxHourOfDay : Nat := 23

def MinHourOfDay : Nat := 1

def MaxMinuteOfHour : Nat := 59

def MinMinuteOfHour : Nat := 0

def MaxSecOfMinute : Nat := 59

def MinSecOfMinute : Nat := 0

def MinDuration : Int := -9223372036854775808

def MaxDuration : Int := 9223372036854775807

def FirstUnixInAD : Int := -62135596800

/-- The error kinds of the package (the sentinel errors). -/
inductive Err where
  | ErrFutureThanEndDate
  | ErrFutureOrSameDateAsEnd
  | ErrEmptyDate
  | ErrLengthOfPeriod
  | ErrIncorrectDivisionDays
  | ErrOutOfRangeDate
  | ErrScan
  | ErrMarshalJSON
  | ErrUnmarshalJSON
  | ErrUnmarshalFlag
  | ErrParse
  deriving DecidableEq, Repr

inductive Timezone where
  | UTC
  | AsiaTokyo
  deriving DecidableEq, Repr

def Timezone.Offset : Timezone → Int
  | .UTC => 0 * 60 * 60
  | .AsiaTokyo => 9 * 60 * 60

def Timezone.Location (tz : Timezone) : GoTime.Location :=
  FixedZone tz.Offset

/-- The type `LocalDate`: a date without a time zone. -/
structure LocalDate where
  Year : Nat
  Month : Nat
  Day : Nat
  deriving DecidableEq, Repr

/-- The type `LocalTime`. -/
structure LocalTime where
  Hour : Nat
  Minute : Nat
  Second : Nat
  deriving DecidableEq, Repr

/-- The type `LocalDatetime`. -/
structure LocalDatetime where
  LocalDate : LocalDate
  LocalTime : LocalTime
  deriving DecidableEq, Repr

/-- The zero value `LocalDate{}`. -/
def LocalDate.zero : LocalDate := ⟨0, 0, 0⟩

/-- The zero value `LocalTime{}`. -/
def LocalTime.zero : LocalTime := ⟨0, 0, 0⟩

/-- The zero value `LocalDatetime{}`. -/
def LocalDatetime.zero : LocalDatetime := ⟨LocalDate.zero, LocalTime.zero⟩

def LocalDate.ToTime (d : LocalDate) (loc : GoTime.Location) : Time :=
  Date (toInt d.Year) (toInt d.Month) (toInt d.Day) 0 0 0 0 loc

def LocalDate.ToTimeUtc (d : LocalDate) : Time :=
  d.ToTime Timezone.UTC.Location

def LocalDate.Before (d targetDate : LocalDate) : Bool :=
  d.ToTimeUtc.Before targetDate.ToTimeUtc

def LocalDate.After (d targetDate : LocalDate) : Bool :=
  d.ToTimeUtc.After targetDate.ToTimeUtc

def LocalDate.Equal (d targetDate : LocalDate) : Bool :=
  d.ToTimeUtc.Equal targetDate.ToTimeUtc

def LocalDate.Between (d start end_ : LocalDate) : Bool :=
  (d.After start || d.Equal start) && (d.Equal end_ || d.Before end_)

def LocalDate.IsZero (d : LocalDate) : Bool :=
  d.Year == 0 && d.Month == 0 && d.Day == 0

def LocalDate.Sub (d target : LocalDate) : Int × Bool :=
  let duration := d.ToTimeUtc.Sub target.ToTimeUtc
  if duration = MaxDuration ∨ duration = MinDuration then (duration, false)
  else (duration, true)

def LocalDateFromTime (tm : Time) : LocalDate :=
  { Year := toUint tm.Year, Month := toUint tm.Month, Day := toUint tm.Day }

def LocalDate.Add (d : LocalDate) (duration : Int) : LocalDate :=
  LocalDateFromTime (d.ToTimeUtc.Add duration)

def NewLocalDate (year month day : Int) : LocalDate :=
  let tm := Date year month day 0 0 0 0 Timezone.UTC.Location
  if tm.Unix < FirstUnixInAD then LocalDate.zero
  else { Year := toUint tm.Year, Month := toUint tm.Month, Day := toUint tm.Day }

/-- The type `LocalDatePeriod`. -/
structure LocalDatePeriod where
  Start : LocalDate
  End : LocalDate
  deriving DecidableEq, Repr

/-- The type `LocalDatePeriods`. -/
abbrev LocalDatePeriods := List LocalDatePeriod

/-- The state of the `for` loop of `DivideDatePeriod` at the top of an
iteration: the loop variable `d`, `dayCounter`, `tmpStart` and `periods`. -/
structure DivideState where
  d : LocalDate
  dayCounter : Int
  tmpStart : LocalDate
  periods : LocalDatePeriods
  deriving DecidableEq, Repr

/-- One run of the body of the `for` loop of `DivideDatePeriod`: either the
loop breaks with the final `periods` (`Sum.inr`), or it goes on with the state
reached after the post statement `d = d.Add(oneDay)` (`Sum.inl`). -/
def divideStep (end_ : LocalDate) (day : Int) (s : DivideState) : DivideState ⊕ LocalDatePeriods :=
  let oneDay := wrap64 (24 * GoTime.Hour)
  let dayCounter := s.dayCounter + 1
  let tmpStart := if dayCounter = 1 then s.d else s.tmpStart
  let periods := if dayCounter = day then s.periods ++ [⟨tmpStart, s.d⟩] else s.periods
  let tmpStart := if dayCounter = day then LocalDate.zero else tmpStart
  let dayCounter := if dayCounter = day then 0 else dayCounter
  if s.d.After end_ || s.d.Equal end_ then
    Sum.inr (periods ++ [⟨tmpStart, s.d⟩])
  else
    Sum.inl ⟨s.d.Add oneDay, dayCounter, tmpStart, periods⟩

/-- The `for` loop of `DivideDatePeriod`, run for at most `fuel` iterations;
`none` when the loop has not reached its `break` by then. -/
def divideLoop (end_ : LocalDate) (day : Int) : Nat → DivideState → Option LocalDatePeriods
  | 0, _ => none
  | fuel + 1, s =>
    match divideStep end_ day s with
    | Sum.inr periods => some periods
    | Sum.inl s1 => divideLoop end_ day fuel s1

/-- The function `DivideDatePeriod(start, end, day)`, its loop bounded by
`fuel` iterations: `none` when the fuel runs out, otherwise the returned pair
of the periods and the error (`[]` is the `nil` list, `none` the `nil`
error). -/
def DivideDatePeriod (fuel : Nat) (start end_ : LocalDate) (day : Int) :
    Option (LocalDatePeriods × Option Err) :=
  if start.IsZero || end_.IsZero then some ([], some .ErrEmptyDate)
  else if day < 1 then some ([], some .ErrIncorrectDivisionDays)
  else
    let r := end_.Sub start
    if !r.2 then some ([], some .ErrLengthOfPeriod)
    else if r.1 ≤ wrap64 (wrap64 (day * 24) * GoTime.Hour) then some ([⟨start, end_⟩], none)
    else
      match divideLoop end_ day fuel ⟨start, 0, LocalDate.zero, []⟩ with
      | none => none
      | some periods => some (periods, none)

def LocalTime.IsZero (t : LocalTime) : Bool :=
  t.Hour == 0 && t.Minute == 0 && t.Second == 0

def LocalDatetime.ToTime (dt : LocalDatetime) (loc : GoTime.Location) : Time :=
  Date (toInt dt.LocalDate.Year) (toInt dt.LocalDate.Month) (toInt dt.LocalDate.Day)
    (toInt dt.LocalTime.Hour) (toInt dt.LocalTime.Minute) (toInt dt.LocalTime.Second) 0 loc

def LocalDatetime.ToTimeUtc (dt : LocalDatetime) : Time :=
  dt.ToTime Timezone.UTC.Location

def LocalDatetime.Before (dt targetDateTime : LocalDatetime) : Bool :=
  dt.ToTimeUtc.Before targetDateTime.ToTimeUtc

def LocalDatetime.After (dt targetDateTime : LocalDatetime) : Bool :=
  dt.ToTimeUtc.After targetDateTime.ToTimeUtc

def LocalDatetime.Equal (dt targetDateTime : LocalDatetime) : Bool :=
  dt.ToTimeUtc.Equal targetDateTime.ToTimeUtc

def LocalDatetime.BeforeEqual (dt targetDateTime : LocalDatetime) : Bool :=
  dt.Before targetDateTime || dt.Equal targetDateTime

def LocalDatetime.AfterEqual (dt targetDateTime : LocalDatetime) : Bool :=
  dt.After targetDateTime || dt.Equal targetDateTime

def LocalDatetime.Between (dt start end_ : LocalDatetime) : Bool :=
  (dt.After start || dt.Equal start) && (dt.Equal end_ || dt.Before end_)

def LocalDatetime.Sub (dt target : LocalDatetime) : Int × Bool :=
  let duration := dt.ToTimeUtc.Sub target.ToTimeUtc
  if duration = MaxDuration ∨ duration = MinDuration then (duration, false)
  else (duration, true)

def LocalDatetime.IsZero (dt : LocalDatetime) : Bool :=
  dt.LocalDate.IsZero && dt.LocalTime.IsZero

def LocalDatetime.IsNotZero (dt : LocalDatetime) : Bool :=
  !dt.IsZero

def NewLocalDatetime (year month day : Nat) (hour min sec : Int) : LocalDatetime :=
  let tm := Date (toInt year) (toInt month) (toInt day) hour min sec 0 Timezone.UTC.Location
  if tm.Unix < FirstUnixInAD then LocalDatetime.zero
  else
    let localTime : LocalTime :=
      { Hour := toUint tm.Hour, Minute := toUint tm.Minute, Second := toUint tm.Second }
    let localDate : LocalDate :=
      { Year := toUint tm.Year, Month := toUint tm.Month, Day := toUint tm.Day }
    { LocalDate := localDate, LocalTime := localTime }

def LocalDatetimeFromTime (tm : Time) : LocalDatetime :=
  NewLocalDatetime (toUint tm.Year) (toUint tm.Month) (toUint tm.Day) tm.Hour tm.Minute tm.Second

def LocalDatetime.Add (dt : LocalDatetime) (d : Int) : LocalDatetime :=
  LocalDatetimeFromTime ((dt.ToTime Timezone.UTC.Location).Add d)

/-- The tuple `(year, month, day, hour, minute, second)` of `a` is
lexicographically smaller than that of `b`. -/
def LocalDatetime.tupleLt (a b : LocalDatetime) : Prop :=
  a.LocalDate.Year < b.LocalDate.Year ∨ (a.LocalDate.Year = b.LocalDate.Year ∧
  (a.LocalDate.Month < b.LocalDate.Month ∨ (a.LocalDate.Month = b.LocalDate.Month ∧
  (a.LocalDate.Day < b.LocalDate.Day ∨ (a.LocalDate.Day = b.LocalDate.Day ∧
  (a.LocalTime.Hour < b.LocalTime.Hour ∨ (a.LocalTime.Hour = b.LocalTime.Hour ∧
  (a.LocalTime.Minute < b.LocalTime.Minute ∨ (a.LocalTime.Minute = b.LocalTime.Minute ∧
  a.LocalTime.Second < b.LocalTime.Second)))))))))

/-- The fields of a date are a real calendar value with a year within
`MaxYear`: month 1..12 and the day within the month (`daysIn`). -/
def LocalDate.wellFormed (d : LocalDate) : Prop :=
  d.Year ≤ MaxYear ∧ 1 ≤ d.Month ∧ d.Month ≤ 12 ∧ 1 ≤ d.Day ∧
  (d.Day : Int) ≤ daysIn d.Month d.Year

/-- The fields of a time of day are within 0..23, 0..59 and 0..59. -/
def LocalTime.wellFormed (t : LocalTime) : Prop :=
  t.Hour ≤ 23 ∧ t.Minute ≤ 59 ∧ t.Second ≤ 59

/-- Both parts of a datetime are well formed. -/
def LocalDatetime.wellFormed (dt : LocalDatetime) : Prop :=
  dt.LocalDate.wellFormed ∧ dt.LocalTime.wellFormed

/-- The midnight of the date is an instant that `time.Time` holds: every field
is below `2^63`, so that the conversion to `int` keeps it, and the seconds
since January 1 of year 1 of the calendar-normalised midnight fit a signed
64-bit integer. The last second that does is 15:30:07 of December 6 of year
292277024627. -/
def LocalDate.representable (d : LocalDate) : Prop :=
  d.Year < 9223372036854775808 ∧ d.Month < 9223372036854775808 ∧
    d.Day < 9223372036854775808 ∧
    civilSec d.Year d.Month d.Day 0 0 0 + 62135596800 ≤ 9223372036854775807

/-- The instant of the datetime is one that `time.Time` holds: every field is
below `2^63` and the seconds since January 1 of year 1 of the
calendar-normalised instant fit a signed 64-bit integer, that is, the instant
is not after 15:30:07 of December 6 of year 292277024627. -/
def LocalDatetime.representable (dt : LocalDatetime) : Prop :=
  dt.LocalDate.Year < 9223372036854775808 ∧ dt.LocalDate.Month < 9223372036854775808 ∧
    dt.LocalDate.Day < 9223372036854775808 ∧ dt.LocalTime.Hour < 9223372036854775808 ∧
    dt.LocalTime.Minute < 9223372036854775808 ∧ dt.LocalTime.Second < 9223372036854775808 ∧
    civilSec dt.LocalDate.Year dt.LocalDate.Month dt.LocalDate.Day dt.LocalTime.Hour
      dt.LocalTime.Minute dt.LocalTime.Second + 62135596800 ≤ 9223372036854775807

/-- The fields of a date are a real calendar date of year 1 or later: month
1..12 and the day within the month (`daysIn`). -/
def LocalDate.isCalendar (d : LocalDate) : Prop :=
  1 ≤ d.Year ∧ 1 ≤ d.Month ∧ d.Month ≤ 12 ∧ 1 ≤ d.Day ∧
  (d.Day : Int) ≤ daysIn d.Month d.Year

/-- The method `LocalDate.Valid`: the receiver and the error (`none` is the
`nil` error; every error wraps `ErrOutOfRangeDate`). -/
def LocalDate.Valid (d : LocalDate) : LocalDate × Option Err :=
  if d.Year < MinYear ∨ MaxYear < d.Year then (d, some .ErrOutOfRangeDate)
  else if d.Month < MinMonthOfYear ∨ MaxMonthOfYear < d.Month then (d, some .ErrOutOfRangeDate)
  else if d.Day < MinDayOfMonth ∨ MaxDayOfMonth < d.Day then (d, some .ErrOutOfRangeDate)
  else (d, none)

/-- The method `LocalTime.Valid`. -/
def LocalTime.Valid (t : LocalTime) : LocalTime × Option Err :=
  if t.Hour < MinHourOfDay ∨ MaxHourOfDay < t.Hour then (t, some .ErrOutOfRangeDate)
  else if t.Minute < MinMinuteOfHour ∨ MaxMinuteOfHour < t.Minute then
    (t, some .ErrOutOfRangeDate)
  else if t.Second < MinSecOfMinute ∨ MaxSecOfMinute < t.Second then
    (t, some .ErrOutOfRangeDate)
  else (t, none)

/-- The constructor `NewLocalTime(hour, min, sec)`. -/
def NewLocalTime (hour min sec : Nat) : LocalTime × Option Err :=
  LocalTime.Valid { Hour := hour, Minute := min, Second := sec }

/-- The method `LocalDate.LocalDatetime`: the date at 00:00:00. -/
def LocalDate.LocalDatetime (d : LocalDate) : LocalDatetime :=
  { LocalDate := d, LocalTime := { Hour := 0, Minute := 0, Second := 0 } }

end Dates

namespace GoStd

/-- The decimal text of a natural number, most significant digit first. -/
def decimal (n : Nat) : List Char :=
  Nat.toDigits 10 n

/-- The function `strconv.Itoa`: the decimal text of an `int`, with a minus
sign for a negative number. A Go `string` is the list of its characters. -/
def Itoa (i : Int) : List Char :=
  if i < 0 then '-' :: decimal i.natAbs else decimal i.toNat

/-- The value of a decimal digit character (`ch - '0'`). -/
def digitVal (c : Char) : Nat :=
  c.toNat - 48

/-- The number spelled by a list of decimal digits. -/
def digitsVal (s : List Char) : Nat :=
  s.foldl (fun n c => n * 10 + digitVal c) 0

/-- The text after the optional sign that `strconv.Atoi` accepts in front of
the digits. -/
def stripSign (s : List Char) : List Char :=
  match s with
  | '-' :: r => r
  | '+' :: r => r
  | _ => s

/-- The function `strconv.Atoi`: an optional sign followed by one or more
decimal digits, the value within the range of `int`; `none` is the error. -/
def Atoi (s : List Char) : Option Int :=
  if stripSign s = [] ∨ !(stripSign s).all Char.isDigit then none
  else
    let n : Int :=
      if s.head? = some '-' then -(digitsVal (stripSign s) : Int)
      else (digitsVal (stripSign s) : Int)
    if -9223372036854775808 ≤ n ∧ n ≤ 9223372036854775807 then some n else none

/-- An item of the two regular expressions of the package: a captured group
`(\d{min,max})` of decimal digits, or a literal character. -/
inductive ReItem where
  | digits (min max : Nat)
  | lit (c : Char)
  deriving DecidableEq, Repr

/-- A greedy, backtracking match of a group `(\d{min,max})`: the longest run
of `min + extra` down to `min` digits after which the rest of the pattern
(`cont`) matches. -/
def matchDigits (cont : List Char → Option (List (List Char))) (s : List Char) (min : Nat) :
    Nat → Option (List (List Char))
  | 0 =>
    if (s.take min).length = min ∧ (s.take min).all Char.isDigit then
      (cont (s.drop min)).map (fun gs => s.take min :: gs)
    else none
  | extra + 1 =>
    let k := min + (extra + 1)
    let r := if (s.take k).length = k ∧ (s.take k).all Char.isDigit then
        (cont (s.drop k)).map (fun gs => s.take k :: gs)
      else none
    match r with
    | some gs => some gs
    | none => matchDigits cont s min extra

/-- The match of a pattern anchored at the start of the text (`^`): the
captured groups, or `none` when the text does not start with the pattern. -/
def matchItems : List ReItem → List Char → Option (List (List Char))
  | [], _ => some []
  | ReItem.lit c :: rest, s =>
    match s with
    | x :: xs => if x = c then matchItems rest xs else none
    | [] => none
  | ReItem.digits min max :: rest, s => matchDigits (matchItems rest) s min (max - min)

/-- The number of characters a match of the pattern consumed, given its
groups. -/
def matchLength (items : List ReItem) (groups : List (List Char)) : Nat :=
  (items.filter (fun i => match i with | ReItem.lit _ => true | _ => false)).length
    + (groups.map List.length).sum

/-- The method `FindStringSubmatch` of a pattern anchored with `^`: the whole
match followed by the groups, or the nil slice `[]` when there is no match. -/
def FindStringSubmatch (items : List ReItem) (target : List Char) : List (List Char) :=
  match matchItems items target with
  | some groups => target.take (matchLength items groups) :: groups
  | none => []

/-- The dynamic values passed to `Scan` and returned by `Value`
(`driver.Value`, `interface{}`): nil, a `string`, a `[]byte`, or a value of
any other type, given by the text `fmt.Sprintf("%v", v)` prints for it. -/
inductive Value where
  | null
  | str (s : List Char)
  | bytes (b : List Char)
  | other (printed : List Char)
  deriving DecidableEq, Repr

/-- The converter `driver.String.ConvertValue`: a `string` or a `[]byte` is
returned unchanged, any other value is printed with `%v`. It has no error. -/
def ConvertValue (v : Value) : Value :=
  match v with
  | Value.str s => Value.str s
  | Value.bytes b => Value.bytes b
  | Value.null => Value.str ['<', 'n', 'i', 'l', '>']
  | Value.other p => Value.str p

/-- Four hexadecimal digits of a number below 65536, as `encoding/json`
writes them after `\u`. -/
def hex4 (n : Nat) : List Char :=
  [Nat.digitChar (n / 4096 % 16), Nat.digitChar (n / 256 % 16), Nat.digitChar (n / 16 % 16),
    Nat.digitChar (n % 16)]

/-- The text `encoding/json` writes for one character of a string, with HTML
escaping on (the default of `json.Marshal`). -/
def jsonEscape (c : Char) : List Char :=
  if c = '"' then ['\\', '"']
  else if c = '\\' then ['\\', '\\']
  else if c = '\x08' then ['\\', 'b']
  else if c = '\x0c' then ['\\', 'f']
  else if c = '\n' then ['\\', 'n']
  else if c = '\r' then ['\\', 'r']
  else if c = '\t' then ['\\', 't']
  else if c.toNat < 32 ∨ c = '<' ∨ c = '>' ∨ c = '&' ∨ c.toNat = 8232 ∨ c.toNat = 8233 then
    '\\' :: 'u' :: hex4 c.toNat
  else [c]

/-- The function `json.Marshal` on the two values the package passes to it:
`nil` (`none`) gives `null`, a string gives its quoted text. It has no error
on these. -/
def jsonMarshal (v : Option (List Char)) : List Char :=
  match v with
  | none => ['n', 'u', 'l', 'l']
  | some s => '"' :: (s.flatMap jsonEscape ++ ['"'])

/-- The value of a hexadecimal digit, `none` for any other character. -/
def hexVal (c : Char) : Option Nat :=
  if c.isDigit then some (c.toNat - 48)
  else if 'a' ≤ c ∧ c ≤ 'f' then some (c.toNat - 87)
  else if 'A' ≤ c ∧ c ≤ 'F' then some (c.toNat - 55)
  else none

/-- The number written by the four hexadecimal digits after `\u`. -/
def hex4Val (a b c d : Char) : Option Nat :=
  match hexVal a, hexVal b, hexVal c, hexVal d with
  | some x, some y, some z, some w => some (((x * 16 + y) * 16 + z) * 16 + w)
  | _, _, _, _ => none

/-- The characters of a JSON string literal after its opening quote, decoded
up to the closing quote, which has to be the last character; `none` when the
literal is not valid. A `\u` escape of a high surrogate followed by a `\u`
escape of a low surrogate decodes to the character of the pair; any other
`\u` escape of a surrogate decodes to U+FFFD. -/
def jsonUnquoteBody : List Char → Option (List Char)
  | [] => none
  | ['"'] => some []
  | '"' :: _ :: _ => none
  | '\\' :: 'u' :: a :: b :: c :: d :: rest =>
    match hex4Val a b c d with
    | none => none
    | some n =>
      let r := jsonUnquoteBody rest
      if 55296 ≤ n ∧ n < 57344 then
        match rest with
        | '\\' :: 'u' :: a2 :: b2 :: c2 :: d2 :: rest2 =>
          match hex4Val a2 b2 c2 d2 with
          | some n2 =>
            if n < 56320 ∧ 56320 ≤ n2 ∧ n2 < 57344 then
              (jsonUnquoteBody rest2).map
                (fun s => Char.ofNat ((n - 55296) * 1024 + (n2 - 56320) + 65536) :: s)
            else r.map (fun s => Char.ofNat 65533 :: s)
          | none => r.map (fun s => Char.ofNat 65533 :: s)
        | _ => r.map (fun s => Char.ofNat 65533 :: s)
      else r.map (fun s => Char.ofNat n :: s)
  | '\\' :: e :: rest =>
    let r := jsonUnquoteBody rest
    if e = '"' then r.map (fun s => '"' :: s)
    else if e = '\\' then r.map (fun s => '\\' :: s)
    else if e = '/' then r.map (fun s => '/' :: s)
    else if e = 'b' then r.map (fun s => '\x08' :: s)
    else if e = 'f' then r.map (fun s => '\x0c' :: s)
    else if e = 'n' then r.map (fun s => '\n' :: s)
    else if e = 'r' then r.map (fun s => '\r' :: s)
    else if e = 't' then r.map (fun s => '\t' :: s)
    else none
  | ['\\'] => none
  | c :: rest =>
    if c.toNat < 32 then none else (jsonUnquoteBody rest).map (fun s => c :: s)

/-- The white space of JSON. -/
def jsonSpace (c : Char) : Bool :=
  c = ' ' || c = '\t' || c = '\r' || c = '\n'

/-- The text of a JSON document without the white space around it. -/
def jsonTrim (data : List Char) : List Char :=
  ((data.dropWhile jsonSpace).reverse.dropWhile jsonSpace).reverse

/-- The call `json.Unmarshal(data, &str)` on a string variable holding `init`:
the literal `null` leaves the variable unchanged, a string literal stores its
text, and anything else (another kind of value, or text that is not JSON) is
an error, `none`. -/
def jsonUnmarshalString (data : List Char) (init : List Char) : Option (List Char) :=
  if jsonTrim data = ['n', 'u', 'l', 'l'] then some init
  else
    match jsonTrim data with
    | '"' :: body => jsonUnquoteBody body
    | _ => none

end GoStd

namespace GoTime

open GoStd

/-- The chunks of a layout of `time` that the embedding covers, named as in
`time/format.go`: `2006`, `01`, `02`, `15`, `04`, `05` and `Z07:00`. -/
inductive Std where
  | stdLongYear
  | stdZeroMonth
  | stdZeroDay
  | stdHour
  | stdZeroMinute
  | stdZeroSecond
  | stdISO8601ColonTZ
  deriving DecidableEq, Repr

/-- A layout as `nextStdChunk` cuts it: chunks, each with the literal text in
front of it, and the literal text after the last chunk. -/
structure Layout where
  chunks : List (List Char × Std)
  suffix : List Char
  deriving DecidableEq, Repr

/-- The test `isDigit(s, i)` of `time/format.go`. -/
def isDigitAt (s : List Char) (i : Nat) : Bool :=
  match s.get? i with
  | some c => c.isDigit
  | none => false

/-- The function `getnum`: one or two digits, exactly two when `fixed`. -/
def getnum (s : List Char) (fixed : Bool) : Option (Int × List Char) :=
  if !isDigitAt s 0 then none
  else if !isDigitAt s 1 then
    if fixed then none else some ((digitsVal (s.take 1) : Int), s.drop 1)
  else some ((digitsVal (s.take 2) : Int), s.drop 2)

/-- The function `cutspace`: the text without its leading spaces. -/
def cutspace (s : List Char) : List Char :=
  s.dropWhile (fun c => c = ' ')

/-- The function `skip(value, prefix)`: the value without the literal prefix
of the layout, a run of spaces in the prefix standing for any run of spaces in
the value (or its end); `none` is `errBad`. The flag says that the spaces of
the prefix just read are already cut. -/
def skipFrom : Bool → List Char → List Char → Option (List Char)
  | _, value, [] => some value
  | afterSpace, value, p :: ps =>
    if p = ' ' then
      if afterSpace then skipFrom true value ps
      else
        match value with
        | v :: _ => if v ≠ ' ' then none else skipFrom true (cutspace value) ps
        | [] => skipFrom true [] ps
    else
      match value with
      | v :: vs => if v = p then skipFrom false vs ps else none
      | [] => none

def skip (value pfx : List Char) : Option (List Char) :=
  skipFrom false value pfx

/-- The fields `parse` collects: `month` and `day` start at -1 and
`zoneOffset` at -1, `z` is the location set by a `Z`. -/
structure ParseState where
  year : Int
  month : Int
  day : Int
  hour : Int
  min : Int
  sec : Int
  nsec : Int
  z : Option Location
  zoneOffset : Int
  deriving DecidableEq, Repr

def ParseState.init : ParseState :=
  ⟨0, -1, -1, 0, 0, 0, 0, none, -1⟩

/-- The function `parseNanoseconds` on a separator followed by `nbytes - 1`
digits: at most nine digits count. -/
def parseNanoseconds (value : List Char) (nbytes : Nat) : Int :=
  let n := if 10 < nbytes then 10 else nbytes
  (digitsVal ((value.take n).drop 1) : Int) * 10 ^ (10 - n)

/-- The step of `parse` for one chunk of the layout: the new fields and the
rest of the value; `none` when the value does not fit the chunk or a field is
out of range. -/
def parseStd (std : Std) (st : ParseState) (value : List Char) :
    Option (ParseState × List Char) :=
  match std with
  | Std.stdLongYear =>
    if value.length < 4 ∨ !isDigitAt value 0 then none
    else if (value.take 4).all Char.isDigit then
      some ({ st with year := (digitsVal (value.take 4) : Int) }, value.drop 4)
    else none
  | Std.stdZeroMonth =>
    match getnum value true with
    | none => none
    | some (m, v) => if m ≤ 0 ∨ 12 < m then none else some ({ st with month := m }, v)
  | Std.stdZeroDay =>
    match getnum value true with
    | none => none
    | some (d, v) => some ({ st with day := d }, v)
  | Std.stdHour =>
    match getnum value false with
    | none => none
    | some (h, v) => if h < 0 ∨ 24 ≤ h then none else some ({ st with hour := h }, v)
  | Std.stdZeroMinute =>
    match getnum value true with
    | none => none
    | some (m, v) => if m < 0 ∨ 60 ≤ m then none else some ({ st with min := m }, v)
  | Std.stdZeroSecond =>
    match getnum value true with
    | none => none
    | some (s, v) =>
      if s < 0 ∨ 60 ≤ s then none
      else if 2 ≤ v.length ∧ (v.head? = some '.' ∨ v.head? = some ',') ∧ isDigitAt v 1 then
        let n := 2 + ((v.drop 2).takeWhile Char.isDigit).length
        some ({ st with sec := s, nsec := parseNanoseconds v n }, v.drop n)
      else some ({ st with sec := s }, v)
  | Std.stdISO8601ColonTZ =>
    if value.head? = some 'Z' then some ({ st with z := some (FixedZone 0) }, value.drop 1)
    else if value.length < 6 then none
    else if value.get? 3 ≠ some ':' then none
    else
      match getnum ((value.drop 1).take 2) true, getnum ((value.drop 4).take 2) true with
      | some (hr, _), some (mm, _) =>
        if 24 < hr ∨ 60 < mm then none
        else if value.head? = some '+' then
          some ({ st with zoneOffset := (hr * 60 + mm) * 60 }, value.drop 6)
        else if value.head? = some '-' then
          some ({ st with zoneOffset := -((hr * 60 + mm) * 60) }, value.drop 6)
        else none
      | _, _ => none

/-- The loop of `parse` over the chunks of the layout. -/
def parseChunks : List (List Char × Std) → ParseState → List Char →
    Option (ParseState × List Char)
  | [], st, value => some (st, value)
  | (pfx, std) :: rest, st, value =>
    match skip value pfx with
    | none => none
    | some v1 =>
      match parseStd std st v1 with
      | none => none
      | some (st1, v2) => parseChunks rest st1 v2

/-- The function `time.ParseInLocation(layout, value, loc)` for the layouts
made of the chunks of `Std`; `none` is the parse error. After the chunks the
rest of the layout has to match and no text may be left; a month or day that
the layout lacks is 1; the day has to exist in the month; a zone offset read
from the value gives a time in a fixed zone of that offset, a `Z` a time in
UTC, and otherwise the time is read in `loc`. -/
def ParseInLocation (layout : Layout) (value : List Char) (loc : Location) : Option Time :=
  match parseChunks layout.chunks ParseState.init value with
  | none => none
  | some (st, v) =>
    match skip v layout.suffix with
    | none => none
    | some v1 =>
      if v1 ≠ [] then none
      else
        let month := if st.month < 0 then 1 else st.month
        let day := if st.day < 0 then 1 else st.day
        if day < 1 ∨ daysIn month st.year < day then none
        else
          match st.z with
          | some z => some (Date st.year month day st.hour st.min st.sec st.nsec z)
          | none =>
            if st.zoneOffset ≠ -1 then
              let t := Date st.year month day st.hour st.min st.sec st.nsec (FixedZone 0)
              some { t.addSec (-st.zoneOffset) with loc := FixedZone st.zoneOffset }
            else some (Date st.year month day st.hour st.min st.sec st.nsec loc)

end GoTime

namespace Dates

open GoInt GoTime GoStd

/-- The pattern `LocalDateRegex`, `^(\d{4})-(\d{1,2})-(\d{1,2})`. -/
def LocalDateRegex : List ReItem :=
  [.digits 4 4, .lit '-', .digits 1 2, .lit '-', .digits 1 2]

/-- The pattern `LocalDateTimeRegex`,
`^(\d{4})-(\d{1,2})-(\d{1,2})\ (\d{1,2}):(\d{1,2}):(\d{1,2})`. -/
def LocalDateTimeRegex : List ReItem :=
  [.digits 4 4, .lit '-', .digits 1 2, .lit '-', .digits 1 2, .lit ' ', .digits 1 2, .lit ':',
    .digits 1 2, .lit ':', .digits 1 2]

/-- The function `MarshalJSON(v)` of the package: `json.Marshal` has no error
on `nil` and on strings, so the `ErrMarshalJSON` branch is not taken. -/
def MarshalJSON (v : Option (List Char)) : List Char × Option Err :=
  (jsonMarshal v, none)

/-- The method `LocalDate.SplitString`. -/
def LocalDate.SplitString (d : LocalDate) : List Char × List Char × List Char :=
  let year :=
    if d.Year < 10 then ['0', '0', '0'] ++ Itoa (toInt d.Year)
    else if d.Year < 100 then ['0', '0'] ++ Itoa (toInt d.Year)
    else if d.Year < 1000 then ['0'] ++ Itoa (toInt d.Year)
    else Itoa (toInt d.Year)
  let month := if d.Month < 10 then ['0'] ++ Itoa (toInt d.Month) else Itoa (toInt d.Month)
  let day := if d.Day < 10 then ['0'] ++ Itoa (toInt d.Day) else Itoa (toInt d.Day)
  (year, month, day)

/-- The method `LocalTime.SplitString`. -/
def LocalTime.SplitString (t : LocalTime) : List Char × List Char × List Char :=
  let h := if t.Hour < 10 then ['0'] ++ Itoa (toInt t.Hour) else Itoa (toInt t.Hour)
  let m := if t.Minute < 10 then ['0'] ++ Itoa (toInt t.Minute) else Itoa (toInt t.Minute)
  let d := if t.Second < 10 then ['0'] ++ Itoa (toInt t.Second) else Itoa (toInt t.Second)
  (h, m, d)

/-- The text `LocalDate.Value` builds. -/
def LocalDate.text (d : LocalDate) : List Char :=
  d.SplitString.1 ++ ['-'] ++ d.SplitString.2.1 ++ ['-'] ++ d.SplitString.2.2

/-- The method `LocalDate.Value`: the value and the (nil) error. -/
def LocalDate.Value (d : LocalDate) : Value × Option Err :=
  (Value.str d.text, none)

/-- The type assertion `val.(string)`; `none` is its panic. -/
def assertString (v : Value) : Option (List Char) :=
  match v with
  | Value.str s => some s
  | _ => none

/-- The method `LocalDate.String`: `d.Value()` asserted to be a string, which
it always is. -/
def LocalDate.String (d : LocalDate) : List Char :=
  (assertString d.Value.1).getD []

/-- The method `LocalDate.MarshalJSON`. -/
def LocalDate.MarshalJSON (d : LocalDate) : List Char × Option Err :=
  if d.IsZero then Dates.MarshalJSON none else Dates.MarshalJSON (some d.String)

/-- The text `LocalDatetime.Value` builds. -/
def LocalDatetime.text (dt : LocalDatetime) : List Char :=
  dt.LocalDate.SplitString.1 ++ ['-'] ++ dt.LocalDate.SplitString.2.1 ++ ['-'] ++
    dt.LocalDate.SplitString.2.2 ++ [' '] ++ dt.LocalTime.SplitString.1 ++ [':'] ++
    dt.LocalTime.SplitString.2.1 ++ [':'] ++ dt.LocalTime.SplitString.2.2

/-- The method `LocalDatetime.Value`. -/
def LocalDatetime.Value (dt : LocalDatetime) : Value × Option Err :=
  (Value.str dt.text, none)

/-- The method `LocalDatetime.String`. -/
def LocalDatetime.String (dt : LocalDatetime) : List Char :=
  (assertString dt.Value.1).getD []

/-- The method `LocalDatetime.MarshalJSON`. -/
def LocalDatetime.MarshalJSON (dt : LocalDatetime) : List Char × Option Err :=
  if dt.IsZero then Dates.MarshalJSON none else Dates.MarshalJSON (some dt.String)

/-- The result of a method with a pointer receiver: the call returns with the
value the receiver points to afterwards (`none` for a nil receiver) and the
error (`none` is nil), or it panics on a nil pointer dereference. -/
inductive Outcome (σ : Type) where
  | done (recv : Option σ) (err : Option Err)
  | panic
  deriving DecidableEq, Repr

/-- The method `LocalDate.Scan`. -/
def LocalDate.Scan (d : Option LocalDate) (value : GoStd.Value) : Outcome LocalDate :=
  if d = none ∨ value = GoStd.Value.null then Outcome.done d (some Err.ErrScan)
  else
    match ConvertValue value with
    | GoStd.Value.str v =>
      let groups := FindStringSubmatch LocalDateRegex v
      if groups.length < 4 then Outcome.done d (some Err.ErrScan)
      else
        match Atoi (groups.getD 1 []), Atoi (groups.getD 2 []), Atoi (groups.getD 3 []) with
        | some year, some month, some day =>
          Outcome.done (some ⟨toUint year, toUint month, toUint day⟩) none
        | _, _, _ => Outcome.done d (some Err.ErrScan)
    | _ => Outcome.done d (some Err.ErrScan)

/-- The method `LocalDatetime.Scan`. -/
def LocalDatetime.Scan (dt : Option LocalDatetime) (value : GoStd.Value) : Outcome LocalDatetime :=
  if dt = none ∨ value = GoStd.Value.null then Outcome.done dt (some Err.ErrScan)
  else
    match ConvertValue value with
    | GoStd.Value.str v =>
      let groups := FindStringSubmatch LocalDateTimeRegex v
      if groups.length < 7 then Outcome.done dt (some Err.ErrScan)
      else
        match Atoi (groups.getD 1 []), Atoi (groups.getD 2 []), Atoi (groups.getD 3 []),
          Atoi (groups.getD 4 []), Atoi (groups.getD 5 []), Atoi (groups.getD 6 []) with
        | some y, some m, some d, some h, some min, some sec =>
          Outcome.done (some ⟨⟨toUint y, toUint m, toUint d⟩,
            ⟨toUint h, toUint min, toUint sec⟩⟩) none
        | _, _, _, _, _, _ => Outcome.done dt (some Err.ErrScan)
    | _ => Outcome.done dt (some Err.ErrScan)

/-- The type `Format`: a layout of `time`, given by its chunks. The formats of
the package are named `Format.DateHyphen` and so on. -/
abbrev Format := GoTime.Layout

/-- The format `Month`, `200601`. -/
def Format.Month : Format :=
  ⟨[([], Std.stdLongYear), ([], Std.stdZeroMonth)], []⟩

/-- The format `MonthHyphen`, `2006-01`. -/
def Format.MonthHyphen : Format :=
  ⟨[([], Std.stdLongYear), (['-'], Std.stdZeroMonth)], []⟩

/-- The format `Date`, `20060102`. -/
def Format.Date : Format :=
  ⟨[([], Std.stdLongYear), ([], Std.stdZeroMonth), ([], Std.stdZeroDay)], []⟩

/-- The format `DateHyphen`, `2006-01-02`. -/
def Format.DateHyphen : Format :=
  ⟨[([], Std.stdLongYear), (['-'], Std.stdZeroMonth), (['-'], Std.stdZeroDay)], []⟩

/-- The format `DateSlash`, `2006/01/02`. -/
def Format.DateSlash : Format :=
  ⟨[([], Std.stdLongYear), (['/'], Std.stdZeroMonth), (['/'], Std.stdZeroDay)], []⟩

/-- The format `DateRFC3339`, `2006-01-02 Z07:00`. -/
def Format.DateRFC3339 : Format :=
  ⟨[([], Std.stdLongYear), (['-'], Std.stdZeroMonth), (['-'], Std.stdZeroDay),
    ([' '], Std.stdISO8601ColonTZ)], []⟩

/-- The format `DateTime`, `20060102150405`. -/
def Format.DateTime : Format :=
  ⟨[([], Std.stdLongYear), ([], Std.stdZeroMonth), ([], Std.stdZeroDay), ([], Std.stdHour),
    ([], Std.stdZeroMinute), ([], Std.stdZeroSecond)], []⟩

/-- The format `DateTimeHyphen`, `2006-01-02 15:04:05`. -/
def Format.DateTimeHyphen : Format :=
  ⟨[([], Std.stdLongYear), (['-'], Std.stdZeroMonth), (['-'], Std.stdZeroDay),
    ([' '], Std.stdHour), ([':'], Std.stdZeroMinute), ([':'], Std.stdZeroSecond)], []⟩

/-- The format `DateTimeSlash`, `2006/01/02 15:04:05`. -/
def Format.DateTimeSlash : Format :=
  ⟨[([], Std.stdLongYear), (['/'], Std.stdZeroMonth), (['/'], Std.stdZeroDay),
    ([' '], Std.stdHour), ([':'], Std.stdZeroMinute), ([':'], Std.stdZeroSecond)], []⟩

/-- The format `RFC3339`, `2006-01-02T15:04:05Z07:00`. -/
def Format.RFC3339 : Format :=
  ⟨[([], Std.stdLongYear), (['-'], Std.stdZeroMonth), (['-'], Std.stdZeroDay),
    (['T'], Std.stdHour), ([':'], Std.stdZeroMinute), ([':'], Std.stdZeroSecond),
    ([], Std.stdISO8601ColonTZ)], []⟩

/-- The function `ParseLocalDate`. -/
def ParseLocalDate (f : Format) (t : List Char) : LocalDate × Option Err :=
  let loc := Timezone.UTC.Location
  match ParseInLocation f t loc with
  | none => (LocalDate.zero, some Err.ErrParse)
  | some tm => (LocalDateFromTime tm, none)

/-- The function `ParseLocalDatetime`. -/
def ParseLocalDatetime (f : Format) (t : List Char) : LocalDatetime × Option Err :=
  let loc := Timezone.UTC.Location
  match ParseInLocation f t loc with
  | none => (LocalDatetime.zero, some Err.ErrParse)
  | some tm => (LocalDatetimeFromTime tm, none)

/-- The method `LocalDate.UnmarshalJSON`. -/
def LocalDate.UnmarshalJSON (d : Option LocalDate) (data : List Char) : Outcome LocalDate :=
  if d = none ∨ data.length = 0 then Outcome.done d (some Err.ErrUnmarshalJSON)
  else
    match jsonUnmarshalString data [] with
    | none => Outcome.done d (some Err.ErrUnmarshalJSON)
    | some str =>
      match ParseLocalDate Format.DateHyphen str with
      | (_, some _) => Outcome.done d (some Err.ErrUnmarshalJSON)
      | (date, none) => Outcome.done (some date) none

/-- The method `LocalDate.UnmarshalFlag`: the error of `ParseLocalDate` is
returned as it is. -/
def LocalDate.UnmarshalFlag (d : Option LocalDate) (s : List Char) : Outcome LocalDate :=
  if d = none ∨ s.length = 0 then Outcome.done d (some Err.ErrUnmarshalFlag)
  else
    match ParseLocalDate Format.DateHyphen s with
    | (_, some err) => Outcome.done d (some err)
    | (date, none) => Outcome.done (some date) none

/-- The method `LocalDatetime.UnmarshalJSON`. -/
def LocalDatetime.UnmarshalJSON (dt : Option LocalDatetime) (data : List Char) :
    Outcome LocalDatetime :=
  if dt = none ∨ data.length = 0 then Outcome.done dt (some Err.ErrUnmarshalJSON)
  else
    match jsonUnmarshalString data [] with
    | none => Outcome.done dt (some Err.ErrUnmarshalJSON)
    | some str =>
      match ParseInLocation Format.DateTimeHyphen str Timezone.UTC.Location with
      | none => Outcome.done dt (some Err.ErrUnmarshalJSON)
      | some time => Outcome.done (some (LocalDatetimeFromTime time)) none

/-- The method `LocalDatetime.UnmarshalFlag`: it has no test of the receiver,
so the assignment `*dt = datetime` after a successful parse panics on a nil
receiver. -/
def LocalDatetime.UnmarshalFlag (dt : Option LocalDatetime) (s : List Char) :
    Outcome LocalDatetime :=
  match ParseLocalDatetime Format.DateTimeHyphen s with
  | (_, some err) => Outcome.done dt (some err)
  | (datetime, none) =>
    match dt with
    | none => Outcome.panic
    | some _ => Outcome.done (some datetime) none

end Dates

namespace Nulldates

open GoInt GoTime GoStd Dates

/-- The type `nulldates.LocalDate`: a date that may be null. -/
structure LocalDate where
  LocalDate : Dates.LocalDate
  Valid : Bool
  deriving DecidableEq, Repr

/-- The type `nulldates.LocalDatetime`: a datetime that may be null. -/
structure LocalDatetime where
  LocalDatetime : Dates.LocalDatetime
  Valid : Bool
  deriving DecidableEq, Repr

/-- The method `LocalDate.Value`. -/
def LocalDate.Value (d : Nulldates.LocalDate) : GoStd.Value × Option Err :=
  if d.Valid then d.LocalDate.Value else (GoStd.Value.null, none)

/-- The method `LocalDate.Scan`: with a nil receiver the first branch writes
through the nil pointer and panics. When the inner `Scan` fails only `Valid`
is cleared. The inner call has a non-nil receiver, so it neither panics nor
returns a nil receiver: the last case does not occur. -/
def LocalDate.Scan (d : Option Nulldates.LocalDate) (value : GoStd.Value) :
    Outcome Nulldates.LocalDate :=
  match d with
  | none => Outcome.panic
  | some r =>
    if value = GoStd.Value.null then Outcome.done (some ⟨Dates.LocalDate.zero, false⟩) none
    else
      match Dates.LocalDate.Scan (some r.LocalDate) value with
      | Outcome.done (some inner) (some scanErr) =>
        Outcome.done (some ⟨inner, false⟩) (some scanErr)
      | Outcome.done (some inner) none => Outcome.done (some ⟨inner, true⟩) none
      | _ => Outcome.panic

/-- The method `LocalDate.MarshalJSON`: `json.Marshal(nil)` is `null`. -/
def LocalDate.MarshalJSON (d : Nulldates.LocalDate) : List Char × Option Err :=
  if d.Valid then d.LocalDate.MarshalJSON else (jsonMarshal none, none)

/-- The function `strings.EqualFold(s, "null")` on text without letters
outside ASCII: equality up to the case of the letters. -/
def equalFoldNull (s : List Char) : Bool :=
  s.map Char.toLower = ['n', 'u', 'l', 'l']

/-- The method `LocalDate.UnmarshalJSON`. -/
def LocalDate.UnmarshalJSON (d : Option Nulldates.LocalDate) (data : List Char) :
    Outcome Nulldates.LocalDate :=
  match d with
  | none => Outcome.done none (some Err.ErrUnmarshalJSON)
  | some r =>
    if data.length = 0 ∨ equalFoldNull data then
      Outcome.done (some ⟨Dates.LocalDate.zero, false⟩) none
    else
      match Dates.LocalDate.UnmarshalJSON (some r.LocalDate) data with
      | Outcome.done _ (some err) => Outcome.done (some ⟨Dates.LocalDate.zero, false⟩) (some err)
      | Outcome.done (some inner) none => Outcome.done (some ⟨inner, true⟩) none
      | _ => Outcome.panic

/-- The method `LocalDate.UnmarshalFlag`. -/
def LocalDate.UnmarshalFlag (d : Option Nulldates.LocalDate) (s : List Char) :
    Outcome Nulldates.LocalDate :=
  match d with
  | none => Outcome.done none (some Err.ErrUnmarshalFlag)
  | some r =>
    if s.length = 0 then Outcome.done (some ⟨Dates.LocalDate.zero, false⟩) none
    else
      match Dates.LocalDate.UnmarshalFlag (some r.LocalDate) s with
      | Outcome.done _ (some err) => Outcome.done (some ⟨Dates.LocalDate.zero, false⟩) (some err)
      | Outcome.done (some inner) none => Outcome.done (some ⟨inner, true⟩) none
      | _ => Outcome.panic

/-- The function `nulldates.LocalDateFromDate`. -/
def LocalDateFromDate (d : Dates.LocalDate) : Nulldates.LocalDate :=
  if d.IsZero then ⟨Dates.LocalDate.zero, false⟩ else ⟨d, true⟩

/-- The function `nulldates.NewLocalDate`. -/
def NewLocalDate (year month day : Int) : Nulldates.LocalDate :=
  let localDate := Dates.NewLocalDate year month day
  if localDate.IsZero then ⟨Dates.LocalDate.zero, false⟩ else ⟨localDate, true⟩

/-- The function `nulldates.LocalDateFromPtr`; `none` is the nil pointer. -/
def LocalDateFromPtr (d : Option Dates.LocalDate) : Nulldates.LocalDate :=
  match d with
  | none => ⟨Dates.LocalDate.zero, false⟩
  | some v => LocalDateFromDate v

/-- The method `LocalDatetime.Value`. -/
def LocalDatetime.Value (dt : Nulldates.LocalDatetime) : GoStd.Value × Option Err :=
  if dt.Valid then dt.LocalDatetime.Value else (GoStd.Value.null, none)

/-- The method `LocalDatetime.Scan`. -/
def LocalDatetime.Scan (dt : Option Nulldates.LocalDatetime) (value : GoStd.Value) :
    Outcome Nulldates.LocalDatetime :=
  match dt with
  | none => Outcome.panic
  | some r =>
    if value = GoStd.Value.null then Outcome.done (some ⟨Dates.LocalDatetime.zero, false⟩) none
    else
      match Dates.LocalDatetime.Scan (some r.LocalDatetime) value with
      | Outcome.done (some inner) (some scanErr) =>
        Outcome.done (some ⟨inner, false⟩) (some scanErr)
      | Outcome.done (some inner) none => Outcome.done (some ⟨inner, true⟩) none
      | _ => Outcome.panic

/-- The method `LocalDatetime.MarshalJSON`. -/
def LocalDatetime.MarshalJSON (dt : Nulldates.LocalDatetime) : List Char × Option Err :=
  if dt.Valid then dt.LocalDatetime.MarshalJSON else (jsonMarshal none, none)

/-- The method `LocalDatetime.UnmarshalJSON`. -/
def LocalDatetime.UnmarshalJSON (dt : Option Nulldates.LocalDatetime) (data : List Char) :
    Outcome Nulldates.LocalDatetime :=
  match dt with
  | none => Outcome.done none (some Err.ErrUnmarshalJSON)
  | some r =>
    if data.length = 0 ∨ equalFoldNull data then
      Outcome.done (some ⟨Dates.LocalDatetime.zero, false⟩) none
    else
      match Dates.LocalDatetime.UnmarshalJSON (some r.LocalDatetime) data with
      | Outcome.done _ (some err) =>
        Outcome.done (some ⟨Dates.LocalDatetime.zero, false⟩) (some err)
      | Outcome.done (some inner) none => Outcome.done (some ⟨inner, true⟩) none
      | _ => Outcome.panic

/-- The method `LocalDatetime.UnmarshalFlag`. -/
def LocalDatetime.UnmarshalFlag (dt : Option Nulldates.LocalDatetime) (s : List Char) :
    Outcome Nulldates.LocalDatetime :=
  match dt with
  | none => Outcome.done none (some Err.ErrUnmarshalFlag)
  | some r =>
    if s.length = 0 then Outcome.done (some ⟨Dates.LocalDatetime.zero, false⟩) none
    else
      match Dates.LocalDatetime.UnmarshalFlag (some r.LocalDatetime) s with
      | Outcome.done _ (some err) =>
        Outcome.done (some ⟨Dates.LocalDatetime.zero, false⟩) (some err)
      | Outcome.done (some inner) none => Outcome.done (some ⟨inner, true⟩) none
      | _ => Outcome.panic

/-- The function `nulldates.NewLocalDatetime`. -/
def NewLocalDatetime (year month day : Nat) (hour min sec : Int) : Nulldates.LocalDatetime :=
  let dtm := Dates.NewLocalDatetime year month day hour min sec
  if dtm.IsZero then ⟨Dates.LocalDatetime.zero, false⟩ else ⟨dtm, true⟩

/-- The method `Time.IsZero` of `time`: the instant January 1, year 1,
00:00:00 UTC. -/
def timeIsZero (t : Time) : Bool :=
  t.sec = 0 && t.nsec = 0

/-- The function `nulldates.LocalDatetimeFromTime`. -/
def LocalDatetimeFromTime (t : Time) : Nulldates.LocalDatetime :=
  if timeIsZero t then ⟨Dates.LocalDatetime.zero, false⟩
  else ⟨Dates.LocalDatetimeFromTime t, true⟩

/-- The function `nulldates.LocalDatetimeFromTimePtr`. -/
def LocalDatetimeFromTimePtr (t : Option Time) : Nulldates.LocalDatetime :=
  match t with
  | none => ⟨Dates.LocalDatetime.zero, false⟩
  | some v => LocalDatetimeFromTime v

/-- The function `nulldates.LocalDatetimeFromDate`. -/
def LocalDatetimeFromDate (d : Dates.LocalDate) : Nulldates.LocalDatetime :=
  let dtm := d.LocalDatetime
  if dtm.IsZero then ⟨Dates.LocalDatetime.zero, false⟩ else ⟨dtm, true⟩

/-- The function `nulldates.LocalDatetimeFromDatetime`. -/
def LocalDatetimeFromDatetime (dt : Dates.LocalDatetime) : Nulldates.LocalDatetime :=
  if dt.IsZero then ⟨Dates.LocalDatetime.zero, false⟩ else ⟨dt, true⟩

/-- The function `nulldates.LocalDatetimeFromPtr`. -/
def LocalDatetimeFromPtr (dt : Option Dates.LocalDatetime) : Nulldates.LocalDatetime :=
  match dt with
  | none => ⟨Dates.LocalDatetime.zero, false⟩
  | some v => LocalDatetimeFromDatetime v

end Nulldates

/-! ## Integer conversions -/

namespace GoInt

theorem toInt_of_lt (u : Nat) (h : u < 9223372036854775808) : toInt u = u := by
  unfold toInt
  have : u % 18446744073709551616 = u := Nat.mod_eq_of_lt (by omega)
  rw [this, if_pos h]

theorem toUint_of_range (i : Int) (h0 : 0 ≤ i) (h1 : i < 18446744073709551616) :
    ((toUint i : Nat) : Int) = i := by
  unfold toUint
  rw [Int.emod_eq_of_lt h0 h1]
  exact Int.toNat_of_nonneg h0

theorem toUint_natCast (n : Nat) (h1 : n < 18446744073709551616) : toUint (n : Int) = n := by
  have := toUint_of_range n (by omega) (by omega)
  exact_mod_cast this

theorem wrap64_of_fits (i : Int) (h0 : -9223372036854775808 ≤ i) (h1 : i ≤ 9223372036854775807) :
    wrap64 i = i := by
  unfold wrap64
  omega

theorem wrap64_range (i : Int) :
    -9223372036854775808 ≤ wrap64 i ∧ wrap64 i ≤ 9223372036854775807 := by
  unfold wrap64
  omega

theorem wrap64_wrap64 (i : Int) : wrap64 (wrap64 i) = wrap64 i := by
  obtain ⟨h0, h1⟩ := wrap64_range i
  exact wrap64_of_fits _ h0 h1

theorem toInt_toUint (i : Int) (h : isInt i) : toInt (toUint i) = i := by
  simp only [isInt] at h
  unfold toInt toUint
  have h1 : ((i % 18446744073709551616).toNat : Int) = i % 18446744073709551616 :=
    Int.toNat_of_nonneg (by omega)
  have h2 : (i % 18446744073709551616).toNat % 18446744073709551616
      = (i % 18446744073709551616).toNat := Nat.mod_eq_of_lt (by omega)
  rw [h2]
  split_ifs with hlt
  · omega
  · omega

theorem toInt_isInt (u : Nat) : isInt (toInt u) := by
  unfold toInt isInt
  split_ifs <;> omega

theorem toInt_natCast_toUint (i : Int) (h0 : 0 ≤ i) (h1 : i < 9223372036854775808) :
    toInt (toUint i) = i :=
  toInt_toUint i (by unfold isInt; omega)

theorem wrapU64_of_range (i : Int) (h0 : 0 ≤ i) (h1 : i < 18446744073709551616) :
    wrapU64 i = i := by
  unfold wrapU64
  omega

theorem wrapU64_range (i : Int) : 0 ≤ wrapU64 i ∧ wrapU64 i < 18446744073709551616 := by
  unfold wrapU64
  omega

end GoInt

/-! ## The calendar arithmetic of `time` -/

namespace GoTime

open GoInt

theorem daysBefore_vals :
    daysBefore 0 = 0 ∧ daysBefore 1 = 31 ∧ daysBefore 2 = 59 ∧ daysBefore 3 = 90 ∧
    daysBefore 4 = 120 ∧ daysBefore 5 = 151 ∧ daysBefore 6 = 181 ∧ daysBefore 7 = 212 ∧
    daysBefore 8 = 243 ∧ daysBefore 9 = 273 ∧ daysBefore 10 = 304 ∧ daysBefore 11 = 334 ∧
    daysBefore 12 = 365 := by
  decide

theorem isLeap_iff (y : Int) :
    isLeap y = true ↔ (y % 4 = 0 ∧ (y % 100 ≠ 0 ∨ y % 400 = 0)) := by
  simp [isLeap]

theorem epochDays_decomp (a b c e : Int) (hb0 : 0 ≤ b) (hb1 : b < 4) (hc0 : 0 ≤ c)
    (hc1 : c < 25) (he0 : 0 ≤ e) (he1 : e < 4) :
    epochDays (400 * a + 100 * b + 4 * c + e + absoluteZeroYear)
      = 146097 * a + 36524 * b + 1461 * c + 365 * e := by
  simp only [epochDays, daysPer400Years, daysPer100Years, daysPer4Years]
  rw [show (365 * 400 + 97 : Int) = 146097 by norm_num, show (365 * 100 + 24 : Int) = 36524 by norm_num,
    show (365 * 4 + 1 : Int) = 1461 by norm_num]
  have h0 : 400 * a + 100 * b + 4 * c + e + absoluteZeroYear - absoluteZeroYear
      = 400 * a + (100 * b + 4 * c + e) := by ring
  rw [h0]
  have h1 : (400 * a + (100 * b + 4 * c + e)) / 400 = a := by omega
  rw [h1]
  have h2 : 400 * a + (100 * b + 4 * c + e) - 400 * a = 100 * b + (4 * c + e) := by ring
  rw [h2]
  have h3 : (100 * b + (4 * c + e)) / 100 = b := by omega
  rw [h3]
  have h4 : 100 * b + (4 * c + e) - 100 * b = 4 * c + e := by ring
  rw [h4]
  have h5 : (4 * c + e) / 4 = c := by omega
  rw [h5]
  ring

theorem yearOfDays_decomp (a b c e yd : Int) (hb0 : 0 ≤ b) (hb1 : b < 4) (hc0 : 0 ≤ c)
    (hc1 : c < 25) (he0 : 0 ≤ e) (he1 : e < 4) (h0 : 0 ≤ yd)
    (h1 : yd < 365 ∨ (yd = 365 ∧ e = 3 ∧ (c ≠ 24 ∨ b = 3))) :
    yearOfDays (146097 * a + 36524 * b + 1461 * c + 365 * e + yd)
      = (400 * a + 100 * b + 4 * c + e + absoluteZeroYear, yd) := by
  simp only [yearOfDays, daysPer400Years, daysPer100Years, daysPer4Years]
  rw [show (365 * 400 + 97 : Int) = 146097 by norm_num, show (365 * 100 + 24 : Int) = 36524 by norm_num,
    show (365 * 4 + 1 : Int) = 1461 by norm_num]
  have e1 : (146097 * a + 36524 * b + 1461 * c + 365 * e + yd) / 146097 = a := by
    omega
  rw [e1]
  have e2 : 146097 * a + 36524 * b + 1461 * c + 365 * e + yd - 146097 * a
      = 36524 * b + 1461 * c + 365 * e + yd := by ring
  rw [e2]
  have hr : 1461 * c + 365 * e + yd ≤ 36523 ∨ (b = 3 ∧ 1461 * c + 365 * e + yd ≤ 36524) := by
    omega
  have e3 : (36524 * b + 1461 * c + 365 * e + yd) / 36524
      - (36524 * b + 1461 * c + 365 * e + yd) / 36524 / 4 = b := by
    have hr0 : 0 ≤ 1461 * c + 365 * e + yd := by omega
    have e3a : 36524 * b + 1461 * c + 365 * e + yd = 36524 * b + (1461 * c + 365 * e + yd) := by
      ring
    rw [e3a]
    generalize 1461 * c + 365 * e + yd = r at hr hr0
    rcases hr with hr | ⟨hb, hr⟩
    · have : (36524 * b + r) / 36524 = b := by omega
      rw [this]; omega
    · subst hb
      have : (36524 * 3 + r) / 36524 = 3 ∨ (36524 * 3 + r) / 36524 = 4 := by omega
      rcases this with h | h <;> rw [h] <;> norm_num
  rw [e3]
  have e4 : 36524 * b + 1461 * c + 365 * e + yd - 36524 * b
      = 1461 * c + 365 * e + yd := by ring
  rw [e4]
  have e5 : (1461 * c + 365 * e + yd) / 1461 = c := by omega
  rw [e5]
  have e6 : 1461 * c + 365 * e + yd - 1461 * c = 365 * e + yd := by ring
  rw [e6]
  have e7 : (365 * e + yd) / 365 - (365 * e + yd) / 365 / 4 = e := by
    rcases h1 with h | ⟨h, he, _⟩
    · have : (365 * e + yd) / 365 = e := by omega
      rw [this]; omega
    · subst h; subst he; norm_num
  rw [e7]
  have e8 : 365 * e + yd - 365 * e = yd := by ring
  rw [e8]

theorem year_decomp (y : Int) :
    ∃ a b c e : Int, 0 ≤ b ∧ b < 4 ∧ 0 ≤ c ∧ c < 25 ∧ 0 ≤ e ∧ e < 4 ∧
      y = 400 * a + 100 * b + 4 * c + e + absoluteZeroYear ∧
      (isLeap y = true ↔ (e = 3 ∧ (c ≠ 24 ∨ b = 3))) := by
  refine ⟨(y - absoluteZeroYear) / 400, (y - absoluteZeroYear) % 400 / 100,
    (y - absoluteZeroYear) % 100 / 4, (y - absoluteZeroYear) % 4, ?_, ?_, ?_, ?_, ?_, ?_, ?_, ?_⟩
  all_goals simp only [absoluteZeroYear, isLeap_iff]
  all_goals omega

theorem isLeap_decomp (a b c e : Int) (hb0 : 0 ≤ b) (hb1 : b < 4) (hc0 : 0 ≤ c)
    (hc1 : c < 25) (he0 : 0 ≤ e) (he1 : e < 4) :
    isLeap (400 * a + 100 * b + 4 * c + e + absoluteZeroYear) = true ↔
      (e = 3 ∧ (c ≠ 24 ∨ b = 3)) := by
  simp only [absoluteZeroYear, isLeap_iff]
  omega

/-- Length of a year in days. -/
theorem yearOfDays_epochDays (y yd : Int) (h0 : 0 ≤ yd)
    (h1 : yd < (if isLeap y then 366 else 365)) :
    yearOfDays (epochDays y + yd) = (y, yd) := by
  obtain ⟨a, b, c, e, hb0, hb1, hc0, hc1, he0, he1, hy, hl⟩ := year_decomp y
  rw [hy, epochDays_decomp a b c e hb0 hb1 hc0 hc1 he0 he1]
  apply yearOfDays_decomp a b c e yd hb0 hb1 hc0 hc1 he0 he1 h0
  by_cases hL : isLeap y = true
  · rw [if_pos hL] at h1
    have := hl.mp hL
    omega
  · rw [if_neg hL] at h1
    omega

theorem epochDays_succ (y : Int) :
    epochDays (y + 1) = epochDays y + (if isLeap y then 366 else 365) := by
  obtain ⟨a, b, c, e, hb0, hb1, hc0, hc1, he0, he1, hy, hl⟩ := year_decomp y
  have hd := epochDays_decomp a b c e hb0 hb1 hc0 hc1 he0 he1
  rw [← hy] at hd
  by_cases h3 : e < 3
  · have hy1 : y + 1 = 400 * a + 100 * b + 4 * c + (e + 1) + absoluteZeroYear := by omega
    have hL : ¬ (isLeap y = true) := by rw [hl]; omega
    have hd1 := epochDays_decomp a b c (e + 1) hb0 hb1 hc0 hc1 (by omega) (by omega)
    rw [← hy1] at hd1
    rw [hd1, if_neg hL, hd]
    ring
  · have he : e = 3 := by omega
    subst he
    by_cases h24 : c < 24
    · have hy1 : y + 1 = 400 * a + 100 * b + 4 * (c + 1) + 0 + absoluteZeroYear := by omega
      have hL : isLeap y = true := by rw [hl]; omega
      have hd1 := epochDays_decomp a b (c + 1) 0 hb0 hb1 (by omega) (by omega) (by omega)
        (by omega)
      rw [← hy1] at hd1
      rw [hd1, if_pos hL, hd]
      ring
    · have hc : c = 24 := by omega
      subst hc
      by_cases hb3 : b < 3
      · have hy1 : y + 1 = 400 * a + 100 * (b + 1) + 4 * 0 + 0 + absoluteZeroYear := by omega
        have hL : ¬ (isLeap y = true) := by rw [hl]; omega
        have hd1 := epochDays_decomp a (b + 1) 0 0 (by omega) (by omega) (by omega)
          (by omega) (by omega) (by omega)
        rw [← hy1] at hd1
        rw [hd1, if_neg hL, hd]
        ring
      · have hb : b = 3 := by omega
        subst hb
        have hy1 : y + 1 = 400 * (a + 1) + 100 * 0 + 4 * 0 + 0 + absoluteZeroYear := by omega
        have hL : isLeap y = true := by rw [hl]; omega
        have hd1 := epochDays_decomp (a + 1) 0 0 0 (by omega) (by omega) (by omega)
          (by omega) (by omega) (by omega)
        rw [← hy1] at hd1
        rw [hd1, if_pos hL, hd]
        ring

theorem epochDays_add_ge (y : Int) (n : Nat) :
    epochDays y + 365 * n ≤ epochDays (y + n) := by
  induction n with
  | zero => simp
  | succ k ih =>
    have h := epochDays_succ (y + k)
    have e : y + ((k + 1 : Nat) : Int) = y + (k : Int) + 1 := by push_cast; ring
    rw [e, h]
    split_ifs <;> push_cast <;> omega

theorem epochDays_add_le (y : Int) (n : Nat) :
    epochDays (y + n) ≤ epochDays y + 366 * n := by
  induction n with
  | zero => simp
  | succ k ih =>
    have h := epochDays_succ (y + k)
    have e : y + ((k + 1 : Nat) : Int) = y + (k : Int) + 1 := by push_cast; ring
    rw [e, h]
    split_ifs <;> push_cast <;> omega

theorem epochDays_mono {y z : Int} (h : y ≤ z) :
    epochDays y + 365 * (z - y) ≤ epochDays z := by
  obtain ⟨n, hn⟩ := Int.eq_ofNat_of_zero_le (show 0 ≤ z - y by omega)
  have := epochDays_add_ge y n
  have e : z = y + n := by omega
  rw [e]; omega

theorem epochDays_one : epochDays 1 = 146097 * 730692556 := by
  decide

theorem absDate_year (abs : Int) (full : Bool) :
    (absDate abs full).year = (yearOfDays (abs / secondsPerDay)).1 := by
  simp only [absDate, yearOfDays]
  split_ifs <;> rfl

theorem absDate_full (abs : Int) :
    absDate abs true =
      if isLeap (yearOfDays (abs / secondsPerDay)).1 ∧ (yearOfDays (abs / secondsPerDay)).2 = 59
      then ⟨(yearOfDays (abs / secondsPerDay)).1, 2, 29, (yearOfDays (abs / secondsPerDay)).2⟩
      else
        ⟨(yearOfDays (abs / secondsPerDay)).1,
         (monthOfDay (if isLeap (yearOfDays (abs / secondsPerDay)).1 ∧
            (yearOfDays (abs / secondsPerDay)).2 > 59
            then (yearOfDays (abs / secondsPerDay)).2 - 1
            else (yearOfDays (abs / secondsPerDay)).2)).1,
         (monthOfDay (if isLeap (yearOfDays (abs / secondsPerDay)).1 ∧
            (yearOfDays (abs / secondsPerDay)).2 > 59
            then (yearOfDays (abs / secondsPerDay)).2 - 1
            else (yearOfDays (abs / secondsPerDay)).2)).2,
         (yearOfDays (abs / secondsPerDay)).2⟩ := by
  simp only [absDate, yearOfDays, monthOfDay]
  simp

theorem monthOfDay_spec (m d : Int) (hm1 : 1 ≤ m) (hm2 : m ≤ 12)
    (hd1 : 1 ≤ d) (hd2 : d ≤ daysBefore m - daysBefore (m - 1)) :
    monthOfDay (daysBefore (m - 1) + (d - 1)) = (m, d) := by
  simp only [monthOfDay]
  obtain ⟨q, hq⟩ : ∃ q, (daysBefore (m - 1) + (d - 1)) / 31 = q := ⟨_, rfl⟩
  rw [hq]
  interval_cases m <;> simp only [daysBefore_vals, Int.reduceSub] at hd2 hq ⊢ <;>
  (have hq2 : q = 0 ∨ q = 1 ∨ q = 2 ∨ q = 3 ∨ q = 4 ∨ q = 5 ∨ q = 6 ∨ q = 7 ∨ q = 8 ∨ q = 9 ∨
      q = 10 ∨ q = 11 := by omega
   rcases hq2 with h | h | h | h | h | h | h | h | h | h | h | h <;> subst h <;>
   first
   | (exfalso; omega)
   | (simp only [daysBefore_vals, Int.reduceAdd]; split_ifs <;>
        first | (exfalso; omega) | (ext <;> simp)))

theorem daysIn_pos (m y : Int) (hm1 : 1 ≤ m) (hm2 : m ≤ 12) :
    28 ≤ daysIn m y ∧ daysIn m y ≤ 31 := by
  unfold daysIn
  interval_cases m <;> simp [daysBefore_vals]
  split_ifs <;> simp

/-- The first day of the next month comes `daysIn` days after the first day
of a month. -/
theorem monthStart_succ (y m : Int) (hm1 : 1 ≤ m) (hm2 : m ≤ 11) :
    monthStart y (m + 1) = monthStart y m + daysIn m y := by
  unfold monthStart daysIn
  cases hL : isLeap y <;> interval_cases m <;> simp [daysBefore_vals] <;> omega

theorem monthStart_next_year (y : Int) :
    monthStart (y + 1) 1 = monthStart y 12 + daysIn 12 y := by
  unfold monthStart daysIn
  rw [epochDays_succ]
  cases hL : isLeap y <;> simp [daysBefore_vals]
  all_goals omega

theorem monthStart_one (y : Int) : monthStart y 1 = epochDays y := by
  simp [monthStart, daysBefore_vals]

theorem daysBefore_bounds (m : Int) (hm1 : 1 ≤ m) (hm2 : m ≤ 12) :
    0 ≤ daysBefore (m - 1) ∧ daysBefore (m - 1) + 28 ≤ daysBefore m ∧ daysBefore m ≤ 365 ∧
    (3 ≤ m → 59 ≤ daysBefore (m - 1)) ∧ (m = 1 → daysBefore (m - 1) = 0) ∧
    (m = 2 → daysBefore (m - 1) = 31 ∧ daysBefore m = 59) := by
  interval_cases m <;> simp [daysBefore_vals]

theorem div_secondsPerDay (D secs : Int) (h0 : 0 ≤ secs) (h1 : secs < 86400) :
    (D * 86400 + secs) / secondsPerDay = D := by
  simp only [secondsPerDay]
  omega

theorem absDate_of_yearOfDays (abs y yd : Int) (h : yearOfDays (abs / secondsPerDay) = (y, yd)) :
    absDate abs true =
      if isLeap y = true ∧ yd = 59 then ⟨y, 2, 29, yd⟩
      else ⟨y, (monthOfDay (if isLeap y = true ∧ yd > 59 then yd - 1 else yd)).1,
        (monthOfDay (if isLeap y = true ∧ yd > 59 then yd - 1 else yd)).2, yd⟩ := by
  rw [absDate_full, h]

/-- The day of the year of the `d`-th day of month `m`, and what `absDate`
makes of it. -/
theorem absDate_yday (abs y m d yd : Int) (h : yearOfDays (abs / secondsPerDay) = (y, yd))
    (hm1 : 1 ≤ m) (hm2 : m ≤ 12) (hd1 : 1 ≤ d) (hd2 : d ≤ daysIn m y)
    (hyd : yd = daysBefore (m - 1) + (if isLeap y = true ∧ 3 ≤ m then 1 else 0) + (d - 1)) :
    absDate abs true = ⟨y, m, d, yd⟩ := by
  obtain ⟨hb0, hb1, hb2, hb3, hb4, hb5⟩ := daysBefore_bounds m hm1 hm2
  rw [absDate_of_yearOfDays abs y yd h]
  by_cases hL : isLeap y = true
  · by_cases h3 : 3 ≤ m
    · rw [if_pos ⟨hL, h3⟩] at hyd
      have hdi : daysIn m y = daysBefore m - daysBefore (m - 1) := by
        have : ¬ (m = 2) := by omega
        simp [daysIn, this]
      rw [hdi] at hd2
      have hc1 : ¬ (isLeap y = true ∧ yd = 59) := by omega
      have hc2 : isLeap y = true ∧ yd > 59 := ⟨hL, by omega⟩
      have e : yd - 1 = daysBefore (m - 1) + (d - 1) := by omega
      rw [if_neg hc1, if_pos hc2, e, monthOfDay_spec m d hm1 hm2 hd1 hd2]
    · rw [if_neg (by omega)] at hyd
      by_cases h2 : m = 2
      · obtain ⟨hb5a, hb5b⟩ := hb5 h2
        have hdi : daysIn m y = 29 := by simp [daysIn, h2, hL]
        rw [hdi] at hd2
        by_cases h29 : d = 29
        · have hc1 : isLeap y = true ∧ yd = 59 := ⟨hL, by omega⟩
          rw [if_pos hc1, h2, h29]
        · have hc1 : ¬ (isLeap y = true ∧ yd = 59) := by omega
          have hc2 : ¬ (isLeap y = true ∧ yd > 59) := by omega
          have e : yd = daysBefore (m - 1) + (d - 1) := by omega
          rw [if_neg hc1, if_neg hc2]
          conv_lhs => rw [e, monthOfDay_spec m d hm1 hm2 hd1 (by omega)]
          rw [e]
      · have h1m : m = 1 := by omega
        have hdi : daysIn m y = daysBefore m - daysBefore (m - 1) := by
          simp [daysIn, h2]
        rw [hdi] at hd2
        have hb4a := hb4 h1m
        have : daysBefore m = 31 := by rw [h1m]; exact daysBefore_vals.2.1
        have hc1 : ¬ (isLeap y = true ∧ yd = 59) := by omega
        have hc2 : ¬ (isLeap y = true ∧ yd > 59) := by omega
        have e : yd = daysBefore (m - 1) + (d - 1) := by omega
        rw [if_neg hc1, if_neg hc2]
        conv_lhs => rw [e, monthOfDay_spec m d hm1 hm2 hd1 hd2]
        rw [e]
  · rw [if_neg (by tauto)] at hyd
    have hLf : isLeap y = false := by simpa using hL
    have hdi : daysIn m y = daysBefore m - daysBefore (m - 1) := by
      simp [daysIn, hLf]
    rw [hdi] at hd2
    have hc1 : ¬ (isLeap y = true ∧ yd = 59) := by tauto
    have hc2 : ¬ (isLeap y = true ∧ yd > 59) := by tauto
    have e : yd = daysBefore (m - 1) + (d - 1) := by omega
    rw [if_neg hc1, if_neg hc2]
    conv_lhs => rw [e, monthOfDay_spec m d hm1 hm2 hd1 hd2]
    rw [e]

theorem monthStart_eq (y m : Int) :
    monthStart y m
      = epochDays y + (daysBefore (m - 1) + (if isLeap y = true ∧ 3 ≤ m then 1 else 0)) := by
  unfold monthStart
  by_cases hL : isLeap y = true <;> by_cases h3 : 3 ≤ m <;> simp [hL, h3]
  ring

theorem yday_le (y m : Int) (hm1 : 1 ≤ m) (hm2 : m ≤ 12) :
    daysBefore (m - 1) + (if isLeap y = true ∧ 3 ≤ m then 1 else 0) + daysIn m y
      ≤ (if isLeap y = true then 366 else 365) := by
  unfold daysIn
  cases hL : isLeap y <;> interval_cases m <;> simp [daysBefore_vals]

/-- The calendar fields that `absDate` reads from the absolute time of a real
calendar date are that date. -/
theorem absDate_civil (y m d secs : Int) (hm1 : 1 ≤ m) (hm2 : m ≤ 12) (hd1 : 1 ≤ d)
    (hd2 : d ≤ daysIn m y) (h0 : 0 ≤ secs) (h1 : secs < 86400) :
    absDate ((monthStart y m + (d - 1)) * 86400 + secs) true
      = ⟨y, m, d, daysBefore (m - 1) + (if isLeap y = true ∧ 3 ≤ m then 1 else 0) + (d - 1)⟩ := by
  obtain ⟨hb0, hb1, hb2, hb3, hb4, hb5⟩ := daysBefore_bounds m hm1 hm2
  have hdi := daysIn_pos m y hm1 hm2
  apply absDate_yday _ y m d _ _ hm1 hm2 hd1 hd2 rfl
  rw [div_secondsPerDay _ _ h0 h1, monthStart_eq]
  have e : epochDays y + (daysBefore (m - 1) + (if isLeap y = true ∧ 3 ≤ m then 1 else 0))
      + (d - 1)
      = epochDays y + (daysBefore (m - 1) + (if isLeap y = true ∧ 3 ≤ m then 1 else 0)
      + (d - 1)) := by ring
  rw [e]
  have hlt := yday_le y m hm1 hm2
  apply yearOfDays_epochDays
  · split_ifs <;> omega
  · omega

theorem civilSec_time_split (d h mi s : Int) :
    (d + (h + (mi + s / 60) / 60) / 24 - 1) * 86400
      + ((h + (mi + s / 60) / 60) % 24 * 3600 + (mi + s / 60) % 60 * 60 + s % 60)
      = (d - 1) * 86400 + (h * 3600 + mi * 60 + s) := by
  omega

theorem days_decomp_exists (D : Int) :
    ∃ a b c e yd : Int, 0 ≤ b ∧ b < 4 ∧ 0 ≤ c ∧ c < 25 ∧ 0 ≤ e ∧ e < 4 ∧ 0 ≤ yd ∧
      (yd < 365 ∨ (yd = 365 ∧ e = 3 ∧ (c ≠ 24 ∨ b = 3))) ∧
      D = 146097 * a + 36524 * b + 1461 * c + 365 * e + yd := by
  obtain ⟨r1, hr1, h1a, h1b⟩ : ∃ r1 : Int, r1 = D % 146097 ∧ 0 ≤ r1 ∧ r1 < 146097 :=
    ⟨_, rfl, by omega, by omega⟩
  obtain ⟨b, r2, hb0, hb1, h2a, h2b, h2c, h2d⟩ : ∃ b r2 : Int, 0 ≤ b ∧ b < 4 ∧ 0 ≤ r2 ∧
      r2 ≤ 36524 ∧ (r2 = 36524 → b = 3) ∧ r1 = 36524 * b + r2 := by
    by_cases h : r1 / 36524 = 4
    · exact ⟨3, r1 - 36524 * 3, by omega, by omega, by omega, by omega, by omega, by omega⟩
    · exact ⟨r1 / 36524, r1 % 36524, by omega, by omega, by omega, by omega, by omega, by omega⟩
  obtain ⟨c, r3, hc0, hc1, h3a, h3b, h3c⟩ : ∃ c r3 : Int, 0 ≤ c ∧ c < 25 ∧ 0 ≤ r3 ∧
      r3 ≤ 1460 ∧ r2 = 1461 * c + r3 :=
    ⟨r2 / 1461, r2 % 1461, by omega, by omega, by omega, by omega, by omega⟩
  obtain ⟨e, yd, he0, he1, h4a, h4b, h4c, h4d⟩ : ∃ e yd : Int, 0 ≤ e ∧ e < 4 ∧ 0 ≤ yd ∧
      yd ≤ 365 ∧ (yd = 365 → e = 3 ∧ r3 = 1460) ∧ r3 = 365 * e + yd := by
    by_cases h : r3 / 365 = 4
    · exact ⟨3, r3 - 365 * 3, by omega, by omega, by omega, by omega, by omega, by omega⟩
    · exact ⟨r3 / 365, r3 % 365, by omega, by omega, by omega, by omega, by omega, by omega⟩
  refine ⟨D / 146097, b, c, e, yd, hb0, hb1, hc0, hc1, he0, he1, h4a, ?_, ?_⟩
  · by_cases h : yd = 365
    · right
      obtain ⟨h5, h6⟩ := h4c h
      refine ⟨h, h5, ?_⟩
      by_cases h24 : c = 24
      · right; apply h2c; omega
      · left; exact h24
    · left; omega
  · omega

/-- The year and day of the year that `absDate` finds for an absolute day
number are the unique ones: the day lies within that year. -/
theorem yearOfDays_sound (D : Int) :
    D = epochDays (yearOfDays D).1 + (yearOfDays D).2 ∧ 0 ≤ (yearOfDays D).2 ∧
      (yearOfDays D).2 < (if isLeap (yearOfDays D).1 = true then 366 else 365) := by
  obtain ⟨a, b, c, e, yd, hb0, hb1, hc0, hc1, he0, he1, hyd0, hyd1, hD⟩ := days_decomp_exists D
  have h := yearOfDays_decomp a b c e yd hb0 hb1 hc0 hc1 he0 he1 hyd0 hyd1
  rw [← hD] at h
  have hl := isLeap_decomp a b c e hb0 hb1 hc0 hc1 he0 he1
  rw [h]
  simp only
  rw [epochDays_decomp a b c e hb0 hb1 hc0 hc1 he0 he1]
  refine ⟨hD, hyd0, ?_⟩
  by_cases hL : isLeap (400 * a + 100 * b + 4 * c + e + absoluteZeroYear) = true
  · rw [if_pos hL]; omega
  · rw [if_neg hL]
    rcases hyd1 with h1 | ⟨_, h2, h3⟩
    · exact h1
    · exact absurd (hl.mpr ⟨h2, h3⟩) hL

/-- A day at or after the first day of year 1 has a year of at least 1. -/
theorem yearOfDays_pos (D : Int) (h : epochDays 1 ≤ D) : 1 ≤ (yearOfDays D).1 := by
  obtain ⟨h1, h2, h3⟩ := yearOfDays_sound D
  by_contra hc
  have hle : (yearOfDays D).1 + 1 ≤ 1 := by omega
  have hm := epochDays_mono hle
  have hs := epochDays_succ (yearOfDays D).1
  split_ifs at h3 hs <;> omega

/-- The year of a day is bounded by the lengths of the years before it. -/
theorem yearOfDays_le (D y k : Int) (hk : 0 ≤ k) (h : D < epochDays y + 365 * k) :
    (yearOfDays D).1 < y + k := by
  obtain ⟨h1, h2, h3⟩ := yearOfDays_sound D
  by_contra hc
  have hle : y ≤ (yearOfDays D).1 := by omega
  have hm := epochDays_mono hle
  omega

theorem monthStart_bounds (y m : Int) (hm1 : 1 ≤ m) (hm2 : m ≤ 12) :
    epochDays y ≤ monthStart y m ∧ monthStart y m ≤ epochDays y + 335 := by
  rw [monthStart_eq]
  interval_cases m <;> simp [daysBefore_vals] <;> split_ifs <;> omega

theorem daysBefore_mono (i j : Int) (hi : 0 ≤ i) (hij : i ≤ j) (hj : j ≤ 12) :
    daysBefore i ≤ daysBefore j := by
  have hi2 : i ≤ 12 := by omega
  have hj2 : 0 ≤ j := by omega
  interval_cases i <;> interval_cases j <;> simp [daysBefore_vals] at *

/-- Within a year a later month starts after the end of an earlier one. -/
theorem monthStart_lt (y m n : Int) (hm1 : 1 ≤ m) (hmn : m < n) (hn : n ≤ 12) :
    monthStart y m + daysIn m y ≤ monthStart y n := by
  rw [← monthStart_succ y m hm1 (by omega), monthStart_eq, monthStart_eq]
  have h1 := daysBefore_mono (m + 1 - 1) (n - 1) (by omega) (by omega) (by omega)
  cases hL : isLeap y
  · simp only [Bool.false_eq_true, false_and, if_false]
    omega
  · simp only [true_and]
    split_ifs <;> omega

/-- The last day of a year comes before the first day of the next one. -/
theorem monthStart_lt_next_year (y m : Int) (hm1 : 1 ≤ m) (hm2 : m ≤ 12) :
    monthStart y m + daysIn m y ≤ epochDays (y + 1) := by
  have h := yday_le y m hm1 hm2
  rw [monthStart_eq, epochDays_succ]
  omega

/-- The Unix second `civilSec` is strictly increasing in the lexicographic order
of real calendar tuples. -/
theorem civilSec_strictMono (y m d h mi s y2 m2 d2 h2 mi2 s2 : Int)
    (hm1 : 1 ≤ m) (hm2 : m ≤ 12) (hd2 : d ≤ daysIn m y)
    (hh0 : 0 ≤ h) (hh1 : h ≤ 23) (hmi0 : 0 ≤ mi) (hmi1 : mi ≤ 59) (hs0 : 0 ≤ s) (hs1 : s ≤ 59)
    (km1 : 1 ≤ m2) (km2 : m2 ≤ 12) (kd1 : 1 ≤ d2) (kd2 : d2 ≤ daysIn m2 y2)
    (kh0 : 0 ≤ h2) (kh1 : h2 ≤ 23) (kmi0 : 0 ≤ mi2) (kmi1 : mi2 ≤ 59) (ks0 : 0 ≤ s2)
    (ks1 : s2 ≤ 59)
    (hlt : y < y2 ∨ (y = y2 ∧ (m < m2 ∨ (m = m2 ∧ (d < d2 ∨ (d = d2 ∧ (h < h2 ∨ (h = h2 ∧
      (mi < mi2 ∨ (mi = mi2 ∧ s < s2)))))))))) :
    civilSec y m d h mi s < civilSec y2 m2 d2 h2 mi2 s2 := by
  have e1 : y + (m - 1) / 12 = y := by omega
  have e2 : (m - 1) % 12 + 1 = m := by omega
  have e3 : y2 + (m2 - 1) / 12 = y2 := by omega
  have e4 : (m2 - 1) % 12 + 1 = m2 := by omega
  simp only [civilSec, e1, e2, e3, e4]
  have hdays : monthStart y m + d < monthStart y2 m2 + d2 ∨
      (monthStart y m + d = monthStart y2 m2 + d2 ∧
        (h < h2 ∨ (h = h2 ∧ (mi < mi2 ∨ (mi = mi2 ∧ s < s2))))) := by
    rcases hlt with hy | ⟨hy, hm | ⟨hm, hd | ⟨hd, ht⟩⟩⟩
    · left
      have a1 := monthStart_lt_next_year y m hm1 hm2
      have a2 := epochDays_mono (show y + 1 ≤ y2 by omega)
      have a3 := (monthStart_bounds y2 m2 km1 km2).1
      omega
    · left
      subst hy
      have a1 := monthStart_lt y m m2 hm1 hm km2
      omega
    · left
      subst hy; subst hm
      omega
    · right
      subst hy; subst hm; subst hd
      exact ⟨rfl, ht⟩
  generalize monthStart y m = A at hdays ⊢
  generalize monthStart y2 m2 = B at hdays ⊢
  omega

theorem daysIn_of_ne (m y : Int) (h : m ≠ 2) :
    daysIn m y = daysBefore m - daysBefore (m - 1) := by
  simp [daysIn, h]

/-- The month and day that `absDate` finds for a day of a year without leap
day lie within the table, and give that day back. -/
theorem monthOfDay_sound (day : Int) (h0 : 0 ≤ day) (h1 : day < 365) :
    1 ≤ (monthOfDay day).1 ∧ (monthOfDay day).1 ≤ 12 ∧ 1 ≤ (monthOfDay day).2 ∧
      (monthOfDay day).2 ≤ daysBefore (monthOfDay day).1 - daysBefore ((monthOfDay day).1 - 1) ∧
      daysBefore ((monthOfDay day).1 - 1) + ((monthOfDay day).2 - 1) = day := by
  simp only [monthOfDay]
  obtain ⟨q, hq⟩ : ∃ q, day / 31 = q := ⟨_, rfl⟩
  rw [hq]
  have hq0 : 0 ≤ q := by omega
  have hq1 : q ≤ 11 := by omega
  interval_cases q <;> simp only [daysBefore_vals, Int.reduceAdd] <;> split_ifs <;>
    simp only [daysBefore_vals, Int.reduceAdd, Int.reduceSub, Int.add_sub_cancel] <;> omega

/-- The calendar fields that `absDate` reads from any absolute time form a
real calendar date, and that date is the day of the absolute time. -/
theorem absDate_sound (abs : Int) :
    1 ≤ (absDate abs true).month ∧ (absDate abs true).month ≤ 12 ∧
    1 ≤ (absDate abs true).day ∧
    (absDate abs true).day ≤ daysIn (absDate abs true).month (absDate abs true).year ∧
    monthStart (absDate abs true).year (absDate abs true).month + ((absDate abs true).day - 1)
      = abs / secondsPerDay := by
  obtain ⟨hD, hyd0, hyd1⟩ := yearOfDays_sound (abs / secondsPerDay)
  obtain ⟨y, yd, hy⟩ : ∃ y yd, yearOfDays (abs / secondsPerDay) = (y, yd) := ⟨_, _, rfl⟩
  rw [hy] at hD hyd0 hyd1
  simp only at hD hyd0 hyd1
  rw [absDate_of_yearOfDays abs y yd hy, hD]
  have hv := daysBefore_vals
  cases hL : isLeap y
  · rw [hL] at hyd1
    simp only [Bool.false_eq_true, false_and, if_false] at hyd1 ⊢
    obtain ⟨m1, m2, d1, d2, e⟩ := monthOfDay_sound yd hyd0 hyd1
    generalize (monthOfDay yd).1 = m at *
    generalize (monthOfDay yd).2 = d at *
    refine ⟨m1, m2, d1, ?_, ?_⟩
    · simp only [daysIn, hL, Bool.and_false, Bool.false_eq_true, if_false]
      exact d2
    · rw [monthStart_eq]
      simp only [hL, Bool.false_eq_true, false_and, if_false]
      omega
  · rw [hL] at hyd1
    simp only [if_true, true_and] at hyd1 ⊢
    by_cases h59 : yd = 59
    · rw [if_pos h59]
      refine ⟨by norm_num, by norm_num, by norm_num, ?_, ?_⟩
      · simp [daysIn, hL]
      · rw [monthStart_eq]
        simp only [hL, true_and]
        rw [if_neg (by norm_num)]
        have : daysBefore (2 - 1) = 31 := hv.2.1
        rw [this]
        omega
    · rw [if_neg h59]
      by_cases hgt : yd > 59
      · rw [if_pos hgt]
        obtain ⟨m1, m2, d1, d2, e⟩ := monthOfDay_sound (yd - 1) (by omega) (by omega)
        generalize (monthOfDay (yd - 1)).1 = m at *
        generalize (monthOfDay (yd - 1)).2 = d at *
        have hm3 : 3 ≤ m := by
          by_contra hc
          have hb := daysBefore_mono m 2 (by omega) (by omega) (by omega)
          have : daysBefore 2 = 59 := hv.2.2.1
          omega
        refine ⟨m1, m2, d1, ?_, ?_⟩
        · rw [daysIn_of_ne m y (by omega)]
          exact d2
        · rw [monthStart_eq]
          simp only [hL, true_and]
          rw [if_pos hm3]
          omega
      · rw [if_neg hgt]
        obtain ⟨m1, m2, d1, d2, e⟩ := monthOfDay_sound yd hyd0 (by omega)
        generalize (monthOfDay yd).1 = m at *
        generalize (monthOfDay yd).2 = d at *
        have hm2 : m ≤ 2 := by
          by_contra hc
          have hb := daysBefore_mono 2 (m - 1) (by omega) (by omega) (by omega)
          have : daysBefore 2 = 59 := hv.2.2.1
          omega
        refine ⟨m1, m2, d1, ?_, ?_⟩
        · by_cases h2 : m = 2
          · simp only [daysIn, h2, hL, beq_self_eq_true, Bool.and_self, if_true]
            subst h2
            have a1 : daysBefore (2 - 1) = 31 := hv.2.1
            omega
          · rw [daysIn_of_ne m y h2]
            exact d2
        · rw [monthStart_eq]
          simp only [hL, true_and]
          rw [if_neg (by omega)]
          omega

/-- A day not before the first day of year `y - k` has a year of at least
`y - k`. -/
theorem yearOfDays_ge (D y k : Int) (hk : 0 ≤ k) (h : epochDays y - 365 * k ≤ D) :
    y - k ≤ (yearOfDays D).1 := by
  obtain ⟨h1, h2, h3⟩ := yearOfDays_sound D
  by_contra hc
  have hle : (yearOfDays D).1 + 1 ≤ y - k := by omega
  have hm := epochDays_mono hle
  have hm2 := epochDays_mono (show y - k ≤ y by omega)
  have hs := epochDays_succ (yearOfDays D).1
  split_ifs at h3 hs <;> omega

theorem epochDays_absoluteZero : epochDays (-292277022399) = 0 := by
  decide

/-- The day count of a year not before the absolute zero, between 365 and 366
days for each year since. -/
theorem epochDays_range (y : Int) (h : -292277022399 ≤ y) :
    365 * (y + 292277022399) ≤ epochDays y ∧ epochDays y ≤ 366 * (y + 292277022399) := by
  obtain ⟨n, hn⟩ := Int.eq_ofNat_of_zero_le (show 0 ≤ y + 292277022399 by omega)
  have h1 := epochDays_add_ge (-292277022399) n
  have h2 := epochDays_add_le (-292277022399) n
  have e : y = -292277022399 + n := by omega
  rw [epochDays_absoluteZero] at h1 h2
  rw [e]
  constructor <;> omega

/-- The function `daysSinceEpoch` is the exact day count of the year that the
unsigned year difference stands for, reduced modulo `2^64`. -/
theorem daysSinceEpoch_eq (year : Int) :
    daysSinceEpoch year
      = wrapU64 (epochDays (absoluteZeroYear + wrapU64 (year - absoluteZeroYear))) := by
  have hY : wrapU64 (wrap64 (year - absoluteZeroYear)) = wrapU64 (year - absoluteZeroYear) := by
    simp only [wrapU64, wrap64]
    omega
  have hc : absoluteZeroYear + wrapU64 (year - absoluteZeroYear) - absoluteZeroYear
      = wrapU64 (year - absoluteZeroYear) := by ring
  simp only [daysSinceEpoch, epochDays, hY, hc]
  have h0 := (wrapU64_range (year - absoluteZeroYear)).1
  generalize wrapU64 (year - absoluteZeroYear) = Y at h0 ⊢
  simp only [wrapU64, daysPer400Years, daysPer100Years, daysPer4Years]
  omega

/-- No step of `daysSinceEpoch` wraps for the years up to `5 * 10^16` after
the absolute zero. -/
theorem daysSinceEpoch_exact (y : Int) (h0 : -292277022399 ≤ y)
    (h1 : y ≤ 50000000000000000) : daysSinceEpoch y = epochDays y := by
  have hr := epochDays_range y h0
  have e : absoluteZeroYear + wrapU64 (y - absoluteZeroYear) = y := by
    simp only [absoluteZeroYear, wrapU64]
    omega
  rw [daysSinceEpoch_eq, e]
  apply wrapU64_of_range <;> omega

/-- The helper `norm` on values of `int`: the quotient moves into `hi`,
wrapping at 64 bits, and the remainder stays. -/
theorem norm_eq (hi lo base : Int) (hhi : isInt hi) (hlo : isInt lo)
    (hb : base = 12 ∨ base = 24 ∨ base = 60 ∨ base = 1000000000) :
    norm hi lo base = (wrap64 (hi + lo / base), lo % base) := by
  simp only [isInt] at hhi hlo
  rcases hb with rfl | rfl | rfl | rfl <;>
  · simp only [norm, wrap64]
    split_ifs <;> (refine Prod.ext ?_ ?_ <;> simp only <;> omega)

/-- What `Date` computes in a fixed zone of any offset, without nanoseconds,
for arguments of at most `2^62` in absolute value (the seconds any value of
`int`) and a normalised year not before the absolute zero: the seconds since
year 1 of the calendar-normalised instant, moved by the offset and reduced to
a signed 64-bit value. -/
theorem Date_mod (y m d h mi s off : Int)
    (hy : -4611686018427387904 ≤ y ∧ y ≤ 4611686018427387904)
    (hm : -4611686018427387904 ≤ m ∧ m ≤ 4611686018427387904)
    (hd : -4611686018427387904 ≤ d ∧ d ≤ 4611686018427387904)
    (hh : -4611686018427387904 ≤ h ∧ h ≤ 4611686018427387904)
    (hmi : -4611686018427387904 ≤ mi ∧ mi ≤ 4611686018427387904)
    (hs : -9223372036854775808 ≤ s ∧ s ≤ 9223372036854775807)
    (hY : -292277022399 ≤ y + (m - 1) / 12) :
    Date y m d h mi s 0 (FixedZone off)
      = ⟨0, wrap64 (civilSec y m d h mi s - off + 62135596800), ⟨off⟩⟩ := by
  have hm1 : wrap64 (m - 1) = m - 1 := wrap64_of_fits _ (by omega) (by omega)
  have n1 : norm y (m - 1) 12 = (y + (m - 1) / 12, (m - 1) % 12) := by
    rw [norm_eq _ _ _ (by unfold isInt; omega) (by unfold isInt; omega) (Or.inl rfl),
      wrap64_of_fits _ (by omega) (by omega)]
  have n2 : norm s 0 1000000000 = (s, 0) := by
    rw [norm_eq _ _ _ (by unfold isInt; omega) (by unfold isInt; omega)
      (Or.inr (Or.inr (Or.inr rfl))), wrap64_of_fits _ (by omega) (by omega)]
    simp
  have n3 : norm mi s 60 = (mi + s / 60, s % 60) := by
    rw [norm_eq _ _ _ (by unfold isInt; omega) (by unfold isInt; omega)
      (Or.inr (Or.inr (Or.inl rfl))), wrap64_of_fits _ (by omega) (by omega)]
  have n4 : norm h (mi + s / 60) 60 = (h + (mi + s / 60) / 60, (mi + s / 60) % 60) := by
    rw [norm_eq _ _ _ (by unfold isInt; omega) (by unfold isInt; omega)
      (Or.inr (Or.inr (Or.inl rfl))), wrap64_of_fits _ (by omega) (by omega)]
  have n5 : norm d (h + (mi + s / 60) / 60) 24
      = (d + (h + (mi + s / 60) / 60) / 24, (h + (mi + s / 60) / 60) % 24) := by
    rw [norm_eq _ _ _ (by unfold isInt; omega) (by unfold isInt; omega)
      (Or.inr (Or.inl rfl)), wrap64_of_fits _ (by omega) (by omega)]
  have hE : daysSinceEpoch (y + (m - 1) / 12) = wrapU64 (epochDays (y + (m - 1) / 12)) := by
    rw [daysSinceEpoch_eq]
    congr 2
    simp only [absoluteZeroYear, wrapU64]
    omega
  have e := civilSec_time_split d h mi s
  simp only [Date, hm1, n1, n2, n3, n4, n5, hE]
  simp only [unixTime, FixedZone, civilSec, monthStart,
    secondsPerDay, secondsPerHour, secondsPerMinute, absoluteToInternal, internalToUnix,
    unixToInternal, wrapU64, wrap64]
  generalize epochDays (y + (m - 1) / 12) = E
  generalize daysBefore ((m - 1) % 12 + 1 - 1) = DB
  refine congrArg (fun x => Time.mk 0 x ⟨off⟩) ?_
  generalize hq : (h + (mi + s / 60) / 60) / 24 = q at e ⊢
  generalize hr24 : (h + (mi + s / 60) / 60) % 24 = r24 at e ⊢
  generalize hr60 : (mi + s / 60) % 60 = r60 at e ⊢
  generalize hs60 : s % 60 = s60 at e ⊢
  have b1 : -4611686018427387904 ≤ q ∧ q ≤ 4611686018427387904 := by omega
  have b2 : 0 ≤ r24 ∧ r24 < 24 := by omega
  have b3 : 0 ≤ r60 ∧ r60 < 60 := by omega
  have b4 : 0 ≤ s60 ∧ s60 < 60 := by omega
  clear hq hr24 hr60 hs60 n1 n2 n3 n4 n5 hE hm1
  split_ifs <;> omega

/-- What `Date` computes when the seconds since year 1 of the
calendar-normalised instant, moved by the offset, fit a signed 64-bit integer:
these seconds. -/
theorem Date_exact (y m d h mi s off : Int)
    (hy : -4611686018427387904 ≤ y ∧ y ≤ 4611686018427387904)
    (hm : -4611686018427387904 ≤ m ∧ m ≤ 4611686018427387904)
    (hd : -4611686018427387904 ≤ d ∧ d ≤ 4611686018427387904)
    (hh : -4611686018427387904 ≤ h ∧ h ≤ 4611686018427387904)
    (hmi : -4611686018427387904 ≤ mi ∧ mi ≤ 4611686018427387904)
    (hs : -9223372036854775808 ≤ s ∧ s ≤ 9223372036854775807)
    (hY : -292277022399 ≤ y + (m - 1) / 12)
    (hfit : isInt (civilSec y m d h mi s - off + 62135596800)) :
    Date y m d h mi s 0 (FixedZone off)
      = ⟨0, civilSec y m d h mi s - off + 62135596800, ⟨off⟩⟩ := by
  rw [Date_mod y m d h mi s off hy hm hd hh hmi hs hY, wrap64_of_fits _ hfit.1 hfit.2]

theorem epochDays_last : epochDays 292277024627 = 213503981520893 := by
  decide

theorem epochDays_top : epochDays 292277026854 = 213503982334289 := by
  decide

theorem civilSec_zero : civilSec 0 0 0 0 0 0 = -62169984000 := by
  decide

/-- The instant of the zero datetime comes before that of any other tuple of
non-negative fields. -/
theorem civilSec_zero_lt (y m d h mi s : Int) (hy : 0 ≤ y) (hm : 0 ≤ m) (hd : 0 ≤ d)
    (hh : 0 ≤ h) (hmi : 0 ≤ mi) (hs : 0 ≤ s)
    (hne : ¬ (y = 0 ∧ m = 0 ∧ d = 0 ∧ h = 0 ∧ mi = 0 ∧ s = 0)) :
    civilSec 0 0 0 0 0 0 < civilSec y m d h mi s := by
  have hz : civilSec 0 0 0 0 0 0 = (monthStart (-1) 12 + (0 - 1)) * 86400
      + (0 * 3600 + 0 * 60 + 0) + (absoluteToInternal + internalToUnix) := by decide
  have hms : monthStart (-1) 12 + 31 = epochDays 0 := by decide
  rw [hz]
  simp only [civilSec]
  by_cases h0 : y = 0 ∧ m = 0
  · obtain ⟨hy0, hm0⟩ := h0
    subst hy0; subst hm0
    have e1 : (0 : Int) + (0 - 1) / 12 = -1 := by decide
    have e2 : ((0 : Int) - 1) % 12 + 1 = 12 := by decide
    rw [e1, e2]
    generalize monthStart (-1) 12 = A
    omega
  · have hY : 0 ≤ y + (m - 1) / 12 := by omega
    have hmono := epochDays_mono hY
    have hb := (monthStart_bounds (y + (m - 1) / 12) ((m - 1) % 12 + 1) (by omega) (by omega)).1
    generalize monthStart (y + (m - 1) / 12) ((m - 1) % 12 + 1) = B at hb ⊢
    generalize monthStart (-1) 12 = A at hms ⊢
    omega

/-- No tuple of non-negative fields has an instant before that of the zero
datetime. -/
theorem civilSec_zero_le (y m d h mi s : Int) (hy : 0 ≤ y) (hm : 0 ≤ m) (hd : 0 ≤ d)
    (hh : 0 ≤ h) (hmi : 0 ≤ mi) (hs : 0 ≤ s) : -62169984000 ≤ civilSec y m d h mi s := by
  by_cases hz : y = 0 ∧ m = 0 ∧ d = 0 ∧ h = 0 ∧ mi = 0 ∧ s = 0
  · obtain ⟨rfl, rfl, rfl, rfl, rfl, rfl⟩ := hz
    rw [civilSec_zero]
  · have h := civilSec_zero_lt y m d h mi s hy hm hd hh hmi hs hz
    rw [civilSec_zero] at h
    omega

/-- Non-negative fields whose instant is not after the largest second of
`time.Time` are each, the seconds apart, far below `2^62`. -/
theorem civilSec_fields_small (y m d h mi s : Int) (hy : 0 ≤ y) (hm : 0 ≤ m) (hd : 0 ≤ d)
    (hh : 0 ≤ h) (hmi : 0 ≤ mi) (hs : 0 ≤ s)
    (hfit : civilSec y m d h mi s + 62135596800 ≤ 9223372036854775807) :
    y ≤ 300000000000 ∧ m ≤ 4000000000000 ∧ d ≤ 110000000000000 ∧ h ≤ 2600000000000000 ∧
      mi ≤ 160000000000000000 := by
  have hY : -292277022399 ≤ y + (m - 1) / 12 := by omega
  have hr := (epochDays_range _ hY).1
  have hb := (monthStart_bounds (y + (m - 1) / 12) ((m - 1) % 12 + 1) (by omega) (by omega)).1
  simp only [civilSec, absoluteToInternal, internalToUnix, unixToInternal, secondsPerDay] at hfit
  generalize monthStart (y + (m - 1) / 12) ((m - 1) % 12 + 1) = MS at hb hfit
  generalize epochDays (y + (m - 1) / 12) = E at hr hb
  generalize hq : (m - 1) / 12 = q at hr hY
  have hq0 : -1 ≤ q := by omega
  have hq1 : m ≤ 12 * q + 12 := by omega
  clear hq
  refine ⟨?_, ?_, ?_, ?_, ?_⟩ <;> omega

/-- Every second of a month-day of at most 31 of a year up to 292277024626 is
not after the largest second of `time.Time`, which lies in the year after. -/
theorem civilSec_calendar_fits (y m d h mi s : Int) (hy : y ≤ 292277024626) (hm1 : 1 ≤ m)
    (hm2 : m ≤ 12) (hd : d ≤ 31) (hh : h ≤ 23) (hmi : mi ≤ 59) (hs : s ≤ 59) :
    civilSec y m d h mi s + 62135596800 ≤ 9223372036854775807 := by
  have e1 : y + (m - 1) / 12 = y := by omega
  have e2 : (m - 1) % 12 + 1 = m := by omega
  have hb := (monthStart_bounds y m hm1 hm2).2
  have hs1 := epochDays_succ y
  have hmono := epochDays_mono (show y + 1 ≤ 292277024627 by omega)
  rw [epochDays_last] at hmono
  simp only [civilSec, e1, e2, absoluteToInternal, internalToUnix, unixToInternal, secondsPerDay]
  generalize monthStart y m = MS at hb ⊢
  generalize epochDays (y + 1) = E1 at hs1 hmono
  generalize epochDays y = E at hs1 hb
  split_ifs at hs1 <;> omega

/-- The function `norm` when the sum of the high part and the carry stays
within the 64-bit range. -/
theorem norm_small (hi lo base : Int)
    (hhi : -4611686018427388000 ≤ hi ∧ hi ≤ 4611686018427388000)
    (hlo : -5000000000000000000 ≤ lo ∧ lo ≤ 5000000000000000000)
    (hb : base = 12 ∨ base = 24 ∨ base = 60 ∨ base = 1000000000) :
    norm hi lo base = (hi + lo / base, lo % base) := by
  rw [norm_eq _ _ _ (by unfold isInt; omega) (by unfold isInt; omega) hb]
  rcases hb with rfl | rfl | rfl | rfl <;> rw [wrap64_of_fits _ (by omega) (by omega)]

/-- The unit carry laws of `Date` for arguments of at most `2^62` in absolute
value: twelve months and a year, sixty seconds and a minute, sixty minutes and
an hour, twenty-four hours and a day normalise to the same tuple. -/
theorem Date_carry (y m d h mi s : Int) (loc : Location) (hy : small y) (hm : small m)
    (hd : small d) (hh : small h) (hmi : small mi) (hs : small s) :
    Date y (m + 12) d h mi s 0 loc = Date (y + 1) m d h mi s 0 loc ∧
    Date y m d h mi (s + 60) 0 loc = Date y m d h (mi + 1) s 0 loc ∧
    Date y m d h (mi + 60) s 0 loc = Date y m d (h + 1) mi s 0 loc ∧
    Date y m d (h + 24) mi s 0 loc = Date y m (d + 1) h mi s 0 loc := by
  unfold small at hy hm hd hh hmi hs
  have n2 : norm s 0 1000000000 = (s, 0) := by
    rw [norm_small _ _ _ (by omega) (by omega) (Or.inr (Or.inr (Or.inr rfl)))]
    simp
  have n3 : norm mi s 60 = (mi + s / 60, s % 60) :=
    norm_small _ _ _ (by omega) (by omega) (Or.inr (Or.inr (Or.inl rfl)))
  have n4 : norm h (mi + s / 60) 60 = (h + (mi + s / 60) / 60, (mi + s / 60) % 60) :=
    norm_small _ _ _ (by omega) (by omega) (Or.inr (Or.inr (Or.inl rfl)))
  refine ⟨?_, ?_, ?_, ?_⟩
  · have a0 : wrap64 (m + 12 - 1) = m + 12 - 1 := wrap64_of_fits _ (by omega) (by omega)
    have b0 : wrap64 (m - 1) = m - 1 := wrap64_of_fits _ (by omega) (by omega)
    have a1 : norm y (m + 12 - 1) 12 = (y + 1 + (m - 1) / 12, (m - 1) % 12) := by
      rw [norm_small _ _ _ (by omega) (by omega) (Or.inl rfl)]
      congr 1 <;> omega
    have b1 : norm (y + 1) (m - 1) 12 = (y + 1 + (m - 1) / 12, (m - 1) % 12) :=
      norm_small _ _ _ (by omega) (by omega) (Or.inl rfl)
    simp only [Date, a0, b0, a1, b1]
  · have a2 : norm (s + 60) 0 1000000000 = (s + 60, 0) := by
      rw [norm_small _ _ _ (by omega) (by omega) (Or.inr (Or.inr (Or.inr rfl)))]
      simp
    have a3 : norm mi (s + 60) 60 = (mi + 1 + s / 60, s % 60) := by
      rw [norm_small _ _ _ (by omega) (by omega) (Or.inr (Or.inr (Or.inl rfl)))]
      congr 1 <;> omega
    have b3 : norm (mi + 1) s 60 = (mi + 1 + s / 60, s % 60) :=
      norm_small _ _ _ (by omega) (by omega) (Or.inr (Or.inr (Or.inl rfl)))
    simp only [Date, n2, a2, a3, b3]
  · have a3 : norm (mi + 60) s 60 = (mi + 60 + s / 60, s % 60) :=
      norm_small _ _ _ (by omega) (by omega) (Or.inr (Or.inr (Or.inl rfl)))
    have a4 : norm h (mi + 60 + s / 60) 60
        = (h + 1 + (mi + s / 60) / 60, (mi + s / 60) % 60) := by
      rw [norm_small _ _ _ (by omega) (by omega) (Or.inr (Or.inr (Or.inl rfl)))]
      congr 1 <;> omega
    have b4 : norm (h + 1) (mi + s / 60) 60
        = (h + 1 + (mi + s / 60) / 60, (mi + s / 60) % 60) :=
      norm_small _ _ _ (by omega) (by omega) (Or.inr (Or.inr (Or.inl rfl)))
    simp only [Date, n2, n3, a3, a4, b4]
  · have a4 : norm (h + 24) (mi + s / 60) 60
        = (h + 24 + (mi + s / 60) / 60, (mi + s / 60) % 60) :=
      norm_small _ _ _ (by omega) (by omega) (Or.inr (Or.inr (Or.inl rfl)))
    have a5 : norm d (h + 24 + (mi + s / 60) / 60) 24
        = (d + 1 + (h + (mi + s / 60) / 60) / 24, (h + (mi + s / 60) / 60) % 24) := by
      rw [norm_small _ _ _ (by omega) (by omega) (Or.inr (Or.inl rfl))]
      congr 1 <;> omega
    have b5 : norm (d + 1) (h + (mi + s / 60) / 60) 24
        = (d + 1 + (h + (mi + s / 60) / 60) / 24, (h + (mi + s / 60) / 60) % 24) :=
      norm_small _ _ _ (by omega) (by omega) (Or.inr (Or.inl rfl))
    simp only [Date, n2, n3, n4, a4, a5, b5]

theorem Date_wall (y m d h mi s : Int) (loc : Location) :
    (Date y m d h mi s 0 loc).wall = 0 := by
  simp [Date, unixTime, norm]

theorem Date_ext_isInt (y m d h mi s n : Int) (loc : Location) :
    isInt (Date y m d h mi s n loc).ext := by
  simp only [Date, unixTime]
  exact wrap64_range _

theorem Date_loc (y m d h mi s n : Int) (loc : Location) :
    (Date y m d h mi s n loc).loc = loc := by
  simp only [Date, unixTime]

/-- The method `Time.abs` as one reduction modulo `2^64`. -/
theorem Time_abs_eq (t : Time) :
    t.abs = (t.ext + t.loc.offset + 9223371966579724800) % 18446744073709551616 := by
  simp only [Time.abs, Time.unixSec, Time.sec, wrapU64, wrap64, unixToInternal, internalToUnix,
    internalToAbsolute, absoluteToInternal, secondsPerDay]
  omega

theorem Time_abs_range (t : Time) : 0 ≤ t.abs ∧ t.abs < 18446744073709551616 := by
  rw [Time_abs_eq]
  omega

/-- The method `Time.Unix` of a time whose seconds since year 1 leave room for
the Unix epoch. -/
theorem Time_Unix_eq (t : Time) (h0 : -9223371974719179008 ≤ t.ext)
    (h1 : t.ext ≤ 9223372036854775807) : t.Unix = t.ext - 62135596800 := by
  simp only [Time.Unix, Time.unixSec, Time.sec, wrap64, unixToInternal, internalToUnix,
    secondsPerDay]
  omega

theorem Time_year_full (t : Time) : t.Year = (absDate t.abs true).year := by
  rw [Time.Year, absDate_year, absDate_year]

/-- The wall-clock fields of any time are a real calendar date and time of
day, and `civilSec` of them is the wall-clock second that `abs` counts from
the absolute zero. -/
theorem Time_fields_sound (t : Time) :
    1 ≤ t.Month ∧ t.Month ≤ 12 ∧ 1 ≤ t.Day ∧ t.Day ≤ daysIn t.Month t.Year ∧
    0 ≤ t.Hour ∧ t.Hour ≤ 23 ∧ 0 ≤ t.Minute ∧ t.Minute ≤ 59 ∧ 0 ≤ t.Second ∧ t.Second ≤ 59 ∧
    civilSec t.Year t.Month t.Day t.Hour t.Minute t.Second + 9223372028715321600 = t.abs := by
  obtain ⟨m1, m2, d1, d2, e⟩ := absDate_sound t.abs
  rw [Time_year_full]
  simp only [Time.Month, Time.Day, Time.Hour, Time.Minute, Time.Second]
  refine ⟨m1, m2, d1, d2, ?_⟩
  have e1 : (absDate t.abs true).year + ((absDate t.abs true).month - 1) / 12
      = (absDate t.abs true).year := by omega
  have e2 : ((absDate t.abs true).month - 1) % 12 + 1 = (absDate t.abs true).month := by omega
  simp only [civilSec, e1, e2]
  simp only [secondsPerDay, secondsPerHour, secondsPerMinute, unixToInternal, internalToAbsolute,
    absoluteToInternal, internalToUnix] at e ⊢
  generalize monthStart (absDate t.abs true).year (absDate t.abs true).month = MS at e ⊢
  generalize (absDate t.abs true).day = D at e ⊢
  generalize t.abs = A at e ⊢
  refine ⟨?_, ?_, ?_, ?_, ?_, ?_, ?_⟩ <;> omega

/-- The year of any time is a value of `int`: it lies within the years that
the unsigned 64-bit absolute seconds span. -/
theorem Time_Year_range (t : Time) : -292277022399 ≤ t.Year ∧ t.Year < 292665394957 := by
  obtain ⟨a0, a1⟩ := Time_abs_range t
  have e : t.Year = (yearOfDays (t.abs / 86400)).1 := by
    rw [Time.Year, absDate_year]
    rfl
  rw [e]
  have h1 := yearOfDays_ge (t.abs / 86400) (-292277022399) 0 (le_refl _)
    (by rw [epochDays_absoluteZero]; omega)
  have h2 := yearOfDays_le (t.abs / 86400) (-292277022399) 584942417356 (by norm_num)
    (by rw [epochDays_absoluteZero]; omega)
  constructor <;> omega

theorem Time_Year_isInt (t : Time) : isInt t.Year := by
  obtain ⟨h1, h2⟩ := Time_Year_range t
  unfold isInt
  omega

/-- A time in UTC whose Unix second is not before that of January 1 of year 1
has a year of at least 1. -/
theorem Time_Year_pos (t : Time) (hoff : t.loc.offset = 0) (h : -62135596800 ≤ t.Unix) :
    1 ≤ t.Year := by
  have e : t.Year = (yearOfDays (t.abs / 86400)).1 := by
    rw [Time.Year, absDate_year]
    rfl
  rw [e]
  apply yearOfDays_pos
  rw [epochDays_one]
  simp only [Time.abs, Time.Unix, Time.unixSec, Time.sec, hoff, wrapU64, wrap64, unixToInternal,
    internalToUnix, internalToAbsolute, absoluteToInternal, secondsPerDay] at h ⊢
  omega

theorem addSec_wall (t : Time) (k : Int) : (t.addSec k).wall = t.wall := by
  simp only [Time.addSec]
  split_ifs <;> rfl

theorem addSec_loc (t : Time) (k : Int) : (t.addSec k).loc = t.loc := by
  simp only [Time.addSec]
  split_ifs <;> rfl

/-- The method `addSec` when the sum is a signed 64-bit value. -/
theorem addSec_exact (t : Time) (k : Int) (h : isInt (t.ext + k)) :
    t.addSec k = { t with ext := t.ext + k } := by
  unfold isInt at h
  simp only [Time.addSec]
  rw [wrap64_of_fits _ h.1 h.2]
  have e : decide (t.ext + k > t.ext) = decide (k > 0) := by
    by_cases hk : k > 0
    · rw [decide_eq_true hk, decide_eq_true (by omega)]
    · rw [decide_eq_false hk, decide_eq_false (by omega)]
  simp only [e, if_true]

theorem rem_range (w : Int) :
    -1000000000 < rem w 1000000000 ∧ rem w 1000000000 < 1000000000 ∧
      w = 1000000000 * quo w 1000000000 + rem w 1000000000 := by
  unfold rem quo
  split_ifs <;> omega

theorem quo_mul (n : Int) : quo (n * 1000000000) 1000000000 = n := by
  unfold quo
  split_ifs <;> omega

/-- Adding whole seconds, given in nanoseconds, to a whole second, the sum a
signed 64-bit value. -/
theorem Add_whole_seconds (c n : Int) (l : Location) (h : isInt (c + n)) :
    (Time.mk 0 c l).Add (n * 1000000000) = ⟨0, c + n, l⟩ := by
  have e : n * 1000000000 - 1000000000 * n = 0 := by ring
  simp only [Time.Add, rem, quo_mul, Time.nsec, zero_add, e]
  simp only [ge_iff_le, show ¬ ((1000000000 : Int) ≤ 0) by norm_num, if_false, lt_self_iff_false]
  rw [addSec_exact _ _ h]

/-- Adding a duration to a whole second gives another whole second exactly
when the duration is a whole number of seconds that `addSec` moves to it. -/
theorem Add_Equal_whole (x y w : Int) (l1 l2 : Location) :
    ((Time.mk 0 y l1).Add w).Equal (Time.mk 0 x l2) = true ↔
      (rem w 1000000000 = 0 ∧ ((Time.mk 0 y l1).addSec (quo w 1000000000)).ext = x) := by
  obtain ⟨r1, r2, -⟩ := rem_range w
  simp only [Time.Add, Time.nsec, zero_add]
  generalize rem w 1000000000 = r at r1 r2 ⊢
  split_ifs with h1 h2
  · omega
  · simp only [Time.Equal, Time.nsec, Time.sec, addSec_wall, Bool.and_eq_true,
      decide_eq_true_eq]
    omega
  · have hr : r = 0 ∨ r ≠ 0 := by omega
    rcases hr with hr | hr
    · subst hr
      simp only [Time.Equal, Time.nsec, Time.sec, addSec_wall, Bool.and_eq_true,
        decide_eq_true_eq, and_true, true_and]
    · simp only [Time.Equal, Time.nsec, Time.sec, addSec_wall, Bool.and_eq_true,
        decide_eq_true_eq, hr, and_false, false_and]

/-- The method `Sub` on two whole seconds when it does not return an extreme
duration: a whole number of at most 9223372036 seconds, which `addSec` moves
from the second instant to the first. -/
theorem Sub_ok_whole (x y : Int) (l1 l2 : Location)
    (h1 : (Time.mk 0 x l1).Sub (Time.mk 0 y l2) ≠ maxDuration)
    (h2 : (Time.mk 0 x l1).Sub (Time.mk 0 y l2) ≠ minDuration) :
    ∃ k, (Time.mk 0 x l1).Sub (Time.mk 0 y l2) = k * 1000000000 ∧ -9223372036 ≤ k ∧
      k ≤ 9223372036 ∧ ((Time.mk 0 y l2).addSec k).ext = x := by
  unfold Time.Sub at h1 h2 ⊢
  simp only [Time.sec, Time.nsec, sub_self, add_zero, wrap64_wrap64] at h1 h2 ⊢
  have hwr := wrap64_range (wrap64 (x - y) * GoTime.Second)
  generalize wrap64 (wrap64 (x - y) * GoTime.Second) = w at h1 h2 hwr ⊢
  by_cases he : ((Time.mk 0 y l2).Add w).Equal (Time.mk 0 x l1) = true
  · rw [if_pos he] at h1 h2 ⊢
    obtain ⟨hr, hx⟩ := (Add_Equal_whole x y w l2 l1).mp he
    obtain ⟨-, -, hw⟩ := rem_range w
    simp only [maxDuration, minDuration] at h1 h2
    exact ⟨quo w 1000000000, by omega, by omega, by omega, hx⟩
  · rw [if_neg he] at h1 h2
    split_ifs at h1 h2 <;> simp at h1 h2

/-- The method `addSec` by at most 9223372036 seconds from a second not below
`-2^62`: the exact sum, or the largest second when the sum exceeds it. -/
theorem addSec_near (y k : Int) (l : Location) (hy0 : -4611686018427387904 ≤ y)
    (hy1 : y ≤ 9223372036854775807) (k0 : -9223372036 ≤ k) (k1 : k ≤ 9223372036) :
    ((Time.mk 0 y l).addSec k).ext
      = if y + k ≤ 9223372036854775807 then y + k else 9223372036854775807 := by
  by_cases h : y + k ≤ 9223372036854775807
  · rw [if_pos h, addSec_exact _ _ (by unfold isInt; simp only; omega)]
  · rw [if_neg h]
    have hw : wrap64 (y + k) = y + k - 18446744073709551616 := by
      unfold wrap64
      omega
    have e1 : decide (wrap64 (y + k) > y) = false := decide_eq_false (by omega)
    have e2 : decide (k > 0) = true := decide_eq_true (by omega)
    have hk : k > 0 := by omega
    simp only [Time.addSec, e1, e2, Bool.false_eq_true, if_false, hk, if_true, decide_True]

/-- The method `Sub` on two whole seconds, the second one not below `-2^62`:
the exact difference in nanoseconds when it fits 64 bits, the extreme
durations otherwise. -/
theorem Sub_whole_seconds (x y : Int) (l1 l2 : Location) (hx : isInt x)
    (hy0 : -4611686018427387904 ≤ y) (hy1 : y ≤ 9223372036854775807) :
    (Time.mk 0 x l1).Sub (Time.mk 0 y l2) =
      if -9223372036854775808 ≤ (x - y) * 1000000000 ∧ (x - y) * 1000000000 ≤ 9223372036854775807
      then (x - y) * 1000000000
      else if x < y then minDuration else maxDuration := by
  unfold isInt at hx
  unfold Time.Sub
  simp only [Time.sec, Time.nsec, sub_self, add_zero, wrap64_wrap64, GoTime.Second]
  by_cases hfit : -9223372036854775808 ≤ (x - y) * 1000000000 ∧
      (x - y) * 1000000000 ≤ 9223372036854775807
  · rw [wrap64_of_fits (x - y) (by omega) (by omega)]
    have he : ((Time.mk 0 y l2).Add ((x - y) * 1000000000)).Equal (Time.mk 0 x l1) = true := by
      rw [Add_Equal_whole]
      obtain ⟨-, -, hw⟩ := rem_range ((x - y) * 1000000000)
      rw [quo_mul] at hw ⊢
      refine ⟨by omega, ?_⟩
      rw [addSec_near _ _ _ hy0 hy1 (by omega) (by omega), if_pos (by omega)]
      ring
    rw [if_pos hfit, wrap64_of_fits _ hfit.1 hfit.2, if_pos he]
  · have hne : ¬ (((Time.mk 0 y l2).Add (wrap64 (wrap64 (x - y) * 1000000000))).Equal
        (Time.mk 0 x l1) = true) := by
      rw [Add_Equal_whole]
      intro h
      obtain ⟨hr, hq⟩ := h
      have hrange := wrap64_range (wrap64 (x - y) * 1000000000)
      generalize wrap64 (wrap64 (x - y) * 1000000000) = w at hr hq hrange
      obtain ⟨-, -, hw⟩ := rem_range w
      rw [addSec_near _ _ _ hy0 hy1 (by omega) (by omega)] at hq
      split_ifs at hq <;> omega
    rw [if_neg hfit, if_neg hne]
    simp only [Time.Before, Time.sec, Time.nsec, lt_self_iff_false, decide_False, Bool.and_false,
      Bool.or_false, decide_eq_true_eq]

/-- The wall-clock fields of `Date` applied to a real calendar tuple in a fixed
zone of any offset are that tuple, for every year whose seconds the unsigned
absolute count holds: from the absolute zero year to 292277026853. -/
theorem Date_fixed_fields (y m d h mi s off : Int) (hy0 : -292277022399 ≤ y)
    (hy1 : y ≤ 292277026853) (hm1 : 1 ≤ m) (hm2 : m ≤ 12) (hd1 : 1 ≤ d)
    (hd2 : d ≤ daysIn m y) (hh0 : 0 ≤ h) (hh1 : h ≤ 23) (hmi0 : 0 ≤ mi) (hmi1 : mi ≤ 59)
    (hs0 : 0 ≤ s) (hs1 : s ≤ 59) :
    (Date y m d h mi s 0 (FixedZone off)).Year = y ∧
    (Date y m d h mi s 0 (FixedZone off)).Month = m ∧
    (Date y m d h mi s 0 (FixedZone off)).Day = d ∧
    (Date y m d h mi s 0 (FixedZone off)).Hour = h ∧
    (Date y m d h mi s 0 (FixedZone off)).Minute = mi ∧
    (Date y m d h mi s 0 (FixedZone off)).Second = s := by
  have hdi := daysIn_pos m y hm1 hm2
  have e1 : y + (m - 1) / 12 = y := by omega
  have e2 : (m - 1) % 12 + 1 = m := by omega
  have hlo := (monthStart_bounds y m hm1 hm2).1
  have hlo2 := (epochDays_range y hy0).1
  have hup := monthStart_lt_next_year y m hm1 hm2
  have hmono := epochDays_mono (show y + 1 ≤ 292277026854 by omega)
  rw [epochDays_top] at hmono
  have habs : (Date y m d h mi s 0 (FixedZone off)).abs
      = (monthStart y m + (d - 1)) * 86400 + (h * 3600 + mi * 60 + s) := by
    rw [Date_mod y m d h mi s off (by omega) (by omega) (by omega) (by omega) (by omega)
      (by omega) (by omega), Time_abs_eq]
    simp only [civilSec, e1, e2, absoluteToInternal, internalToUnix, unixToInternal,
      secondsPerDay, wrap64]
    generalize monthStart y m = MS at hlo hup ⊢
    generalize epochDays (y + 1) = E1 at hup hmono
    generalize epochDays y = E at hlo hlo2
    generalize daysIn m y = DI at hd2 hup hdi
    omega
  have hciv := absDate_civil y m d (h * 3600 + mi * 60 + s) hm1 hm2 hd1 hd2 (by omega) (by omega)
  simp only [Time.Year, Time.Month, Time.Day, Time.Hour, Time.Minute, Time.Second, habs,
    absDate_year]
  rw [← absDate_year _ true, hciv]
  simp only [secondsPerDay, secondsPerHour, secondsPerMinute]
  generalize monthStart y m = MS
  refine ⟨trivial, trivial, trivial, ?_, ?_, ?_⟩ <;> omega

end GoTime

/-! ## The package `dates` -/

namespace Dates

open GoInt GoTime

theorem utc_location : Timezone.UTC.Location = FixedZone 0 := rfl

/-- What `Date` computes for the zone of offset zero and no nanoseconds, for
non-negative fields whose instant is not after the largest second of
`time.Time`: the seconds since year 1 of the calendar-normalised instant. -/
theorem Date_utc (y m d h mi s : Int) (hy : 0 ≤ y) (hm : 0 ≤ m) (hd : 0 ≤ d) (hh : 0 ≤ h)
    (hmi : 0 ≤ mi) (hs : 0 ≤ s) (hs1 : s ≤ 9223372036854775807)
    (hfit : civilSec y m d h mi s + 62135596800 ≤ 9223372036854775807) :
    Date y m d h mi s 0 (FixedZone 0) = ⟨0, civilSec y m d h mi s + 62135596800, ⟨0⟩⟩ := by
  obtain ⟨b1, b2, b3, b4, b5⟩ := civilSec_fields_small y m d h mi s hy hm hd hh hmi hs hfit
  have h0 := civilSec_zero_le y m d h mi s hy hm hd hh hmi hs
  rw [Date_exact y m d h mi s 0 (by omega) (by omega) (by omega) (by omega) (by omega)
    (by omega) (by omega) (by unfold isInt; omega)]
  simp

/-- The Unix second of a whole second given by its distance from the Unix
epoch. -/
theorem Unix_of_ext (c : Int) (l : Location) (h0 : -9223372036854775808 ≤ c)
    (h1 : c + 62135596800 ≤ 9223372036854775807) :
    (Time.mk 0 (c + 62135596800) l).Unix = c := by
  rw [Time_Unix_eq _ (by simp only; omega) (by simp only; omega)]
  simp

/-- The Unix second that `Date` computes in UTC for non-negative fields whose
instant is not after the largest second of `time.Time` is that of the
calendar-normalised instant. -/
theorem Date_utc_Unix (y m d h mi s : Int) (hy : 0 ≤ y) (hm : 0 ≤ m) (hd : 0 ≤ d)
    (hh : 0 ≤ h) (hmi : 0 ≤ mi) (hs : 0 ≤ s) (hs1 : s ≤ 9223372036854775807)
    (hfit : civilSec y m d h mi s + 62135596800 ≤ 9223372036854775807) :
    (Date y m d h mi s 0 (FixedZone 0)).Unix = civilSec y m d h mi s := by
  have h0 := civilSec_zero_le y m d h mi s hy hm hd hh hmi hs
  rw [Date_utc y m d h mi s hy hm hd hh hmi hs hs1 hfit, Unix_of_ext _ _ (by omega) hfit]

theorem civilSec_year_one : civilSec 1 1 1 0 0 0 = -62135596800 := by decide

theorem civilSec_ge_first (y m d h mi s : Int) (hy : 1 ≤ y) (hm1 : 1 ≤ m) (hm2 : m ≤ 12)
    (hd1 : 1 ≤ d) (hh0 : 0 ≤ h) (hmi0 : 0 ≤ mi) (hs0 : 0 ≤ s) :
    FirstUnixInAD ≤ civilSec y m d h mi s := by
  have e1 : y + (m - 1) / 12 = y := by omega
  have e2 : (m - 1) % 12 + 1 = m := by omega
  obtain ⟨hb1, hb2⟩ := monthStart_bounds y m hm1 hm2
  have hmono := epochDays_mono hy
  rw [epochDays_one] at hmono
  simp only [civilSec, e1, e2, FirstUnixInAD, absoluteToInternal, internalToUnix, unixToInternal,
    secondsPerDay]
  generalize monthStart y m = MS at *
  omega

/-- The constructors return a real calendar tuple of a year from 1 to
292277024626, the last year that `time.Time` holds in full, unchanged. -/
theorem constructors_of_calendar (y m d h mi s : Nat) (hy1 : 1 ≤ y)
    (hy2 : y ≤ 292277024626) (hm1 : 1 ≤ m) (hm2 : m ≤ 12) (hd1 : 1 ≤ d)
    (hd2 : (d : Int) ≤ daysIn m y) (hh : h ≤ 23) (hmi : mi ≤ 59) (hs : s ≤ 59) :
    NewLocalDatetime y m d h mi s = ⟨⟨y, m, d⟩, ⟨h, mi, s⟩⟩ ∧
      NewLocalDate y m d = ⟨y, m, d⟩ := by
  have hdi := daysIn_pos m y (by omega) (by omega)
  have hd3 : d ≤ 31 := by omega
  constructor
  · obtain ⟨f1, f2, f3, f4, f5, f6⟩ := Date_fixed_fields y m d h mi s 0 (by omega) (by omega)
      (by omega) (by omega)
      (by omega) hd2 (by omega) (by omega) (by omega) (by omega) (by omega) (by omega)
    have hge := civilSec_ge_first y m d h mi s (by omega) (by omega) (by omega) (by omega)
      (by omega) (by omega) (by omega)
    have hfit := civilSec_calendar_fits y m d h mi s (by omega) (by omega) (by omega) (by omega)
      (by omega) (by omega) (by omega)
    have hU := Date_utc_Unix y m d h mi s (by omega) (by omega) (by omega) (by omega) (by omega)
      (by omega) (by omega) hfit
    simp only [NewLocalDatetime, utc_location, toInt_of_lt y (by omega), toInt_of_lt m (by omega),
      toInt_of_lt d (by omega), f1, f2, f3, f4, f5, f6]
    rw [if_neg (by rw [hU]; omega)]
    simp only [toUint_natCast y (by omega), toUint_natCast m (by omega),
      toUint_natCast d (by omega), toUint_natCast h (by omega), toUint_natCast mi (by omega),
      toUint_natCast s (by omega)]
  · obtain ⟨f1, f2, f3, -, -, -⟩ := Date_fixed_fields y m d 0 0 0 0 (by omega) (by omega)
      (by omega) (by omega)
      (by omega) hd2 (by omega) (by omega) (by omega) (by omega) (by omega) (by omega)
    have hge := civilSec_ge_first y m d 0 0 0 (by omega) (by omega) (by omega) (by omega)
      (by omega) (by omega) (by omega)
    have hfit := civilSec_calendar_fits y m d 0 0 0 (by omega) (by omega) (by omega) (by omega)
      (by omega) (by omega) (by omega)
    have hU := Date_utc_Unix y m d 0 0 0 (by omega) (by omega) (by omega) (by omega) (by omega)
      (by omega) (by omega) hfit
    simp only [NewLocalDate, utc_location, f1, f2, f3]
    rw [if_neg (by rw [hU]; omega)]
    simp only [toUint_natCast y (by omega), toUint_natCast m (by omega),
      toUint_natCast d (by omega)]

/-- C2: on every well-formed civil tuple (year 1..999999999, month 1..12, day
within the month, hour 0..23, minute and second 0..59) `NewLocalDatetime`
returns exactly that date and time and `NewLocalDate` exactly that date:
normalisation is the identity on real calendar values. -/
theorem constructors_identity_on_calendar_values (y m d h mi s : Nat) (hy1 : 1 ≤ y)
    (hy2 : y ≤ 999999999) (hm1 : 1 ≤ m) (hm2 : m ≤ 12) (hd1 : 1 ≤ d)
    (hd2 : (d : Int) ≤ daysIn m y) (hh : h ≤ 23) (hmi : mi ≤ 59) (hs : s ≤ 59) :
    NewLocalDatetime y m d h mi s = ⟨⟨y, m, d⟩, ⟨h, mi, s⟩⟩ ∧
      NewLocalDate y m d = ⟨y, m, d⟩ :=
  constructors_of_calendar y m d h mi s hy1 (by omega) hm1 hm2 hd1 hd2 hh hmi hs

theorem constructors_identity_on_calendar_values_witness :
    NewLocalDatetime 2020 2 29 23 59 59 = ⟨⟨2020, 2, 29⟩, ⟨23, 59, 59⟩⟩ ∧
      NewLocalDate (2020 : Nat) (2 : Nat) (29 : Nat) = ⟨2020, 2, 29⟩ :=
  constructors_identity_on_calendar_values 2020 2 29 23 59 59 (by decide) (by decide) (by decide)
    (by decide) (by decide) (by decide) (by decide) (by decide) (by decide)

/-- A time in UTC that passes the guard of the constructors, the Unix second
not before that of January 1 of year 1, has calendar fields of year 1 or
later that the unsigned conversions keep. -/
theorem Time_calendar (t : Time) (hoff : t.loc.offset = 0) (h : FirstUnixInAD ≤ t.Unix) :
    LocalDate.isCalendar ⟨toUint t.Year, toUint t.Month, toUint t.Day⟩ ∧
    LocalTime.wellFormed ⟨toUint t.Hour, toUint t.Minute, toUint t.Second⟩ := by
  have y1 := Time_Year_pos t hoff (by simpa [FirstUnixInAD] using h)
  obtain ⟨-, y2⟩ := Time_Year_range t
  obtain ⟨m1, m2, d1, d2, h1, h2, mi1, mi2, s1, s2, -⟩ := Time_fields_sound t
  have hdi := daysIn_pos _ t.Year m1 m2
  have cy := toUint_of_range t.Year (by omega) (by omega)
  have cm := toUint_of_range t.Month (by omega) (by omega)
  have cd := toUint_of_range t.Day (by omega) (by omega)
  have ch := toUint_of_range t.Hour (by omega) (by omega)
  have cmi := toUint_of_range t.Minute (by omega) (by omega)
  have cs := toUint_of_range t.Second (by omega) (by omega)
  simp only [LocalDate.isCalendar, LocalTime.wellFormed]
  refine ⟨⟨?_, ?_, ?_, ?_, ?_⟩, ?_, ?_, ?_⟩
  · omega
  · omega
  · omega
  · omega
  · rw [cy, cm, cd]; exact d2
  · omega
  · omega
  · omega

/-- What `Date` computes in UTC at midnight of a day 1..100 of a month 1..13
of a year from 1 to the largest `int`: the seconds since year 1 of the
calendar-normalised instant, reduced to a signed 64-bit value. -/
theorem Date_midnight (y m D : Int) (hy1 : 1 ≤ y) (hy2 : y ≤ 9223372036854775807)
    (hm1 : 1 ≤ m) (hm2 : m ≤ 13) (hD1 : 1 ≤ D) (hD2 : D ≤ 100) :
    Date y m D 0 0 0 0 (FixedZone 0)
      = ⟨0, wrap64 (civilSec y m D 0 0 0 + 62135596800), ⟨0⟩⟩ := by
  have hm0 : wrap64 (m - 1) = m - 1 := wrap64_of_fits _ (by omega) (by omega)
  have n1 : norm y (m - 1) 12 = (wrap64 (y + (m - 1) / 12), (m - 1) % 12) :=
    norm_eq _ _ _ (by unfold isInt; omega) (by unfold isInt; omega) (Or.inl rfl)
  have n2 : norm 0 0 1000000000 = (0, 0) := by decide
  have n3 : norm 0 0 60 = (0, 0) := by decide
  have n5 : norm D 0 24 = (D, 0) := by
    rw [norm_eq _ _ _ (by unfold isInt; omega) (by unfold isInt; omega) (Or.inr (Or.inl rfl)),
      wrap64_of_fits _ (by omega) (by omega)]
    simp
  have hE : daysSinceEpoch (wrap64 (y + (m - 1) / 12))
      = wrapU64 (epochDays (y + (m - 1) / 12)) := by
    rw [daysSinceEpoch_eq]
    congr 2
    simp only [absoluteZeroYear, wrapU64, wrap64]
    omega
  have hL : (isLeap (wrap64 (y + (m - 1) / 12)) && decide ((m - 1) % 12 + 1 ≥ 3))
      = (isLeap (y + (m - 1) / 12) && decide ((m - 1) % 12 + 1 ≥ 3)) := by
    by_cases h13 : m = 13
    · subst h13
      simp
    · rw [wrap64_of_fits _ (by omega) (by omega)]
  simp only [Date, hm0, n1, n2, n3, n5, hE, hL]
  simp only [unixTime, FixedZone, civilSec, monthStart, secondsPerDay, secondsPerHour,
    secondsPerMinute, absoluteToInternal, internalToUnix, unixToInternal, wrapU64, wrap64]
  generalize epochDays (y + (m - 1) / 12) = E
  generalize daysBefore ((m - 1) % 12 + 1 - 1) = DB
  refine congrArg (fun x => Time.mk 0 x ⟨0⟩) ?_
  split_ifs <;> omega

/-- What `Date` computes in UTC at midnight for any values of `int`, the month
not the smallest one, whose year, the months carried into it, lies between
the absolute zero year and the largest `int`: the seconds since year 1 of the
calendar-normalised instant, reduced to a signed 64-bit value. -/
theorem Date_midnight_mod (y m D : Int) (hy : isInt y) (hm : isInt m)
    (hm0 : -9223372036854775808 < m) (hD : isInt D) (hY0 : -292277022399 ≤ y + (m - 1) / 12)
    (hY1 : y + (m - 1) / 12 ≤ 9223372036854775807) :
    Date y m D 0 0 0 0 (FixedZone 0)
      = ⟨0, wrap64 (civilSec y m D 0 0 0 + 62135596800), ⟨0⟩⟩ := by
  unfold isInt at hy hm hD
  have hm1 : wrap64 (m - 1) = m - 1 := wrap64_of_fits _ (by omega) (by omega)
  have n1 : norm y (m - 1) 12 = (y + (m - 1) / 12, (m - 1) % 12) := by
    rw [norm_eq _ _ _ (by unfold isInt; omega) (by unfold isInt; omega) (Or.inl rfl),
      wrap64_of_fits _ (by omega) (by omega)]
  have n2 : norm 0 0 1000000000 = (0, 0) := by decide
  have n3 : norm 0 0 60 = (0, 0) := by decide
  have n5 : norm D 0 24 = (D, 0) := by
    rw [norm_eq _ _ _ (by unfold isInt; omega) (by unfold isInt; omega) (Or.inr (Or.inl rfl)),
      wrap64_of_fits _ (by omega) (by omega)]
    simp
  have hE : daysSinceEpoch (y + (m - 1) / 12) = wrapU64 (epochDays (y + (m - 1) / 12)) := by
    rw [daysSinceEpoch_eq]
    congr 2
    simp only [absoluteZeroYear, wrapU64]
    omega
  simp only [Date, hm1, n1, n2, n3, n5, hE]
  simp only [unixTime, FixedZone, civilSec, monthStart, secondsPerDay, secondsPerHour,
    secondsPerMinute, absoluteToInternal, internalToUnix, unixToInternal, wrapU64, wrap64]
  generalize epochDays (y + (m - 1) / 12) = E
  generalize daysBefore ((m - 1) % 12 + 1 - 1) = DB
  refine congrArg (fun x => Time.mk 0 x ⟨0⟩) ?_
  split_ifs <;> omega

/-- Every non-zero result of `NewLocalDate` is a real calendar date of year 1
or later, for all arguments. -/
theorem NewLocalDate_calendar (y m d : Int) :
    NewLocalDate y m d = LocalDate.zero ∨ (NewLocalDate y m d).isCalendar := by
  simp only [NewLocalDate]
  split_ifs with hlt
  · left; rfl
  · right
    exact (Time_calendar _ (by rw [Date_loc]; rfl) (by omega)).1

/-- Every non-zero result of `NewLocalDatetime` is a real calendar date of year
1 or later with a time of day, for all arguments. -/
theorem NewLocalDatetime_calendar (y m d : Nat) (h mi s : Int) :
    NewLocalDatetime y m d h mi s = LocalDatetime.zero ∨
      ((NewLocalDatetime y m d h mi s).LocalDate.isCalendar ∧
        (NewLocalDatetime y m d h mi s).LocalTime.wellFormed) := by
  simp only [NewLocalDatetime]
  split_ifs with hlt
  · left; rfl
  · right
    exact Time_calendar _ (by rw [Date_loc]; rfl) (by omega)

/-- The claim C1 as stated fails in both directions. The first day of year
292277026597 is not before year 1, yet its seconds since year 1 do not fit 64
bits: `Date` wraps to an instant before year 1 and `NewLocalDate` returns the
zero date. And the day number `-2^63` of January 2020 lies far before year 1,
yet `Date` wraps it to December 31 of 2019 and the result is not zero. -/
theorem NewLocalDate_zero_although_after_year_one :
    isInt 292277026597 ∧ isInt (-9223372036854775808) ∧
    NewLocalDate 292277026597 1 1 = LocalDate.zero ∧
    ¬ civilSec 292277026597 1 1 0 0 0 < civilSec 1 1 1 0 0 0 ∧
    NewLocalDate 2020 1 (-9223372036854775808) = ⟨2019, 12, 31⟩ ∧
    civilSec 2020 1 (-9223372036854775808) 0 0 0 < civilSec 1 1 1 0 0 0 := by
  refine ⟨by unfold isInt; omega, by unfold isInt; omega, ?_, ?_, ?_, ?_⟩ <;> decide

/-- C1 (amended): for arguments of type `int`, the month not the smallest
`int`, whose calendar-normalised instant `y-m-d 00:00:00 UTC` is one that
`time.Time` holds (the year, the months carried into it, is not before
-292277022399, the Unix second `civilSec` is not below `-2^63` and the seconds
since year 1 are at most `2^63 - 1`), `NewLocalDate(y, m, d)` is the zero date
exactly when that instant lies before `0001-01-01`, which is the Unix second
-62135596800; `NewLocalDate(0,0,0)` and `NewLocalDate(0,-1,0)` are zero,
`NewLocalDate(1,1,1)` is `{1,1,1}`; and for all arguments `yi`, `mo`, `di`
every non-zero result has a year of at least 1. -/
theorem NewLocalDate_zero_iff_before_year_one (y m d yi mo di : Int) (hy : isInt y)
    (hm : isInt m) (hm0 : -9223372036854775808 < m) (hd : isInt d)
    (hY : -292277022399 ≤ y + (m - 1) / 12)
    (h0 : -9223372036854775808 ≤ civilSec y m d 0 0 0)
    (h1 : civilSec y m d 0 0 0 + 62135596800 ≤ 9223372036854775807) :
    (NewLocalDate y m d = LocalDate.zero ↔ civilSec y m d 0 0 0 < civilSec 1 1 1 0 0 0) ∧
    (Date y m d 0 0 0 0 Timezone.UTC.Location).Unix = civilSec y m d 0 0 0 ∧
    civilSec 1 1 1 0 0 0 = -62135596800 ∧
    (NewLocalDate yi mo di ≠ LocalDate.zero → 1 ≤ (NewLocalDate yi mo di).Year) ∧
    NewLocalDate 0 0 0 = LocalDate.zero ∧ NewLocalDate 0 (-1) 0 = LocalDate.zero ∧
    NewLocalDate 1 1 1 = ⟨1, 1, 1⟩ := by
  have hY1 : y + (m - 1) / 12 ≤ 9223372036854775807 := by
    have hr := (epochDays_range _ hY).1
    have hb := (monthStart_bounds (y + (m - 1) / 12) ((m - 1) % 12 + 1) (by omega)
      (by omega)).1
    have hd0 := hd.1
    simp only [civilSec, absoluteToInternal, internalToUnix, unixToInternal, secondsPerDay] at h1
    generalize monthStart (y + (m - 1) / 12) ((m - 1) % 12 + 1) = MS at hb h1
    generalize epochDays (y + (m - 1) / 12) = E at hr hb
    generalize y + (m - 1) / 12 = Y at hr
    omega
  have hU : (Date y m d 0 0 0 0 (FixedZone 0)).Unix = civilSec y m d 0 0 0 := by
    rw [Date_midnight_mod y m d hy hm hm0 hd hY hY1, wrap64_of_fits _ (by omega) h1,
      Unix_of_ext _ _ h0 h1]
  refine ⟨?_, ?_, civilSec_year_one, ?_, by decide, by decide, by decide⟩
  · rw [civilSec_year_one]
    constructor
    · intro hz
      by_contra hlt
      rcases NewLocalDate_calendar y m d with h0 | hc
      · simp only [NewLocalDate, utc_location, hU, FirstUnixInAD] at h0
        rw [if_neg hlt] at h0
        have hp := Time_Year_pos (Date y m d 0 0 0 0 (FixedZone 0)) (by rw [Date_loc]; rfl)
          (by rw [hU]; omega)
        obtain ⟨-, hp2⟩ := Time_Year_range (Date y m d 0 0 0 0 (FixedZone 0))
        have hcast := toUint_of_range _ (show 0 ≤ (Date y m d 0 0 0 0 (FixedZone 0)).Year by omega)
          (by omega)
        have hyz := congrArg LocalDate.Year h0
        simp only [LocalDate.zero] at hyz
        rw [hyz] at hcast
        simp only [Nat.cast_zero] at hcast
        omega
      · rw [hz] at hc
        simp [LocalDate.isCalendar, LocalDate.zero] at hc
    · intro hlt
      simp only [NewLocalDate, utc_location, hU, FirstUnixInAD]
      rw [if_pos hlt]
  · rw [utc_location, hU]
  · intro hne
    rcases NewLocalDate_calendar yi mo di with h0 | hc
    · exact absurd h0 hne
    · exact hc.1

theorem NewLocalDate_zero_iff_before_year_one_witness :
    isInt 2018 ∧ isInt 10 ∧ isInt 21 ∧ -292277022399 ≤ (2018 : Int) + (10 - 1) / 12 ∧
      -9223372036854775808 ≤ civilSec 2018 10 21 0 0 0 ∧
      civilSec 2018 10 21 0 0 0 + 62135596800 ≤ 9223372036854775807 ∧
      (NewLocalDate 2018 10 21 = LocalDate.zero ↔
        civilSec 2018 10 21 0 0 0 < civilSec 1 1 1 0 0 0) ∧
      (NewLocalDate 2018 10 21 ≠ LocalDate.zero → 1 ≤ (NewLocalDate 2018 10 21).Year) :=
  ⟨by unfold isInt; omega, by unfold isInt; omega, by unfold isInt; omega, by decide, by decide,
    by decide,
    (NewLocalDate_zero_iff_before_year_one 2018 10 21 2018 10 21 (by unfold isInt; omega)
      (by unfold isInt; omega) (by decide) (by unfold isInt; omega) (by decide) (by decide)
      (by decide)).1,
    (NewLocalDate_zero_iff_before_year_one 2018 10 21 2018 10 21 (by unfold isInt; omega)
      (by unfold isInt; omega) (by decide) (by unfold isInt; omega) (by decide) (by decide)
      (by decide)).2.2.2.1⟩

/-- The first day of the month after `m` comes `daysIn m y` days after the
first day of `m`, December leading to January of the next year. -/
theorem civilSec_month_carry (y m d h mi s : Int) (hm1 : 1 ≤ m) (hm2 : m ≤ 12) :
    civilSec y m (daysIn m y + d) h mi s = civilSec y (m + 1) d h mi s := by
  have e1 : y + (m - 1) / 12 = y := by omega
  have e2 : (m - 1) % 12 + 1 = m := by omega
  simp only [civilSec, e1, e2]
  by_cases h12 : m = 12
  · subst h12
    have e3 : y + (12 + 1 - 1) / 12 = y + 1 := by omega
    have e4 : (12 + 1 - 1) % 12 + 1 = (1 : Int) := by omega
    rw [e3, e4, monthStart_next_year]
    ring
  · have e3 : y + (m + 1 - 1) / 12 = y := by omega
    have e4 : (m + 1 - 1) % 12 + 1 = m + 1 := by omega
    rw [e3, e4, monthStart_succ y m hm1 (by omega)]
    ring

theorem civilSec_year_carry (y m d h mi s : Int) :
    civilSec y (m + 12) d h mi s = civilSec (y + 1) m d h mi s := by
  have e1 : y + (m + 12 - 1) / 12 = y + 1 + (m - 1) / 12 := by omega
  have e2 : (m + 12 - 1) % 12 = (m - 1) % 12 := by omega
  simp only [civilSec, e1, e2]

/-- C3: day overflow carries into the next month: for every year `y` from 1
to the largest `int`, month `m` in 1..12 with `L = daysIn m y` days and every
`k` in 1..28, `NewLocalDate(y, m, L + k)` equals `NewLocalDate(y, m + 1, k)`,
month 13 being January of `y + 1`; and `NewLocalDate(549, 4, 33)` is
`{549, 5, 3}`. -/
theorem day_overflow_carries_into_next_month (y m k : Int) (hy1 : 1 ≤ y)
    (hy2 : y ≤ 9223372036854775807) (hm1 : 1 ≤ m) (hm2 : m ≤ 12) (hk1 : 1 ≤ k)
    (hk2 : k ≤ 28) :
    NewLocalDate y m (daysIn m y + k) = NewLocalDate y (m + 1) k ∧
    (y + 1 ≤ 9223372036854775807 → NewLocalDate y 13 k = NewLocalDate (y + 1) 1 k) ∧
    NewLocalDate 549 4 33 = ⟨549, 5, 3⟩ := by
  have hdi := daysIn_pos m y hm1 hm2
  refine ⟨?_, ?_, by decide⟩
  · simp only [NewLocalDate, utc_location]
    rw [Date_midnight y m (daysIn m y + k) hy1 hy2 hm1 (by omega) (by omega) (by omega),
      Date_midnight y (m + 1) k hy1 hy2 (by omega) (by omega) hk1 (by omega),
      civilSec_month_carry y m k 0 0 0 hm1 hm2]
  · intro hy3
    have hc : civilSec y 13 k 0 0 0 = civilSec (y + 1) 1 k 0 0 0 :=
      civilSec_year_carry y 1 k 0 0 0
    simp only [NewLocalDate, utc_location]
    rw [Date_midnight y 13 k hy1 hy2 (by omega) (by omega) hk1 (by omega),
      Date_midnight (y + 1) 1 k (by omega) hy3 (by omega) (by omega) hk1 (by omega), hc]

theorem day_overflow_carries_into_next_month_witness :
    NewLocalDate 549 4 (daysIn 4 549 + 3) = NewLocalDate 549 (4 + 1) 3 ∧
    NewLocalDate 549 13 3 = NewLocalDate (549 + 1) 1 3 :=
  ⟨(day_overflow_carries_into_next_month 549 4 3 (by decide) (by decide) (by decide)
      (by decide) (by decide) (by decide)).1,
   (day_overflow_carries_into_next_month 549 4 3 (by decide) (by decide) (by decide)
      (by decide) (by decide) (by decide)).2.1 (by decide)⟩

/-- The claim C4 as stated fails within the range of `int`: for the month
`-2^63` the subtraction `month - 1` in `Date` wraps, so that
`NewLocalDate(2019, -2^63 + 12, 1)` and `NewLocalDate(2020, -2^63, 1)` are
different dates. -/
theorem month_carry_fails_at_smallest_int :
    isInt (-9223372036854775808) ∧ isInt (-9223372036854775808 + 12) ∧
    NewLocalDate 2019 (-9223372036854775808 + 12) 1 = ⟨2019, 12, 1⟩ ∧
    NewLocalDate (2019 + 1) (-9223372036854775808) 1 = ⟨2019, 11, 30⟩ := by
  refine ⟨by unfold isInt; omega, by unfold isInt; omega, ?_, ?_⟩ <;> decide

/-- C4 (amended): the unit carry laws of the constructors, for arguments of
at most `2^62` in absolute value: twelve months are a year in `NewLocalDate`;
in `NewLocalDatetime` sixty seconds are a minute, sixty minutes an hour and
twenty-four hours a day; `NewLocalDate(549,14,1)` is `{550,2,1}` and
`NewLocalDatetime(549,4,33,13,80,80)` is `{{549,5,3},{14,21,20}}`. -/
theorem constructor_unit_carry_laws (yi mi di : Int) (y m d : Nat) (h min s : Int)
    (hyi : small yi) (hmi : small mi) (hdi : small di) (hy : y ≤ 4611686018427387904)
    (hm : m ≤ 4611686018427387904) (hd : d ≤ 4611686018427387904) (hh : small h)
    (hmin : small min) (hs : small s) :
    NewLocalDate yi (mi + 12) di = NewLocalDate (yi + 1) mi di ∧
    NewLocalDatetime y m d h min (s + 60) = NewLocalDatetime y m d h (min + 1) s ∧
    NewLocalDatetime y m d h (min + 60) s = NewLocalDatetime y m d (h + 1) min s ∧
    NewLocalDatetime y m d (h + 24) min s = NewLocalDatetime y m (d + 1) h min s ∧
    NewLocalDate 549 14 1 = ⟨550, 2, 1⟩ ∧
    NewLocalDatetime 549 4 33 13 80 80 = ⟨⟨549, 5, 3⟩, ⟨14, 21, 20⟩⟩ := by
  have c1 := (Date_carry yi mi di 0 0 0 (FixedZone 0) hyi hmi hdi (by unfold small; omega)
    (by unfold small; omega) (by unfold small; omega)).1
  obtain ⟨-, c2, c3, c4⟩ := Date_carry y m d h min s (FixedZone 0) (by unfold small; omega)
    (by unfold small; omega) (by unfold small; omega) hh hmin hs
  have ed : toInt (d + 1) = (d : Int) + 1 := by
    rw [toInt_of_lt _ (by omega)]
    push_cast
    rfl
  refine ⟨?_, ?_, ?_, ?_, by decide, by decide⟩
  · simp only [NewLocalDate, utc_location, c1]
  · simp only [NewLocalDatetime, utc_location, toInt_of_lt y (by omega),
      toInt_of_lt m (by omega), toInt_of_lt d (by omega), c2]
  · simp only [NewLocalDatetime, utc_location, toInt_of_lt y (by omega),
      toInt_of_lt m (by omega), toInt_of_lt d (by omega), c3]
  · simp only [NewLocalDatetime, utc_location, toInt_of_lt y (by omega),
      toInt_of_lt m (by omega), toInt_of_lt d (by omega), ed, c4]

theorem constructor_unit_carry_laws_witness :
    NewLocalDate 549 (2 + 12) 1 = NewLocalDate (549 + 1) 2 1 ∧
    NewLocalDatetime 549 4 30 13 20 (20 + 60) = NewLocalDatetime 549 4 30 13 (20 + 1) 20 ∧
    NewLocalDatetime 549 4 30 13 (20 + 60) 20 = NewLocalDatetime 549 4 30 (13 + 1) 20 20 ∧
    NewLocalDatetime 549 4 30 (13 + 24) 20 20 = NewLocalDatetime 549 4 (30 + 1) 13 20 20 ∧
    NewLocalDate 549 14 1 = ⟨550, 2, 1⟩ ∧
    NewLocalDatetime 549 4 33 13 80 80 = ⟨⟨549, 5, 3⟩, ⟨14, 21, 20⟩⟩ :=
  constructor_unit_carry_laws 549 2 1 549 4 30 13 20 20 (by unfold small; omega)
    (by unfold small; omega) (by unfold small; omega) (by omega) (by omega) (by omega)
    (by unfold small; omega) (by unfold small; omega) (by unfold small; omega)

/-- The instant of a representable datetime: the seconds since year 1 of the
calendar-normalised instant. -/
theorem LocalDatetime_ToTimeUtc_eq (a : LocalDatetime) (ha : a.representable) :
    a.ToTimeUtc = ⟨0, civilSec a.LocalDate.Year a.LocalDate.Month a.LocalDate.Day
      a.LocalTime.Hour a.LocalTime.Minute a.LocalTime.Second + 62135596800, ⟨0⟩⟩ := by
  obtain ⟨h1, h2, h3, h4, h5, h6, hfit⟩ := ha
  simp only [LocalDatetime.ToTimeUtc, LocalDatetime.ToTime, utc_location,
    toInt_of_lt _ h1, toInt_of_lt _ h2, toInt_of_lt _ h3, toInt_of_lt _ h4, toInt_of_lt _ h5,
    toInt_of_lt _ h6]
  rw [Date_utc _ _ _ _ _ _ (by omega) (by omega) (by omega) (by omega) (by omega) (by omega)
    (by omega) hfit]

theorem LocalDate_ToTimeUtc_eq (a : LocalDate) (ha : a.representable) :
    a.ToTimeUtc = ⟨0, civilSec a.Year a.Month a.Day 0 0 0 + 62135596800, ⟨0⟩⟩ := by
  obtain ⟨h1, h2, h3, hfit⟩ := ha
  simp only [LocalDate.ToTimeUtc, LocalDate.ToTime, utc_location, toInt_of_lt _ h1,
    toInt_of_lt _ h2, toInt_of_lt _ h3]
  rw [Date_utc _ _ _ _ _ _ (by omega) (by omega) (by omega) (by omega) (by omega) (by omega)
    (by omega) hfit]

/-- The instant of a representable datetime as a whole second given by its
Unix second, which is that of the calendar-normalised instant, not before that
of the zero datetime and with seconds since year 1 of at most `2^63 - 1`. -/
theorem LocalDatetime_instant (a : LocalDatetime) (ha : a.representable) :
    a.ToTimeUtc = ⟨0, a.ToTimeUtc.Unix + 62135596800, ⟨0⟩⟩ ∧
    a.ToTimeUtc.Unix = civilSec a.LocalDate.Year a.LocalDate.Month a.LocalDate.Day
      a.LocalTime.Hour a.LocalTime.Minute a.LocalTime.Second ∧
    -62169984000 ≤ a.ToTimeUtc.Unix ∧
    a.ToTimeUtc.Unix + 62135596800 ≤ 9223372036854775807 := by
  have hfit := ha.2.2.2.2.2.2
  have h0 := civilSec_zero_le a.LocalDate.Year a.LocalDate.Month a.LocalDate.Day
    a.LocalTime.Hour a.LocalTime.Minute a.LocalTime.Second (by omega) (by omega) (by omega)
    (by omega) (by omega) (by omega)
  have hU : a.ToTimeUtc.Unix = civilSec a.LocalDate.Year a.LocalDate.Month a.LocalDate.Day
      a.LocalTime.Hour a.LocalTime.Minute a.LocalTime.Second := by
    rw [LocalDatetime_ToTimeUtc_eq a ha, Unix_of_ext _ _ (by omega) hfit]
  refine ⟨?_, hU, by omega, by omega⟩
  rw [hU]
  exact LocalDatetime_ToTimeUtc_eq a ha

theorem LocalDate_instant (a : LocalDate) (ha : a.representable) :
    a.ToTimeUtc = ⟨0, a.ToTimeUtc.Unix + 62135596800, ⟨0⟩⟩ ∧
    a.ToTimeUtc.Unix = civilSec a.Year a.Month a.Day 0 0 0 ∧
    -62169984000 ≤ a.ToTimeUtc.Unix ∧
    a.ToTimeUtc.Unix + 62135596800 ≤ 9223372036854775807 := by
  have hfit := ha.2.2.2
  have h0 := civilSec_zero_le a.Year a.Month a.Day 0 0 0 (by omega) (by omega) (by omega)
    (by omega) (by omega) (by omega)
  have hU : a.ToTimeUtc.Unix = civilSec a.Year a.Month a.Day 0 0 0 := by
    rw [LocalDate_ToTimeUtc_eq a ha, Unix_of_ext _ _ (by omega) hfit]
  refine ⟨?_, hU, by omega, by omega⟩
  rw [hU]
  exact LocalDate_ToTimeUtc_eq a ha

/-- The method `Sub` of `time` on two whole seconds given by Unix seconds not
before that of the zero datetime. -/
theorem Sub_of_Unix (x y : Int) (hx0 : -62169984000 ≤ x)
    (hx1 : x + 62135596800 ≤ 9223372036854775807) (hy0 : -62169984000 ≤ y)
    (hy1 : y + 62135596800 ≤ 9223372036854775807) :
    (Time.mk 0 (x + 62135596800) ⟨0⟩).Sub (Time.mk 0 (y + 62135596800) ⟨0⟩) =
      if -9223372036854775808 ≤ (x - y) * 1000000000 ∧ (x - y) * 1000000000 ≤ 9223372036854775807
      then (x - y) * 1000000000
      else if x < y then minDuration else maxDuration := by
  rw [Sub_whole_seconds _ _ _ _ (by unfold isInt; omega) (by omega) (by omega)]
  have e : x + 62135596800 - (y + 62135596800) = x - y := by ring
  rw [e]
  split_ifs <;> first | rfl | (exfalso; omega)

/-- The result of `LocalDatetime.Sub` on representable values in terms of
the difference of the Unix seconds of the two instants. -/
theorem LocalDatetime_Sub_eq (a b : LocalDatetime) (ha : a.representable)
    (hb : b.representable) :
    a.Sub b =
      if -9223372036854775808 ≤ (a.ToTimeUtc.Unix - b.ToTimeUtc.Unix) * 1000000000 ∧
          (a.ToTimeUtc.Unix - b.ToTimeUtc.Unix) * 1000000000 ≤ 9223372036854775807
      then ((a.ToTimeUtc.Unix - b.ToTimeUtc.Unix) * 1000000000, true)
      else if a.ToTimeUtc.Unix < b.ToTimeUtc.Unix then (MinDuration, false)
      else (MaxDuration, false) := by
  obtain ⟨ea, -, a0, a1⟩ := LocalDatetime_instant a ha
  obtain ⟨eb, -, b0, b1⟩ := LocalDatetime_instant b hb
  generalize a.ToTimeUtc.Unix = x at ea a0 a1 ⊢
  generalize b.ToTimeUtc.Unix = y at eb b0 b1 ⊢
  simp only [LocalDatetime.Sub, ea, eb, Sub_of_Unix x y a0 a1 b0 b1, MaxDuration, MinDuration,
    minDuration, maxDuration]
  by_cases hfit : -9223372036854775808 ≤ (x - y) * 1000000000 ∧
      (x - y) * 1000000000 ≤ 9223372036854775807
  · have h1 : ¬ ((x - y) * 1000000000 = 9223372036854775807 ∨
        (x - y) * 1000000000 = -9223372036854775808) := by omega
    rw [if_pos hfit, if_neg h1, if_pos hfit]
  · rw [if_neg hfit, if_neg hfit]
    by_cases hlt : x < y
    · rw [if_pos hlt, if_pos (Or.inr rfl), if_pos hlt]
    · rw [if_neg hlt, if_pos (Or.inl rfl), if_neg hlt]

/-- The result of `LocalDate.Sub` on representable dates in terms of the
difference of the Unix seconds of the two instants. -/
theorem LocalDate_Sub_eq (a b : LocalDate) (ha : a.representable) (hb : b.representable) :
    a.Sub b =
      if -9223372036854775808 ≤ (a.ToTimeUtc.Unix - b.ToTimeUtc.Unix) * 1000000000 ∧
          (a.ToTimeUtc.Unix - b.ToTimeUtc.Unix) * 1000000000 ≤ 9223372036854775807
      then ((a.ToTimeUtc.Unix - b.ToTimeUtc.Unix) * 1000000000, true)
      else if a.ToTimeUtc.Unix < b.ToTimeUtc.Unix then (MinDuration, false)
      else (MaxDuration, false) := by
  obtain ⟨ea, -, a0, a1⟩ := LocalDate_instant a ha
  obtain ⟨eb, -, b0, b1⟩ := LocalDate_instant b hb
  generalize a.ToTimeUtc.Unix = x at ea a0 a1 ⊢
  generalize b.ToTimeUtc.Unix = y at eb b0 b1 ⊢
  simp only [LocalDate.Sub, ea, eb, Sub_of_Unix x y a0 a1 b0 b1, MaxDuration, MinDuration,
    minDuration, maxDuration]
  by_cases hfit : -9223372036854775808 ≤ (x - y) * 1000000000 ∧
      (x - y) * 1000000000 ≤ 9223372036854775807
  · have h1 : ¬ ((x - y) * 1000000000 = 9223372036854775807 ∨
        (x - y) * 1000000000 = -9223372036854775808) := by omega
    rw [if_pos hfit, if_neg h1, if_pos hfit]
  · rw [if_neg hfit, if_neg hfit]
    by_cases hlt : x < y
    · rw [if_pos hlt, if_pos (Or.inr rfl), if_pos hlt]
    · rw [if_neg hlt, if_pos (Or.inl rfl), if_neg hlt]

/-- The claim C5 as stated fails: January 1 of year 292277026000 is later than
January 1 of 2020 and the difference does not fit 64 bits, yet `Sub` returns
`MinDuration`, not `MaxDuration`: the seconds since year 1 of the later value
wrap to a negative number, so the comparison in `Sub` sees it as earlier. -/
theorem Sub_MinDuration_although_later :
    (LocalDatetime.ToTimeUtc ⟨⟨2020, 1, 1⟩, ⟨0, 0, 0⟩⟩).Unix
      < (LocalDatetime.ToTimeUtc ⟨⟨292277026000, 1, 1⟩, ⟨0, 0, 0⟩⟩).Unix ∧
    (LocalDatetime.ToTimeUtc ⟨⟨292277026000, 1, 1⟩, ⟨0, 0, 0⟩⟩).Unix
      = civilSec 292277026000 1 1 0 0 0 ∧
    LocalDatetime.Sub ⟨⟨292277026000, 1, 1⟩, ⟨0, 0, 0⟩⟩ ⟨⟨2020, 1, 1⟩, ⟨0, 0, 0⟩⟩
      = (MinDuration, false) ∧
    LocalDatetime.Before ⟨⟨292277026000, 1, 1⟩, ⟨0, 0, 0⟩⟩ ⟨⟨2020, 1, 1⟩, ⟨0, 0, 0⟩⟩ = true := by
  decide

/-- C5 (amended): for all `LocalDatetime` values `a` and `b` whose UTC
instants `time.Time` holds (`representable`: every field below `2^63` and the
instant not after 292277024627-12-06 15:30:07; the zero value included), which
are whole seconds, `a.Sub(b)` returns `ok = true` with the exact number of
nanoseconds between the instants whenever that number fits a signed 64-bit
integer, and otherwise `ok = false` with `MaxDuration` when `a` is later and
`MinDuration` when `a` is earlier; `ok = false` never comes with a difference
that fits. -/
theorem LocalDatetime_Sub_exact_or_saturated (a b : LocalDatetime) (ha : a.representable)
    (hb : b.representable) :
    (a.ToTimeUtc.nsec = 0 ∧ b.ToTimeUtc.nsec = 0) ∧
    (MinDuration ≤ (a.ToTimeUtc.Unix - b.ToTimeUtc.Unix) * 1000000000 ∧
      (a.ToTimeUtc.Unix - b.ToTimeUtc.Unix) * 1000000000 ≤ MaxDuration →
        a.Sub b = ((a.ToTimeUtc.Unix - b.ToTimeUtc.Unix) * 1000000000, true)) ∧
    (MaxDuration < (a.ToTimeUtc.Unix - b.ToTimeUtc.Unix) * 1000000000 →
        b.ToTimeUtc.Unix < a.ToTimeUtc.Unix ∧ a.Sub b = (MaxDuration, false)) ∧
    ((a.ToTimeUtc.Unix - b.ToTimeUtc.Unix) * 1000000000 < MinDuration →
        a.ToTimeUtc.Unix < b.ToTimeUtc.Unix ∧ a.Sub b = (MinDuration, false)) ∧
    ((a.Sub b).2 = false ↔
      ¬ (MinDuration ≤ (a.ToTimeUtc.Unix - b.ToTimeUtc.Unix) * 1000000000 ∧
        (a.ToTimeUtc.Unix - b.ToTimeUtc.Unix) * 1000000000 ≤ MaxDuration)) := by
  have hsub := LocalDatetime_Sub_eq a b ha hb
  refine ⟨⟨Date_wall _ _ _ _ _ _ _, Date_wall _ _ _ _ _ _ _⟩, ?_⟩
  simp only [MinDuration, MaxDuration] at hsub ⊢
  generalize a.ToTimeUtc.Unix = x at hsub ⊢
  generalize b.ToTimeUtc.Unix = y at hsub ⊢
  refine ⟨?_, ?_, ?_, ?_⟩
  · intro hfit
    rw [hsub, if_pos hfit]
  · intro hgt
    refine ⟨by omega, ?_⟩
    rw [hsub, if_neg (by omega), if_neg (by omega)]
  · intro hlt
    refine ⟨by omega, ?_⟩
    rw [hsub, if_neg (by omega), if_pos (by omega)]
  · rw [hsub]
    split_ifs <;> simp_all

theorem LocalDatetime_Sub_exact_or_saturated_witness :
    (LocalDatetime.Sub ⟨⟨2020, 6, 10⟩, ⟨3, 15, 10⟩⟩ ⟨⟨2020, 6, 9⟩, ⟨21, 15, 10⟩⟩)
        = (6 * 3600 * 1000000000, true) ∧
      (LocalDatetime.Sub ⟨⟨2020, 6, 9⟩, ⟨21, 15, 10⟩⟩ LocalDatetime.zero) = (MaxDuration, false) :=
  ⟨(LocalDatetime_Sub_exact_or_saturated ⟨⟨2020, 6, 10⟩, ⟨3, 15, 10⟩⟩
      ⟨⟨2020, 6, 9⟩, ⟨21, 15, 10⟩⟩
      (by unfold LocalDatetime.representable; decide)
      (by unfold LocalDatetime.representable; decide)).2.1 (by decide),
   ((LocalDatetime_Sub_exact_or_saturated ⟨⟨2020, 6, 9⟩, ⟨21, 15, 10⟩⟩ LocalDatetime.zero
      (by unfold LocalDatetime.representable; decide)
      (by unfold LocalDatetime.representable; decide)).2.2.1 (by decide)).2⟩

/-- Moving a civil tuple 293 calendar years on moves its instant by more than
the largest duration, 9223372036 whole seconds. -/
theorem civilSec_add_293_years (y m d h mi s : Int) :
    9223372036 < civilSec (y + 293) m d h mi s - civilSec y m d h mi s := by
  have e1 : y + 293 + (m - 1) / 12 = y + (m - 1) / 12 + 293 := by ring
  have hge := epochDays_add_ge (y + (m - 1) / 12) 293
  simp only [Nat.cast_ofNat] at hge
  simp only [civilSec, monthStart_eq, e1]
  have hl1 : (0 : Int) ≤ (if isLeap (y + (m - 1) / 12 + 293) = true ∧
      3 ≤ (m - 1) % 12 + 1 then 1 else 0) := by split_ifs <;> omega
  have hl2 : (if isLeap (y + (m - 1) / 12) = true ∧ 3 ≤ (m - 1) % 12 + 1 then 1 else 0)
      ≤ (1 : Int) := by split_ifs <;> omega
  omega

/-- The claim C6 as stated fails: two datetimes (and two dates) exactly 290
calendar years apart subtract with `ok = true`, and `DivideDatePeriod` on
these bounds returns a period instead of `ErrLengthOfPeriod`. -/
theorem Sub_290_years_apart_is_ok :
    LocalDatetime.Sub ⟨⟨2290, 1, 1⟩, ⟨0, 0, 0⟩⟩ ⟨⟨2000, 1, 1⟩, ⟨0, 0, 0⟩⟩
        = (9151574400000000000, true) ∧
    LocalDate.Sub ⟨2290, 1, 1⟩ ⟨2000, 1, 1⟩ = (9151574400000000000, true) ∧
    DivideDatePeriod 0 ⟨2000, 1, 1⟩ ⟨2290, 1, 1⟩ 106751
        = some ([⟨⟨2000, 1, 1⟩, ⟨2290, 1, 1⟩⟩], none) := by
  decide

/-- C6 (amended): `Sub` cannot handle periods beyond the 64-bit nanosecond
range: for `LocalDatetime` (or `LocalDate`) values whose UTC instants
`time.Time` holds (`representable`), whenever the instants of two of them are
more than 9223372036 seconds (about 292.27 years) apart, `Sub` returns
`ok = false` and `DivideDatePeriod` on such non-zero bounds with a chunk of at
least one day fails with `ErrLengthOfPeriod`; a value 293 or more calendar
years after another one, its instant not before that of the other's fields
with 293 added to the year (`civilSec`), is that far apart. -/
theorem Sub_fails_beyond_duration_range (a b : LocalDatetime) (p q : LocalDate) (day : Int)
    (fuel : Nat) (ha : a.representable) (hb : b.representable) (hp : p.representable)
    (hq : q.representable) :
    ((9223372036 < a.ToTimeUtc.Unix - b.ToTimeUtc.Unix ∨
        9223372036 < b.ToTimeUtc.Unix - a.ToTimeUtc.Unix) → (a.Sub b).2 = false) ∧
    ((9223372036 < p.ToTimeUtc.Unix - q.ToTimeUtc.Unix ∨
        9223372036 < q.ToTimeUtc.Unix - p.ToTimeUtc.Unix) →
      (p.Sub q).2 = false ∧
      (p.IsZero = false → q.IsZero = false → 1 ≤ day →
        DivideDatePeriod fuel q p day = some ([], some .ErrLengthOfPeriod))) ∧
    (civilSec ((b.LocalDate.Year : Int) + 293) b.LocalDate.Month b.LocalDate.Day
        b.LocalTime.Hour b.LocalTime.Minute b.LocalTime.Second ≤ a.ToTimeUtc.Unix →
      9223372036 < a.ToTimeUtc.Unix - b.ToTimeUtc.Unix) ∧
    (civilSec ((q.Year : Int) + 293) q.Month q.Day 0 0 0 ≤ p.ToTimeUtc.Unix →
      9223372036 < p.ToTimeUtc.Unix - q.ToTimeUtc.Unix) := by
  refine ⟨?_, ?_, ?_, ?_⟩
  · intro h
    rw [LocalDatetime_Sub_eq a b ha hb]
    split_ifs <;> first | rfl | (exfalso; omega)
  · intro h
    have hsub : (p.Sub q).2 = false := by
      rw [LocalDate_Sub_eq p q hp hq]
      split_ifs <;> first | rfl | (exfalso; omega)
    refine ⟨hsub, ?_⟩
    intro hp hq hday
    simp only [DivideDatePeriod, hp, hq, hsub, Bool.or_self, Bool.false_eq_true, if_false,
      not_lt.mpr hday, Bool.not_false, if_true]
  · intro hle
    have h293 := civilSec_add_293_years b.LocalDate.Year b.LocalDate.Month b.LocalDate.Day
      b.LocalTime.Hour b.LocalTime.Minute b.LocalTime.Second
    rw [(LocalDatetime_instant b hb).2.1]
    omega
  · intro hle
    have h293 := civilSec_add_293_years q.Year q.Month q.Day 0 0 0
    rw [(LocalDate_instant q hq).2.1]
    omega

theorem Sub_fails_beyond_duration_range_witness :
    (LocalDatetime.Sub ⟨⟨2293, 1, 1⟩, ⟨0, 0, 0⟩⟩ ⟨⟨2000, 1, 1⟩, ⟨0, 0, 0⟩⟩).2 = false ∧
    (LocalDate.Sub ⟨2022, 4, 6⟩ ⟨1500, 4, 1⟩).2 = false ∧
    DivideDatePeriod 0 ⟨1500, 4, 1⟩ ⟨2022, 4, 6⟩ 3 = some ([], some .ErrLengthOfPeriod) :=
  ⟨(Sub_fails_beyond_duration_range ⟨⟨2293, 1, 1⟩, ⟨0, 0, 0⟩⟩ ⟨⟨2000, 1, 1⟩, ⟨0, 0, 0⟩⟩
      ⟨2022, 4, 6⟩ ⟨1500, 4, 1⟩ 3 0
      (by unfold LocalDatetime.representable; decide)
      (by unfold LocalDatetime.representable; decide)
      (by unfold LocalDate.representable; decide) (by unfold LocalDate.representable; decide)).1 (by decide),
   ((Sub_fails_beyond_duration_range ⟨⟨2293, 1, 1⟩, ⟨0, 0, 0⟩⟩ ⟨⟨2000, 1, 1⟩, ⟨0, 0, 0⟩⟩
      ⟨2022, 4, 6⟩ ⟨1500, 4, 1⟩ 3 0
      (by unfold LocalDatetime.representable; decide)
      (by unfold LocalDatetime.representable; decide)
      (by unfold LocalDate.representable; decide) (by unfold LocalDate.representable; decide)).2.1 (by decide)).1,
   ((Sub_fails_beyond_duration_range ⟨⟨2293, 1, 1⟩, ⟨0, 0, 0⟩⟩ ⟨⟨2000, 1, 1⟩, ⟨0, 0, 0⟩⟩
      ⟨2022, 4, 6⟩ ⟨1500, 4, 1⟩ 3 0
      (by unfold LocalDatetime.representable; decide)
      (by unfold LocalDatetime.representable; decide)
      (by unfold LocalDate.representable; decide) (by unfold LocalDate.representable; decide)).2.1 (by decide)).2
      (by decide) (by decide) (by decide)⟩

theorem LocalDatetime_nsec_zero (a : LocalDatetime) : a.ToTimeUtc.nsec = 0 :=
  Date_wall _ _ _ _ _ _ _

theorem LocalDate_nsec_zero (a : LocalDate) : a.ToTimeUtc.nsec = 0 :=
  Date_wall _ _ _ _ _ _ _

/-- The comparisons of `LocalDatetime` compare the seconds since year 1 of the
two instants, as 64-bit values. -/
theorem LocalDatetime_Before_iff (a b : LocalDatetime) :
    a.Before b = true ↔ a.ToTimeUtc.sec < b.ToTimeUtc.sec := by
  simp [LocalDatetime.Before, Time.Before, LocalDatetime_nsec_zero]

theorem LocalDatetime_After_iff (a b : LocalDatetime) :
    a.After b = true ↔ b.ToTimeUtc.sec < a.ToTimeUtc.sec := by
  simp [LocalDatetime.After, Time.After, LocalDatetime_nsec_zero]

theorem LocalDatetime_Equal_iff (a b : LocalDatetime) :
    a.Equal b = true ↔ a.ToTimeUtc.sec = b.ToTimeUtc.sec := by
  simp [LocalDatetime.Equal, Time.Equal, LocalDatetime_nsec_zero]

theorem LocalDate_Before_iff (a b : LocalDate) :
    a.Before b = true ↔ a.ToTimeUtc.sec < b.ToTimeUtc.sec := by
  simp [LocalDate.Before, Time.Before, LocalDate_nsec_zero]

theorem LocalDate_After_iff (a b : LocalDate) :
    a.After b = true ↔ b.ToTimeUtc.sec < a.ToTimeUtc.sec := by
  simp [LocalDate.After, Time.After, LocalDate_nsec_zero]

theorem LocalDate_Equal_iff (a b : LocalDate) :
    a.Equal b = true ↔ a.ToTimeUtc.sec = b.ToTimeUtc.sec := by
  simp [LocalDate.Equal, Time.Equal, LocalDate_nsec_zero]

theorem LocalDatetime_Between_iff (d start end_ : LocalDatetime) :
    d.Between start end_ = true ↔
      start.ToTimeUtc.sec ≤ d.ToTimeUtc.sec ∧ d.ToTimeUtc.sec ≤ end_.ToTimeUtc.sec := by
  simp only [LocalDatetime.Between, Bool.and_eq_true, Bool.or_eq_true, LocalDatetime_Before_iff,
    LocalDatetime_After_iff, LocalDatetime_Equal_iff]
  omega

theorem LocalDate_Between_iff (d start end_ : LocalDate) :
    d.Between start end_ = true ↔
      start.ToTimeUtc.sec ≤ d.ToTimeUtc.sec ∧ d.ToTimeUtc.sec ≤ end_.ToTimeUtc.sec := by
  simp only [LocalDate.Between, Bool.and_eq_true, Bool.or_eq_true, LocalDate_Before_iff,
    LocalDate_After_iff, LocalDate_Equal_iff]
  omega

/-- The seconds since year 1 of a representable datetime are its Unix second
moved by the distance of the two epochs. -/
theorem LocalDatetime_sec_eq (a : LocalDatetime) (ha : a.representable) :
    a.ToTimeUtc.sec = a.ToTimeUtc.Unix + 62135596800 := by
  have h := (LocalDatetime_instant a ha).1
  exact congrArg Time.ext h

theorem LocalDate_sec_eq (a : LocalDate) (ha : a.representable) :
    a.ToTimeUtc.sec = a.ToTimeUtc.Unix + 62135596800 := by
  have h := (LocalDate_instant a ha).1
  exact congrArg Time.ext h

theorem LocalDatetime_representable_of_wellFormed (a : LocalDatetime) (ha : a.wellFormed) :
    a.representable := by
  obtain ⟨⟨h1, h2, h3, h4, h5⟩, h6, h7, h8⟩ := ha
  have hdi := daysIn_pos a.LocalDate.Month a.LocalDate.Year (by omega) (by omega)
  simp only [MaxYear] at h1
  have hfit := civilSec_calendar_fits a.LocalDate.Year a.LocalDate.Month a.LocalDate.Day
    a.LocalTime.Hour a.LocalTime.Minute a.LocalTime.Second (by omega) (by omega) (by omega)
    (by omega) (by omega) (by omega) (by omega)
  refine ⟨?_, ?_, ?_, ?_, ?_, ?_, hfit⟩ <;> omega

/-- The instant of a well-formed datetime is `civilSec` of its fields. -/
theorem LocalDatetime_Unix_of_wellFormed (a : LocalDatetime) (ha : a.wellFormed) :
    a.ToTimeUtc.Unix = civilSec a.LocalDate.Year a.LocalDate.Month a.LocalDate.Day
      a.LocalTime.Hour a.LocalTime.Minute a.LocalTime.Second :=
  (LocalDatetime_instant a (LocalDatetime_representable_of_wellFormed a ha)).2.1

theorem LocalDatetime_Unix_lt_of_tupleLt (a b : LocalDatetime) (ha : a.wellFormed)
    (hb : b.wellFormed) (hlt : a.tupleLt b) : a.ToTimeUtc.Unix < b.ToTimeUtc.Unix := by
  rw [LocalDatetime_Unix_of_wellFormed a ha, LocalDatetime_Unix_of_wellFormed b hb]
  obtain ⟨⟨h1, h2, h3, h4, h5⟩, h6, h7, h8⟩ := ha
  obtain ⟨⟨k1, k2, k3, k4, k5⟩, k6, k7, k8⟩ := hb
  apply civilSec_strictMono _ _ _ _ _ _ _ _ _ _ _ _ (by omega) (by omega) h5 (by omega)
    (by omega) (by omega) (by omega) (by omega) (by omega) (by omega) (by omega) (by omega) k5
    (by omega) (by omega) (by omega) (by omega) (by omega) (by omega)
  simp only [LocalDatetime.tupleLt] at hlt
  omega

theorem LocalDatetime_tupleLt_trichotomy (a b : LocalDatetime) :
    a.tupleLt b ∨ a = b ∨ b.tupleLt a := by
  rcases a with ⟨⟨y, m, d⟩, ⟨h, mi, s⟩⟩
  rcases b with ⟨⟨y2, m2, d2⟩, ⟨h2, mi2, s2⟩⟩
  simp only [LocalDatetime.tupleLt, LocalDatetime.mk.injEq, LocalDate.mk.injEq,
    LocalTime.mk.injEq]
  omega

theorem LocalDatetime_tupleLt_irrefl (a : LocalDatetime) : ¬ a.tupleLt a := by
  simp only [LocalDatetime.tupleLt]
  omega

theorem LocalDatetime_tupleLt_asymm (a b : LocalDatetime) (h : a.tupleLt b) : ¬ b.tupleLt a := by
  simp only [LocalDatetime.tupleLt] at h ⊢
  omega

/-- C7: for two `LocalDatetime` values with well-formed calendar fields (year
up to 999999999, month 1..12, day within the month, hour up to 23, minute and
second up to 59), `Before` holds exactly when the tuple (year, month, day,
hour, minute, second) of the first is lexicographically smaller, `After`
exactly when it is larger, and `Equal` exactly when the tuples are the same. -/
theorem comparisons_follow_tuple_order (a b : LocalDatetime) (ha : a.wellFormed)
    (hb : b.wellFormed) :
    (a.Before b = true ↔ a.tupleLt b) ∧ (a.After b = true ↔ b.tupleLt a) ∧
      (a.Equal b = true ↔ a = b) := by
  have hab := LocalDatetime_Unix_lt_of_tupleLt a b ha hb
  have hba := LocalDatetime_Unix_lt_of_tupleLt b a hb ha
  rw [LocalDatetime_Before_iff, LocalDatetime_After_iff, LocalDatetime_Equal_iff,
    LocalDatetime_sec_eq a (LocalDatetime_representable_of_wellFormed a ha),
    LocalDatetime_sec_eq b (LocalDatetime_representable_of_wellFormed b hb)]
  rcases LocalDatetime_tupleLt_trichotomy a b with h | h | h
  · have h1 := hab h
    have h2 := LocalDatetime_tupleLt_asymm a b h
    refine ⟨⟨fun _ => h, fun _ => by omega⟩,
      ⟨fun h3 => absurd h3 (by omega), fun h3 => absurd h3 h2⟩,
      ⟨fun h3 => absurd h3 (by omega), fun h3 => ?_⟩⟩
    rw [h3] at h
    exact absurd h (LocalDatetime_tupleLt_irrefl b)
  · subst h
    have h2 := LocalDatetime_tupleLt_irrefl a
    exact ⟨⟨fun h3 => absurd h3 (by omega), fun h3 => absurd h3 h2⟩,
      ⟨fun h3 => absurd h3 (by omega), fun h3 => absurd h3 h2⟩, ⟨fun _ => rfl, fun _ => rfl⟩⟩
  · have h1 := hba h
    have h2 := LocalDatetime_tupleLt_asymm b a h
    refine ⟨⟨fun h3 => absurd h3 (by omega), fun h3 => absurd h3 h2⟩,
      ⟨fun _ => h, fun _ => by omega⟩,
      ⟨fun h3 => absurd h3 (by omega), fun h3 => ?_⟩⟩
    rw [h3] at h
    exact absurd h (LocalDatetime_tupleLt_irrefl b)

theorem comparisons_follow_tuple_order_witness :
    (LocalDatetime.wellFormed ⟨⟨2020, 3, 1⟩, ⟨15, 1, 1⟩⟩ ∧
      LocalDatetime.wellFormed ⟨⟨2020, 3, 1⟩, ⟨15, 1, 2⟩⟩) ∧
    ((LocalDatetime.Before ⟨⟨2020, 3, 1⟩, ⟨15, 1, 1⟩⟩ ⟨⟨2020, 3, 1⟩, ⟨15, 1, 2⟩⟩ = true ↔
        LocalDatetime.tupleLt ⟨⟨2020, 3, 1⟩, ⟨15, 1, 1⟩⟩ ⟨⟨2020, 3, 1⟩, ⟨15, 1, 2⟩⟩) ∧
      (LocalDatetime.After ⟨⟨2020, 3, 1⟩, ⟨15, 1, 1⟩⟩ ⟨⟨2020, 3, 1⟩, ⟨15, 1, 2⟩⟩ = true ↔
        LocalDatetime.tupleLt ⟨⟨2020, 3, 1⟩, ⟨15, 1, 2⟩⟩ ⟨⟨2020, 3, 1⟩, ⟨15, 1, 1⟩⟩) ∧
      (LocalDatetime.Equal ⟨⟨2020, 3, 1⟩, ⟨15, 1, 1⟩⟩ ⟨⟨2020, 3, 1⟩, ⟨15, 1, 2⟩⟩ = true ↔
        (⟨⟨2020, 3, 1⟩, ⟨15, 1, 1⟩⟩ : LocalDatetime) = ⟨⟨2020, 3, 1⟩, ⟨15, 1, 2⟩⟩)) :=
  ⟨⟨by simp [LocalDatetime.wellFormed, LocalDate.wellFormed, LocalTime.wellFormed, MaxYear]; decide,
    by simp [LocalDatetime.wellFormed, LocalDate.wellFormed, LocalTime.wellFormed, MaxYear]; decide⟩,
   comparisons_follow_tuple_order _ _
    (by simp [LocalDatetime.wellFormed, LocalDate.wellFormed, LocalTime.wellFormed, MaxYear]; decide)
    (by simp [LocalDatetime.wellFormed, LocalDate.wellFormed, LocalTime.wellFormed, MaxYear]; decide)⟩

/-- The claim C8 as stated fails: the instant of January 1 of year
292277026000 lies between those of January 1 of 2020 and of January 1 of year
292277026001, yet `Between` is false: the comparisons use the seconds since
year 1, which wrap to negative numbers for the two late years. -/
theorem Between_false_although_within_bounds :
    ¬ (LocalDatetime.ToTimeUtc ⟨⟨292277026000, 1, 1⟩, ⟨0, 0, 0⟩⟩).Unix
      < (LocalDatetime.ToTimeUtc ⟨⟨2020, 1, 1⟩, ⟨0, 0, 0⟩⟩).Unix ∧
    ¬ (LocalDatetime.ToTimeUtc ⟨⟨292277026001, 1, 1⟩, ⟨0, 0, 0⟩⟩).Unix
      < (LocalDatetime.ToTimeUtc ⟨⟨292277026000, 1, 1⟩, ⟨0, 0, 0⟩⟩).Unix ∧
    (LocalDatetime.ToTimeUtc ⟨⟨292277026000, 1, 1⟩, ⟨0, 0, 0⟩⟩).Unix
      = civilSec 292277026000 1 1 0 0 0 ∧
    (LocalDatetime.ToTimeUtc ⟨⟨292277026001, 1, 1⟩, ⟨0, 0, 0⟩⟩).Unix
      = civilSec 292277026001 1 1 0 0 0 ∧
    LocalDatetime.Between ⟨⟨292277026000, 1, 1⟩, ⟨0, 0, 0⟩⟩ ⟨⟨2020, 1, 1⟩, ⟨0, 0, 0⟩⟩
      ⟨⟨292277026001, 1, 1⟩, ⟨0, 0, 0⟩⟩ = false ∧
    LocalDate.Between ⟨292277026000, 1, 1⟩ ⟨2020, 1, 1⟩ ⟨292277026001, 1, 1⟩ = false := by
  decide

/-- C8 (amended): for all `LocalDatetime` (and `LocalDate`) values `d`,
`start`, `end` whose UTC instants `time.Time` holds (`representable`), which
are whole seconds, `d.Between(start, end)` is true exactly when the instant of
`d` is not earlier than that of `start` and not later than that of `end`, both
ends included; hence `Between` is false for every `d` whenever `start` is
later than `end`. -/
theorem Between_iff_instant_within_bounds (d start end_ : LocalDatetime)
    (p pstart pend : LocalDate) (hd : d.representable) (hs : start.representable)
    (he : end_.representable) (hp : p.representable) (hps : pstart.representable)
    (hpe : pend.representable) :
    (d.ToTimeUtc.nsec = 0 ∧ p.ToTimeUtc.nsec = 0) ∧
    (d.Between start end_ = true ↔
      ¬ d.ToTimeUtc.Unix < start.ToTimeUtc.Unix ∧ ¬ end_.ToTimeUtc.Unix < d.ToTimeUtc.Unix) ∧
    (p.Between pstart pend = true ↔
      ¬ p.ToTimeUtc.Unix < pstart.ToTimeUtc.Unix ∧ ¬ pend.ToTimeUtc.Unix < p.ToTimeUtc.Unix) ∧
    (end_.ToTimeUtc.Unix < start.ToTimeUtc.Unix → d.Between start end_ = false) ∧
    (pend.ToTimeUtc.Unix < pstart.ToTimeUtc.Unix → p.Between pstart pend = false) := by
  have e1 := LocalDatetime_sec_eq d hd
  have e2 := LocalDatetime_sec_eq start hs
  have e3 := LocalDatetime_sec_eq end_ he
  have e4 := LocalDate_sec_eq p hp
  have e5 := LocalDate_sec_eq pstart hps
  have e6 := LocalDate_sec_eq pend hpe
  refine ⟨⟨LocalDatetime_nsec_zero d, LocalDate_nsec_zero p⟩, ?_, ?_, ?_, ?_⟩
  · rw [LocalDatetime_Between_iff]; omega
  · rw [LocalDate_Between_iff]; omega
  · intro h
    rw [← Bool.not_eq_true, LocalDatetime_Between_iff]; omega
  · intro h
    rw [← Bool.not_eq_true, LocalDate_Between_iff]; omega

theorem Between_iff_instant_within_bounds_witness :
    LocalDatetime.Between ⟨⟨2020, 3, 1⟩, ⟨15, 1, 1⟩⟩ ⟨⟨2020, 3, 1⟩, ⟨15, 1, 3⟩⟩
        ⟨⟨2020, 3, 1⟩, ⟨15, 1, 0⟩⟩ = false ∧
      LocalDate.Between ⟨2020, 3, 1⟩ ⟨2020, 3, 2⟩ ⟨2020, 2, 28⟩ = false :=
  ⟨(Between_iff_instant_within_bounds ⟨⟨2020, 3, 1⟩, ⟨15, 1, 1⟩⟩ ⟨⟨2020, 3, 1⟩, ⟨15, 1, 3⟩⟩
      ⟨⟨2020, 3, 1⟩, ⟨15, 1, 0⟩⟩ ⟨2020, 3, 1⟩ ⟨2020, 3, 2⟩ ⟨2020, 2, 28⟩
      (by unfold LocalDatetime.representable; decide)
      (by unfold LocalDatetime.representable; decide)
      (by unfold LocalDatetime.representable; decide)
      (by unfold LocalDate.representable; decide) (by unfold LocalDate.representable; decide)
      (by unfold LocalDate.representable; decide)).2.2.2.1 (by decide),
   (Between_iff_instant_within_bounds ⟨⟨2020, 3, 1⟩, ⟨15, 1, 1⟩⟩ ⟨⟨2020, 3, 1⟩, ⟨15, 1, 3⟩⟩
      ⟨⟨2020, 3, 1⟩, ⟨15, 1, 0⟩⟩ ⟨2020, 3, 1⟩ ⟨2020, 3, 2⟩ ⟨2020, 2, 28⟩
      (by unfold LocalDatetime.representable; decide)
      (by unfold LocalDatetime.representable; decide)
      (by unfold LocalDatetime.representable; decide)
      (by unfold LocalDate.representable; decide) (by unfold LocalDate.representable; decide)
      (by unfold LocalDate.representable; decide)).2.2.2.2 (by decide)⟩

/-- The claim C9 as stated fails: a datetime equal to `end` is not `Between`
`start` and `end` when `start` lies after `end`. -/
theorem Between_false_at_end_of_reversed_range :
    (⟨⟨2020, 3, 1⟩, ⟨15, 1, 1⟩⟩ : LocalDatetime) = ⟨⟨2020, 3, 1⟩, ⟨15, 1, 1⟩⟩ ∧
    LocalDatetime.Between ⟨⟨2020, 3, 1⟩, ⟨15, 1, 1⟩⟩ ⟨⟨2020, 3, 1⟩, ⟨15, 2, 15⟩⟩
      ⟨⟨2020, 3, 1⟩, ⟨15, 1, 1⟩⟩ = false := by
  decide

/-- C9 (amended): for all `LocalDatetime` values `d`, `start`, `end`: if `d`
equals `start` and is not after `end`, or `d` equals `end` and is not before
`start` (so in particular if `d` equals either bound and `start` is not after
`end`), then `d.Between(start, end)` is true; and if `d` lies strictly before
`start` or strictly after `end` then it is false. -/
theorem Between_at_bounds_and_outside (d start end_ : LocalDatetime) :
    (d.Equal start = true → d.After end_ = false → d.Between start end_ = true) ∧
    (d.Equal end_ = true → d.Before start = false → d.Between start end_ = true) ∧
    ((d.Equal start = true ∨ d.Equal end_ = true) → start.After end_ = false →
      d.Between start end_ = true) ∧
    (d = start → d.Equal start = true) ∧ (d = end_ → d.Equal end_ = true) ∧
    (d.Before start = true ∨ d.After end_ = true → d.Between start end_ = false) := by
  simp only [← Bool.not_eq_true, LocalDatetime_Between_iff, LocalDatetime_Before_iff,
    LocalDatetime_After_iff, LocalDatetime_Equal_iff]
  refine ⟨?_, ?_, ?_, ?_, ?_, ?_⟩
  · omega
  · omega
  · omega
  · intro h; rw [h]
  · intro h; rw [h]
  · omega

theorem Between_at_bounds_and_outside_witness :
    LocalDatetime.Between ⟨⟨2020, 3, 1⟩, ⟨15, 1, 1⟩⟩ ⟨⟨2020, 3, 1⟩, ⟨15, 1, 1⟩⟩
        ⟨⟨2020, 3, 1⟩, ⟨15, 1, 2⟩⟩ = true ∧
      LocalDatetime.Between ⟨⟨2020, 3, 1⟩, ⟨15, 1, 1⟩⟩ ⟨⟨2020, 3, 1⟩, ⟨15, 1, 3⟩⟩
        ⟨⟨2020, 3, 1⟩, ⟨15, 1, 4⟩⟩ = false :=
  ⟨(Between_at_bounds_and_outside ⟨⟨2020, 3, 1⟩, ⟨15, 1, 1⟩⟩ ⟨⟨2020, 3, 1⟩, ⟨15, 1, 1⟩⟩
      ⟨⟨2020, 3, 1⟩, ⟨15, 1, 2⟩⟩).1 (by decide) (by decide),
   (Between_at_bounds_and_outside ⟨⟨2020, 3, 1⟩, ⟨15, 1, 1⟩⟩ ⟨⟨2020, 3, 1⟩, ⟨15, 1, 3⟩⟩
      ⟨⟨2020, 3, 1⟩, ⟨15, 1, 4⟩⟩).2.2.2.2.2 (Or.inl (by decide))⟩

/-- The claim C10 as stated fails: the seconds since year 1 of the non-zero
datetime of January 1 of year 300000000000 wrap to a number below those of
the zero datetime (year 0, month 0, day 0: November 30 of year -1), which
therefore does not compare as earlier. -/
theorem zero_not_before_late_year :
    LocalDatetime.IsZero ⟨⟨300000000000, 1, 1⟩, ⟨0, 0, 0⟩⟩ = false ∧
    LocalDatetime.Before LocalDatetime.zero ⟨⟨300000000000, 1, 1⟩, ⟨0, 0, 0⟩⟩ = false ∧
    LocalDatetime.After LocalDatetime.zero ⟨⟨300000000000, 1, 1⟩, ⟨0, 0, 0⟩⟩ = true := by
  decide

/-- C10 (amended): the zero `LocalDatetime` compares as earlier than every
non-zero `LocalDatetime` whose UTC instant `time.Time` holds
(`representable`): `Before` is true and `After` is false; and the zero value
`Equal`s itself. -/
theorem zero_before_every_nonzero (d : LocalDatetime) (hnz : d.IsZero = false)
    (hd : d.representable) :
    LocalDatetime.zero.Before d = true ∧ LocalDatetime.zero.After d = false ∧
      LocalDatetime.zero.Equal LocalDatetime.zero = true := by
  have hzb : LocalDatetime.zero.representable := by
    unfold LocalDatetime.representable
    decide
  have hlt : LocalDatetime.zero.ToTimeUtc.Unix < d.ToTimeUtc.Unix := by
    rw [(LocalDatetime_instant _ hzb).2.1, (LocalDatetime_instant d hd).2.1]
    apply civilSec_zero_lt _ _ _ _ _ _ (by omega) (by omega) (by omega) (by omega) (by omega)
      (by omega)
    intro hall
    have : d.IsZero = true := by
      simp only [LocalDatetime.IsZero, LocalDate.IsZero, LocalTime.IsZero, Bool.and_eq_true,
        beq_iff_eq]
      omega
    rw [this] at hnz
    exact Bool.noConfusion hnz
  have e1 := LocalDatetime_sec_eq _ hzb
  have e2 := LocalDatetime_sec_eq d hd
  refine ⟨(LocalDatetime_Before_iff _ _).mpr (by omega), ?_, by decide⟩
  rw [← Bool.not_eq_true, LocalDatetime_After_iff]
  omega

theorem zero_before_every_nonzero_witness :
    LocalDatetime.Before LocalDatetime.zero ⟨⟨2020, 3, 1⟩, ⟨15, 1, 0⟩⟩ = true ∧
      LocalDatetime.After LocalDatetime.zero ⟨⟨2020, 3, 1⟩, ⟨15, 1, 0⟩⟩ = false ∧
      LocalDatetime.Equal LocalDatetime.zero LocalDatetime.zero = true :=
  zero_before_every_nonzero ⟨⟨2020, 3, 1⟩, ⟨15, 1, 0⟩⟩ (by decide)
    (by unfold LocalDatetime.representable; decide)

/-- C36: the normal form of the constructors: for all arguments (the signed
ones of type `int`), the result of `NewLocalDatetime` is the zero value or a
real calendar value with year at least 1, month 1..12, day within the month,
hour up to 23, minute and second up to 59; and the result of `NewLocalDate`
is the zero date or such a real calendar date. -/
theorem constructors_return_zero_or_calendar_value (y m d : Nat) (h mi s yi mo di : Int)
    (hh : isInt h) (hmi : isInt mi) (hs : isInt s) (hyi : isInt yi) (hmo : isInt mo)
    (hdi : isInt di) :
    (NewLocalDatetime y m d h mi s = LocalDatetime.zero ∨
      ((NewLocalDatetime y m d h mi s).LocalDate.isCalendar ∧
        (NewLocalDatetime y m d h mi s).LocalTime.wellFormed)) ∧
    (NewLocalDate yi mo di = LocalDate.zero ∨ (NewLocalDate yi mo di).isCalendar) := by
  have _ : isInt h ∧ isInt mi ∧ isInt s ∧ isInt yi ∧ isInt mo ∧ isInt di :=
    ⟨hh, hmi, hs, hyi, hmo, hdi⟩
  exact ⟨NewLocalDatetime_calendar y m d h mi s, NewLocalDate_calendar yi mo di⟩

theorem constructors_return_zero_or_calendar_value_witness :
    (NewLocalDatetime 549 4 33 13 80 80 = LocalDatetime.zero ∨
      ((NewLocalDatetime 549 4 33 13 80 80).LocalDate.isCalendar ∧
        (NewLocalDatetime 549 4 33 13 80 80).LocalTime.wellFormed)) ∧
    (NewLocalDate 0 (-1) 0 = LocalDate.zero ∨ (NewLocalDate 0 (-1) 0).isCalendar) :=
  constructors_return_zero_or_calendar_value 549 4 33 13 80 80 0 (-1) 0 (by simp [isInt])
    (by simp [isInt]) (by simp [isInt]) (by simp [isInt]) (by simp [isInt]) (by simp [isInt])

theorem civilSec_add_seconds (y m d h mi s n : Int) :
    civilSec y m d h mi (s + n) = civilSec y m d h mi s + n := by
  simp only [civilSec]
  ring

/-- The absolute time of a whole second in UTC not before the absolute zero. -/
theorem abs_of_ext (e : Int) (h0 : -9223371966579724800 ≤ e) (h1 : e ≤ 9223372036854775807) :
    (Time.mk 0 e ⟨0⟩).abs = e + 9223371966579724800 := by
  rw [Time_abs_eq]
  simp only
  omega

/-- The conversion `LocalDatetimeFromTime` of a whole second in UTC that is the
instant of a civil tuple: the constructor applied to that tuple. -/
theorem LocalDatetimeFromTime_of_civil (e : Int) (y m d : Nat) (h mi s : Int)
    (hy : y ≤ 4611686018427387904) (hm : m ≤ 4611686018427387904)
    (hd : d ≤ 4611686018427387904) (hh : small h) (hmi : small mi) (hs : isInt s)
    (h0 : -9223371966579724800 ≤ e) (h1 : e ≤ 9223372036854775807)
    (hc : e = civilSec y m d h mi s + 62135596800) :
    LocalDatetimeFromTime ⟨0, e, ⟨0⟩⟩ = NewLocalDatetime y m d h mi s := by
  unfold small at hh hmi
  unfold isInt at hs
  obtain ⟨m1, m2, d1, d2, hh1, hh2, mi1, mi2, s1, s2, ec⟩ :=
    Time_fields_sound (Time.mk 0 e ⟨0⟩)
  rw [abs_of_ext e h0 h1] at ec
  obtain ⟨y1, y2⟩ := Time_Year_range (Time.mk 0 e ⟨0⟩)
  have hdi := daysIn_pos _ (Time.mk 0 e ⟨0⟩).Year m1 m2
  have ey := toInt_toUint _ (Time_Year_isInt (Time.mk 0 e ⟨0⟩))
  have em := toInt_natCast_toUint (Time.mk 0 e ⟨0⟩).Month (by omega) (by omega)
  have ed := toInt_natCast_toUint (Time.mk 0 e ⟨0⟩).Day (by omega) (by omega)
  simp only [LocalDatetimeFromTime, NewLocalDatetime, utc_location, ey, em, ed,
    toInt_of_lt y (by omega), toInt_of_lt m (by omega), toInt_of_lt d (by omega)]
  rw [Date_mod _ _ _ _ _ _ 0 (by omega) (by omega) (by omega) (by omega) (by omega) (by omega)
      (by omega),
    Date_mod _ _ _ _ _ _ 0 (by omega) (by omega) (by omega) (by omega) (by omega) (by omega)
      (by omega),
    show civilSec (Time.mk 0 e ⟨0⟩).Year (Time.mk 0 e ⟨0⟩).Month (Time.mk 0 e ⟨0⟩).Day
      (Time.mk 0 e ⟨0⟩).Hour (Time.mk 0 e ⟨0⟩).Minute (Time.mk 0 e ⟨0⟩).Second
      = civilSec y m d h mi s by omega]

/-- The claim C33 as stated fails: for the datetime 292277024627-12-06
15:30:02, a value that `NewLocalDatetime` returns, adding 10 seconds leaves
the 64-bit range of the seconds since year 1; `Add` stops at the largest
value, 15:30:07, while `NewLocalDatetime` with second 12 gives 15:30:12. -/
theorem Add_saturates_at_largest_second :
    NewLocalDatetime 292277024627 12 6 15 30 2 = ⟨⟨292277024627, 12, 6⟩, ⟨15, 30, 2⟩⟩ ∧
    LocalDatetime.IsZero ⟨⟨292277024627, 12, 6⟩, ⟨15, 30, 2⟩⟩ = false ∧
    LocalDatetime.Add ⟨⟨292277024627, 12, 6⟩, ⟨15, 30, 2⟩⟩ (10 * GoTime.Second)
      = ⟨⟨292277024627, 12, 6⟩, ⟨15, 30, 7⟩⟩ ∧
    NewLocalDatetime 292277024627 12 6 15 30 (2 + 10)
      = ⟨⟨292277024627, 12, 6⟩, ⟨15, 30, 12⟩⟩ := by
  refine ⟨?_, ?_, ?_, ?_⟩ <;> set_option maxRecDepth 8000 in decide

theorem Add_80_minutes :
    (NewLocalDatetime 2020 4 15 20 20 20).Add (80 * 60 * GoTime.Second)
      = NewLocalDatetime 2020 4 15 21 40 20 := by
  set_option maxRecDepth 8000 in decide

theorem Add_minus_72_hours :
    (NewLocalDatetime 2020 4 15 20 20 20).Add (-72 * 3600 * GoTime.Second)
      = NewLocalDatetime 2020 4 12 20 20 20 := by
  set_option maxRecDepth 8000 in decide

/-- C33 (amended): `Add` agrees with the normalisation of the constructor: for
every `LocalDatetime` with month 1..12, day up to 31, hour up to 23, minute
and second up to 59 (so for every non-zero value that `NewLocalDatetime`
returns) whose UTC instant `time.Time` holds (`representable`: not after
292277024627-12-06 15:30:07) and every `n` with `|n| ≤ 9000000000` for which
the instant `n` seconds later is not after that last second either, adding the
duration of `n` seconds gives `NewLocalDatetime(Y, M, D, h, mi, s + n)`;
2020-04-15 20:20:20 plus 80 minutes is 21:40:20 and minus 72 hours is
2020-04-12 20:20:20. -/
theorem LocalDatetime_Add_agrees_with_constructor (dt : LocalDatetime) (n : Int)
    (hrep : dt.representable) (hm1 : 1 ≤ dt.LocalDate.Month)
    (hm2 : dt.LocalDate.Month ≤ 12) (hd : dt.LocalDate.Day ≤ 31) (hh : dt.LocalTime.Hour ≤ 23)
    (hmi : dt.LocalTime.Minute ≤ 59) (hs : dt.LocalTime.Second ≤ 59)
    (hn1 : -9000000000 ≤ n) (hn2 : n ≤ 9000000000)
    (hsum : civilSec dt.LocalDate.Year dt.LocalDate.Month dt.LocalDate.Day dt.LocalTime.Hour
      dt.LocalTime.Minute (dt.LocalTime.Second + n) + 62135596800 ≤ 9223372036854775807) :
    wrap64 (n * GoTime.Second) = n * GoTime.Second ∧
    dt.Add (n * GoTime.Second) =
      NewLocalDatetime dt.LocalDate.Year dt.LocalDate.Month dt.LocalDate.Day
        dt.LocalTime.Hour dt.LocalTime.Minute (dt.LocalTime.Second + n) ∧
    (NewLocalDatetime 2020 4 15 20 20 20).Add (80 * 60 * GoTime.Second)
      = NewLocalDatetime 2020 4 15 21 40 20 ∧
    (NewLocalDatetime 2020 4 15 20 20 20).Add (-72 * 3600 * GoTime.Second)
      = NewLocalDatetime 2020 4 12 20 20 20 := by
  refine ⟨?_, ?_, Add_80_minutes, Add_minus_72_hours⟩
  · apply wrap64_of_fits <;> simp only [GoTime.Second] <;> omega
  obtain ⟨hT, hU, c0, c1⟩ := LocalDatetime_instant dt hrep
  rw [civilSec_add_seconds, ← hU] at hsum
  obtain ⟨b1, -, -, -, -⟩ := civilSec_fields_small dt.LocalDate.Year dt.LocalDate.Month
    dt.LocalDate.Day dt.LocalTime.Hour dt.LocalTime.Minute dt.LocalTime.Second (by omega)
    (by omega) (by omega) (by omega) (by omega) (by omega) hrep.2.2.2.2.2.2
  have hAdd : (dt.ToTime Timezone.UTC.Location).Add (n * GoTime.Second)
      = ⟨0, dt.ToTimeUtc.Unix + n + 62135596800, ⟨0⟩⟩ := by
    have hT2 : dt.ToTime Timezone.UTC.Location = ⟨0, dt.ToTimeUtc.Unix + 62135596800, ⟨0⟩⟩ := hT
    rw [hT2, GoTime.Second, Add_whole_seconds _ _ _ (by unfold isInt; omega)]
    congr 1
    ring
  rw [LocalDatetime.Add, hAdd]
  exact LocalDatetimeFromTime_of_civil _ _ _ _ _ _ _ (by omega) (by omega) (by omega)
    (by unfold small; omega) (by unfold small; omega) (by unfold isInt; omega) (by omega)
    (by omega) (by rw [hU, civilSec_add_seconds])

theorem LocalDatetime_Add_agrees_with_constructor_witness :
    LocalDatetime.Add ⟨⟨2020, 4, 15⟩, ⟨20, 20, 20⟩⟩ (4800 * GoTime.Second)
      = NewLocalDatetime 2020 4 15 20 20 (20 + 4800) :=
  (LocalDatetime_Add_agrees_with_constructor ⟨⟨2020, 4, 15⟩, ⟨20, 20, 20⟩⟩ 4800
    (by unfold LocalDatetime.representable; decide) (by decide)
    (by decide) (by decide) (by decide) (by decide) (by decide) (by decide) (by decide)
    (by decide)).2.1

/-- The code at the failing input of C32: one day before 0001-01-01 `Add`
returns the date `{0, 12, 31}` of year 0 instead of the zero date, and 367
days before it a date whose year is the wrapped `uint` of year -1, which does
not pass `Valid`; the constructor `NewLocalDate` gives the zero
date for both. -/
theorem LocalDate_Add_returns_dates_before_year_one :
    (NewLocalDate 1 1 1).Add (-24 * GoTime.Hour) = ⟨0, 12, 31⟩ ∧
    NewLocalDate 0 12 31 = LocalDate.zero ∧
    (NewLocalDate 1 1 1).Add (-367 * 24 * GoTime.Hour) = ⟨18446744073709551615, 12, 31⟩ ∧
    NewLocalDate (-1) 12 31 = LocalDate.zero ∧
    (LocalDate.Valid ⟨18446744073709551615, 12, 31⟩).2 = some Err.ErrOutOfRangeDate := by
  set_option maxRecDepth 8000 in decide

/-- Every representable date converts to a midnight: its Unix second is a
whole number of days from the absolute zero. -/
theorem LocalDate_Unix_midnight (d : LocalDate) (hd : d.representable) :
    (d.ToTimeUtc.Unix + 9223372028715321600) % 86400 = 0 := by
  rw [(LocalDate_instant d hd).2.1]
  simp only [civilSec, unixToInternal, internalToAbsolute, absoluteToInternal,
    internalToUnix, secondsPerDay]
  generalize monthStart _ _ = MS
  omega

/-- Converting a midnight to a date and back gives the same instant. -/
theorem LocalDateFromTime_ToTimeUtc (c : Int) (h0 : -9223372028715321600 ≤ c)
    (h1 : c + 62135596800 ≤ 9223372036854775807)
    (hmid : (c + 9223372028715321600) % 86400 = 0) :
    (LocalDateFromTime ⟨0, c + 62135596800, ⟨0⟩⟩).ToTimeUtc = ⟨0, c + 62135596800, ⟨0⟩⟩ := by
  obtain ⟨m1, m2, d1, d2, hh1, hh2, mi1, mi2, s1, s2, e⟩ :=
    Time_fields_sound (Time.mk 0 (c + 62135596800) ⟨0⟩)
  have habs : (Time.mk 0 (c + 62135596800) ⟨0⟩).abs = c + 9223372028715321600 := by
    rw [abs_of_ext _ (by omega) (by omega)]
    ring
  rw [habs] at e
  obtain ⟨y1, y2⟩ := Time_Year_range (Time.mk 0 (c + 62135596800) ⟨0⟩)
  have hdi := daysIn_pos _ (Time.mk 0 (c + 62135596800) ⟨0⟩).Year m1 m2
  have ey := toInt_toUint _ (Time_Year_isInt (Time.mk 0 (c + 62135596800) ⟨0⟩))
  have em := toInt_natCast_toUint (Time.mk 0 (c + 62135596800) ⟨0⟩).Month (by omega) (by omega)
  have ed := toInt_natCast_toUint (Time.mk 0 (c + 62135596800) ⟨0⟩).Day (by omega) (by omega)
  have hh : (Time.mk 0 (c + 62135596800) ⟨0⟩).Hour = 0 := by
    simp only [Time.Hour, habs, secondsPerDay, secondsPerHour]
    omega
  have hmi : (Time.mk 0 (c + 62135596800) ⟨0⟩).Minute = 0 := by
    simp only [Time.Minute, habs, secondsPerMinute, secondsPerHour]
    omega
  have hs : (Time.mk 0 (c + 62135596800) ⟨0⟩).Second = 0 := by
    simp only [Time.Second, habs, secondsPerMinute]
    omega
  rw [hh, hmi, hs] at e
  simp only [LocalDate.ToTimeUtc, LocalDate.ToTime, LocalDateFromTime, utc_location, ey, em, ed]
  rw [Date_exact _ _ _ _ _ _ 0 (by omega) (by omega) (by omega) (by omega) (by omega)
      (by omega) (by omega) (by unfold isInt; omega),
    show civilSec (Time.mk 0 (c + 62135596800) ⟨0⟩).Year (Time.mk 0 (c + 62135596800) ⟨0⟩).Month
      (Time.mk 0 (c + 62135596800) ⟨0⟩).Day 0 0 0 = c by omega]
  simp

theorem oneDay_eq : wrap64 (24 * GoTime.Hour) = 86400 * 1000000000 := by decide

/-- The instant of the next day of the loop of `DivideDatePeriod`. -/
theorem LocalDate_Add_oneDay (d : LocalDate) (u : Int)
    (hd : d.ToTimeUtc = ⟨0, u + 62135596800, ⟨0⟩⟩) (h0 : -9223372028715321600 ≤ u)
    (h1 : u + 86400 + 62135596800 ≤ 9223372036854775807)
    (hmid : (u + 9223372028715321600) % 86400 = 0) :
    (d.Add (wrap64 (24 * GoTime.Hour))).ToTimeUtc = ⟨0, u + 86400 + 62135596800, ⟨0⟩⟩ := by
  have e : u + 62135596800 + 86400 = u + 86400 + 62135596800 := by ring
  rw [LocalDate.Add, oneDay_eq, hd, Add_whole_seconds _ _ _ (by unfold isInt; omega), e]
  exact LocalDateFromTime_ToTimeUtc _ (by omega) (by omega) (by omega)

/-- The body of the loop of `DivideDatePeriod` on a day that is equal to or
after the end: the loop breaks, the last period ending on that day. -/
theorem divideStep_break (end_ : LocalDate) (day : Int) (s : DivideState)
    (hbr : (s.d.After end_ || s.d.Equal end_) = true) :
    ∃ ps tmp, divideStep end_ day s = Sum.inr (ps ++ [⟨tmp, s.d⟩]) := by
  refine ⟨if s.dayCounter + 1 = day then
      s.periods ++ [⟨if s.dayCounter + 1 = 1 then s.d else s.tmpStart, s.d⟩] else s.periods,
    if s.dayCounter + 1 = day then LocalDate.zero
      else (if s.dayCounter + 1 = 1 then s.d else s.tmpStart), ?_⟩
  simp only [divideStep]
  rw [if_pos hbr]

/-- The body of the loop of `DivideDatePeriod` on a day before the end: the
loop goes on with the next day. -/
theorem divideStep_continue (end_ : LocalDate) (day : Int) (s : DivideState)
    (hbr : ¬ (s.d.After end_ || s.d.Equal end_) = true) :
    ∃ s1, divideStep end_ day s = Sum.inl s1 ∧ s1.d = s.d.Add (wrap64 (24 * GoTime.Hour)) := by
  refine ⟨⟨s.d.Add (wrap64 (24 * GoTime.Hour)),
    if s.dayCounter + 1 = day then 0 else s.dayCounter + 1,
    if s.dayCounter + 1 = day then LocalDate.zero
      else (if s.dayCounter + 1 = 1 then s.d else s.tmpStart),
    if s.dayCounter + 1 = day then
      s.periods ++ [⟨if s.dayCounter + 1 = 1 then s.d else s.tmpStart, s.d⟩] else s.periods⟩,
    ?_, rfl⟩
  simp only [divideStep]
  rw [if_neg hbr]

/-- One iteration of the loop of `DivideDatePeriod`. -/
theorem divideLoop_succ (end_ : LocalDate) (day : Int) (fuel : Nat) (s : DivideState) :
    divideLoop end_ day (fuel + 1) s =
      match divideStep end_ day s with
      | Sum.inr periods => some periods
      | Sum.inl s1 => divideLoop end_ day fuel s1 := by
  rfl

theorem divideLoop_of_break (end_ : LocalDate) (day : Int) (fuel : Nat) (s : DivideState)
    (ps : LocalDatePeriods) (h : divideStep end_ day s = Sum.inr ps) :
    divideLoop end_ day (fuel + 1) s = some ps := by
  rw [divideLoop_succ, h]

theorem divideLoop_of_continue (end_ : LocalDate) (day : Int) (fuel : Nat)
    (s s1 : DivideState) (h : divideStep end_ day s = Sum.inl s1) :
    divideLoop end_ day (fuel + 1) s = divideLoop end_ day fuel s1 := by
  rw [divideLoop_succ, h]

/-- The loop of `DivideDatePeriod` breaks within `n + 1` iterations when the
date at which it ends, a midnight that `time.Time` holds, is at most `n` days
after the current day, with a last period whose last day is equal to or after
that date. The days walked are midnights up to it. -/
theorem divideLoop_terminates (end_ : LocalDate) (day E : Int)
    (hend : end_.ToTimeUtc.sec = E + 62135596800)
    (hE1 : E + 62135596800 ≤ 9223372036854775807)
    (hEmid : (E + 9223372028715321600) % 86400 = 0) :
    ∀ (n : Nat) (s : DivideState) (u : Int), s.d.ToTimeUtc = ⟨0, u + 62135596800, ⟨0⟩⟩ →
      (u + 9223372028715321600) % 86400 = 0 → -9223372028715321600 ≤ u →
      E - u ≤ n * 86400 →
      ∃ ps p, divideLoop end_ day (n + 1) s = some (ps ++ [p]) ∧
        (p.End.After end_ = true ∨ p.End.Equal end_ = true) := by
  intro n
  induction n with
  | zero =>
    intro s u hsd hmid h0 hn
    have hsec : s.d.ToTimeUtc.sec = u + 62135596800 := congrArg Time.ext hsd
    have hbr : (s.d.After end_ || s.d.Equal end_) = true := by
      rw [Bool.or_eq_true, LocalDate_After_iff, LocalDate_Equal_iff, hsec, hend]
      simp only [Nat.cast_zero, zero_mul] at hn
      omega
    obtain ⟨ps, tmp, hstep⟩ := divideStep_break end_ day s hbr
    exact ⟨ps, ⟨tmp, s.d⟩, divideLoop_of_break end_ day _ s _ hstep,
      (Bool.or_eq_true _ _).mp hbr⟩
  | succ k ih =>
    intro s u hsd hmid h0 hn
    have hsec : s.d.ToTimeUtc.sec = u + 62135596800 := congrArg Time.ext hsd
    by_cases hbr : (s.d.After end_ || s.d.Equal end_) = true
    · obtain ⟨ps, tmp, hstep⟩ := divideStep_break end_ day s hbr
      exact ⟨ps, ⟨tmp, s.d⟩, divideLoop_of_break end_ day _ s _ hstep,
        (Bool.or_eq_true _ _).mp hbr⟩
    · have hlt : u < E := by
        rw [Bool.or_eq_true, LocalDate_After_iff, LocalDate_Equal_iff, hsec, hend] at hbr
        omega
      have hnext := LocalDate_Add_oneDay s.d u hsd h0 (by omega) hmid
      obtain ⟨s1, hstep, hd⟩ := divideStep_continue end_ day s hbr
      rw [← hd] at hnext
      obtain ⟨ps, p, hloop, hp⟩ := ih s1 (u + 86400) hnext (by omega) (by omega)
        (by push_cast at hn; omega)
      exact ⟨ps, p, (divideLoop_of_continue end_ day _ s s1 hstep).trans hloop, hp⟩

theorem divideLoop_zero (end_ : LocalDate) (day : Int) (s : DivideState) :
    divideLoop end_ day 0 s = none := by
  rfl

/-- More fuel does not change the result of the loop of `DivideDatePeriod`. -/
theorem divideLoop_mono (end_ : LocalDate) (day : Int) (r : LocalDatePeriods) :
    ∀ (n m : Nat) (s : DivideState), n ≤ m → divideLoop end_ day n s = some r →
      divideLoop end_ day m s = some r := by
  intro n
  induction n with
  | zero =>
    intro m s _ h
    rw [divideLoop_zero] at h
    exact absurd h (by simp)
  | succ k ih =>
    intro m s hm h
    obtain ⟨j, rfl⟩ : ∃ j, m = j + 1 := ⟨m - 1, by omega⟩
    rw [divideLoop_succ] at h ⊢
    cases hst : divideStep end_ day s with
    | inr ps =>
      rw [hst] at h
      exact h
    | inl s1 =>
      rw [hst] at h
      exact ih j s1 (by omega) h

/-- The claim C40 as stated fails: for the dates of February 25 and March 5
of year 300000000000, whose instants `Sub` reports as nine days apart, the
loop of `DivideDatePeriod` has not stopped after ten iterations; it stops in
the eleventh. The seconds since year 1 of these dates wrap, to instants that
are not midnights, and the loop walks dates of another year. -/
theorem DivideDatePeriod_needs_an_eleventh_iteration :
    LocalDate.IsZero ⟨300000000000, 2, 25⟩ = false ∧
    LocalDate.IsZero ⟨300000000000, 3, 5⟩ = false ∧
    LocalDate.Sub ⟨300000000000, 3, 5⟩ ⟨300000000000, 2, 25⟩ = (777600000000000, true) ∧
    (((LocalDate.ToTimeUtc ⟨300000000000, 3, 5⟩).Unix
      - (LocalDate.ToTimeUtc ⟨300000000000, 2, 25⟩).Unix) / 86400).toNat + 1 = 10 ∧
    DivideDatePeriod 10 ⟨300000000000, 2, 25⟩ ⟨300000000000, 3, 5⟩ 3 = none ∧
    (DivideDatePeriod 11 ⟨300000000000, 2, 25⟩ ⟨300000000000, 3, 5⟩ 3).isSome = true := by
  refine ⟨?_, ?_, ?_, ?_, ?_, ?_⟩ <;> set_option maxRecDepth 20000 in decide

/-- Claim C40 (amended): `DivideDatePeriod` terminates on dates whose
midnights `time.Time` holds (`representable`: every field below `2^63`, the
midnight not after 292277024627-12-06). For such non-zero dates for which
`end.Sub(start)` reports ok and every `chunkDays >= 1`, a fuel of the number
of days from start to end (zero when the end is before the start) plus one is
enough: the call returns, with no error, a list of periods whose last period
ends on a day that is equal to or after the end, the day at which the
day-by-day loop stops. -/
theorem DivideDatePeriod_terminates (start end_ : LocalDate) (day : Int) (fuel : Nat)
    (hs : start.IsZero = false) (he : end_.IsZero = false) (hday : 1 ≤ day)
    (hok : (end_.Sub start).2 = true) (hsb : start.representable)
    (heb : end_.representable)
    (hfuel : ((end_.ToTimeUtc.Unix - start.ToTimeUtc.Unix) / 86400).toNat + 1 ≤ fuel) :
    ∃ ps p, DivideDatePeriod fuel start end_ day = some (ps ++ [p], none) ∧
      (p.End.After end_ = true ∨ p.End.Equal end_ = true) := by
  simp only [DivideDatePeriod, hs, he, Bool.or_self, Bool.false_eq_true, if_false,
    not_lt.mpr hday, hok, Bool.not_true]
  split_ifs with hshort
  · exact ⟨[], ⟨start, end_⟩, rfl, Or.inr ((LocalDate_Equal_iff _ _).mpr rfl)⟩
  · have hms := LocalDate_Unix_midnight start hsb
    have hme := LocalDate_Unix_midnight end_ heb
    obtain ⟨hS, -, s0, s1⟩ := LocalDate_instant start hsb
    obtain ⟨-, -, e0, e1⟩ := LocalDate_instant end_ heb
    obtain ⟨ps, p, hl, hp⟩ := divideLoop_terminates end_ day end_.ToTimeUtc.Unix
      (LocalDate_sec_eq end_ heb) e1 hme
      ((end_.ToTimeUtc.Unix - start.ToTimeUtc.Unix) / 86400).toNat
      ⟨start, 0, LocalDate.zero, []⟩ start.ToTimeUtc.Unix hS hms (by omega) (by
        generalize end_.ToTimeUtc.Unix = e at *
        generalize start.ToTimeUtc.Unix = s at *
        omega)
    rw [divideLoop_mono end_ day _ _ _ _ hfuel hl]
    exact ⟨ps, p, rfl, hp⟩

theorem DivideDatePeriod_terminates_witness :
    ∃ ps p, DivideDatePeriod 7 ⟨2022, 4, 1⟩ ⟨2022, 4, 7⟩ 3 = some (ps ++ [p], none) ∧
      (p.End.After ⟨2022, 4, 7⟩ = true ∨ p.End.Equal ⟨2022, 4, 7⟩ = true) :=
  DivideDatePeriod_terminates ⟨2022, 4, 1⟩ ⟨2022, 4, 7⟩ 3 7 (by decide) (by decide) (by decide)
    (by decide) (by unfold LocalDate.representable; decide)
    (by unfold LocalDate.representable; decide) (by decide)

/-- When `Sub` of `time` on two whole seconds, the first before the second,
does not return an extreme duration, the duration is not positive. -/
theorem Sub_nonpos_of_before (x y : Int) (l1 l2 : Location) (hy : isInt y) (hlt : x < y)
    (h1 : (Time.mk 0 x l1).Sub (Time.mk 0 y l2) ≠ maxDuration)
    (h2 : (Time.mk 0 x l1).Sub (Time.mk 0 y l2) ≠ minDuration) :
    (Time.mk 0 x l1).Sub (Time.mk 0 y l2) ≤ 0 := by
  obtain ⟨k, hk, k0, k1, hadd⟩ := Sub_ok_whole x y l1 l2 h1 h2
  rw [hk]
  by_contra hpos
  have hkpos : 0 < k := by omega
  simp only [isInt] at hy
  simp only [Time.addSec] at hadd
  by_cases hgt : wrap64 (y + k) > y
  · have hd : decide (wrap64 (y + k) > y) = decide (k > 0) := by
      rw [decide_eq_true hgt, decide_eq_true hkpos]
    rw [if_pos hd] at hadd
    simp only at hadd
    omega
  · have hd : ¬ (decide (wrap64 (y + k) > y) = decide (k > 0)) := by
      rw [decide_eq_false hgt, decide_eq_true hkpos]
      simp
    rw [if_neg hd, if_pos hkpos] at hadd
    simp only at hadd
    omega

/-- Claim C39: a reversed range is not rejected. For non-zero dates, the end
strictly before the start, with a span for which `Sub` reports ok and
`1 <= chunkDays <= 106751`, `DivideDatePeriod` returns no error and exactly
the single period from start to end, whose End precedes its Start; the loop
is not entered, so every fuel gives this result. -/
theorem DivideDatePeriod_reversed_range (fuel : Nat) (start end_ : LocalDate) (day : Int)
    (hs : start.IsZero = false) (he : end_.IsZero = false)
    (hrev : end_.Before start = true) (hok : (end_.Sub start).2 = true)
    (h1 : 1 ≤ day) (h2 : day ≤ 106751) :
    DivideDatePeriod fuel start end_ day = some ([⟨start, end_⟩], none) ∧
      (LocalDatePeriod.mk start end_).End.Before (LocalDatePeriod.mk start end_).Start = true := by
  refine ⟨?_, hrev⟩
  have hlt := (LocalDate_Before_iff _ _).mp hrev
  have hE : end_.ToTimeUtc = ⟨0, end_.ToTimeUtc.ext, end_.ToTimeUtc.loc⟩ := by
    have hw : end_.ToTimeUtc.wall = 0 := Date_wall _ _ _ _ _ _ _
    rw [← hw]
  have hS : start.ToTimeUtc = ⟨0, start.ToTimeUtc.ext, start.ToTimeUtc.loc⟩ := by
    have hw : start.ToTimeUtc.wall = 0 := Date_wall _ _ _ _ _ _ _
    rw [← hw]
  have hSi : isInt start.ToTimeUtc.ext := Date_ext_isInt _ _ _ _ _ _ _ _
  have hd : (end_.Sub start).1 ≤ wrap64 (wrap64 (day * 24) * GoTime.Hour) := by
    have e1 : wrap64 (day * 24) = day * 24 := wrap64_of_fits _ (by omega) (by omega)
    have e2 : wrap64 (day * 24 * GoTime.Hour) = day * 24 * GoTime.Hour :=
      wrap64_of_fits _ (by simp only [GoTime.Hour, GoTime.Second]; omega)
        (by simp only [GoTime.Hour, GoTime.Second]; omega)
    rw [e1, e2]
    simp only [LocalDate.Sub] at hok ⊢
    split_ifs at hok ⊢ with h3
    have hnp := Sub_nonpos_of_before end_.ToTimeUtc.ext start.ToTimeUtc.ext
      end_.ToTimeUtc.loc start.ToTimeUtc.loc hSi hlt
      (by rw [← hE, ← hS]; exact fun h => h3 (Or.inl h))
      (by rw [← hE, ← hS]; exact fun h => h3 (Or.inr h))
    rw [← hE, ← hS] at hnp
    simp only [GoTime.Hour, GoTime.Second]
    omega
  simp only [DivideDatePeriod, hs, he, Bool.or_self, Bool.false_eq_true, if_false,
    not_lt.mpr h1, hok, Bool.not_true, if_pos hd]

theorem DivideDatePeriod_reversed_range_witness :
    DivideDatePeriod 0 ⟨2022, 4, 7⟩ ⟨2022, 4, 1⟩ 3 = some ([⟨⟨2022, 4, 7⟩, ⟨2022, 4, 1⟩⟩], none) ∧
      (LocalDatePeriod.mk ⟨2022, 4, 7⟩ ⟨2022, 4, 1⟩).End.Before
        (LocalDatePeriod.mk ⟨2022, 4, 7⟩ ⟨2022, 4, 1⟩).Start = true :=
  DivideDatePeriod_reversed_range 0 ⟨2022, 4, 7⟩ ⟨2022, 4, 1⟩ 3 (by decide) (by decide)
    (by decide) (by decide) (by decide) (by decide)

/-- Claim C14: the errors of `DivideDatePeriod`, for every fuel. A zero bound
gives `ErrEmptyDate` (also when `chunkDays < 1`); otherwise `chunkDays < 1`
gives `ErrIncorrectDivisionDays` (also when the span is not representable);
otherwise a span for which `Sub` reports not ok gives `ErrLengthOfPeriod`;
each of these returns the nil list without entering the loop. In every other
case a call that returns carries no error, so an error is returned if and only
if one of the three conditions holds. -/
theorem DivideDatePeriod_error_cases (fuel : Nat) (start end_ : LocalDate) (day : Int) :
    (start.IsZero = true ∨ end_.IsZero = true →
      DivideDatePeriod fuel start end_ day = some ([], some Err.ErrEmptyDate)) ∧
    (start.IsZero = false → end_.IsZero = false → day < 1 →
      DivideDatePeriod fuel start end_ day = some ([], some Err.ErrIncorrectDivisionDays)) ∧
    (start.IsZero = false → end_.IsZero = false → 1 ≤ day → (end_.Sub start).2 = false →
      DivideDatePeriod fuel start end_ day = some ([], some Err.ErrLengthOfPeriod)) ∧
    (∀ r, DivideDatePeriod fuel start end_ day = some r →
      (r.2 ≠ none ↔ (start.IsZero = true ∨ end_.IsZero = true ∨ day < 1 ∨
        (end_.Sub start).2 = false)) ∧
      (r.2 ≠ none → r.1 = [])) := by
  refine ⟨?_, ?_, ?_, ?_⟩
  · intro h
    have hz : (start.IsZero || end_.IsZero) = true := by
      rw [Bool.or_eq_true]
      exact h
    simp only [DivideDatePeriod, hz, if_true]
  · intro hs he hd
    simp only [DivideDatePeriod, hs, he, Bool.or_self, Bool.false_eq_true, if_false, hd,
      if_true]
  · intro hs he hd hok
    simp only [DivideDatePeriod, hs, he, Bool.or_self, Bool.false_eq_true, if_false,
      not_lt.mpr hd, hok, Bool.not_false, if_true]
  · intro r hr
    cases hs : start.IsZero
    · cases he : end_.IsZero
      · by_cases hd : day < 1
        · simp only [DivideDatePeriod, hs, he, Bool.or_self, Bool.false_eq_true, if_false, hd,
            if_true, Option.some.injEq] at hr
          subst hr
          simp [hd]
        · cases hok : (end_.Sub start).2
          · simp only [DivideDatePeriod, hs, he, Bool.or_self, Bool.false_eq_true, if_false,
              hd, hok, Bool.not_false, if_true, Option.some.injEq] at hr
            subst hr
            simp
          · simp only [DivideDatePeriod, hs, he, Bool.or_self, Bool.false_eq_true, if_false,
              hd, hok, Bool.not_true] at hr
            split_ifs at hr with hshort
            · simp only [Option.some.injEq] at hr
              subst hr
              simp [hd]
            · cases hl : divideLoop end_ day fuel ⟨start, 0, LocalDate.zero, []⟩ with
              | none => simp [hl] at hr
              | some ps =>
                simp only [hl, Option.some.injEq] at hr
                subst hr
                simp [hd]
      · simp only [DivideDatePeriod, hs, he, Bool.or_true, if_true, Option.some.injEq] at hr
        subst hr
        simp
    · simp only [DivideDatePeriod, hs, Bool.true_or, if_true, Option.some.injEq] at hr
      subst hr
      simp

theorem DivideDatePeriod_error_cases_witness :
    (DivideDatePeriod 0 ⟨0, 0, 0⟩ ⟨2022, 4, 6⟩ 0 = some ([], some Err.ErrEmptyDate)) ∧
    (DivideDatePeriod 0 ⟨1500, 4, 1⟩ ⟨2022, 4, 6⟩ 0
      = some ([], some Err.ErrIncorrectDivisionDays)) ∧
    (DivideDatePeriod 0 ⟨1500, 4, 1⟩ ⟨2022, 4, 6⟩ 3 = some ([], some Err.ErrLengthOfPeriod)) ∧
    ((some Err.ErrLengthOfPeriod ≠ none ↔ (LocalDate.IsZero ⟨1500, 4, 1⟩ = true ∨
        LocalDate.IsZero ⟨2022, 4, 6⟩ = true ∨ (3 : Int) < 1 ∨
        (LocalDate.Sub ⟨2022, 4, 6⟩ ⟨1500, 4, 1⟩).2 = false)) ∧
      (some Err.ErrLengthOfPeriod ≠ none → ([] : LocalDatePeriods) = [])) :=
  ⟨(DivideDatePeriod_error_cases 0 ⟨0, 0, 0⟩ ⟨2022, 4, 6⟩ 0).1 (Or.inl (by decide)),
   (DivideDatePeriod_error_cases 0 ⟨1500, 4, 1⟩ ⟨2022, 4, 6⟩ 0).2.1 (by decide) (by decide)
     (by decide),
   (DivideDatePeriod_error_cases 0 ⟨1500, 4, 1⟩ ⟨2022, 4, 6⟩ 3).2.2.1 (by decide) (by decide)
     (by decide) (by decide),
   (DivideDatePeriod_error_cases 0 ⟨1500, 4, 1⟩ ⟨2022, 4, 6⟩ 3).2.2.2
     ([], some Err.ErrLengthOfPeriod) (by decide)⟩

/-- Claim C11 (the code departs from it): when the end falls on the last day
of a chunk, `DivideDatePeriod` closes that chunk and then appends one more
period from the zero date to the end. For 2022-04-01 to 2022-04-06 in chunks
of 3 days the result has a third period `(0000-00-00, 04-06)`: its Start is
not the day after 04-06. The example 2022-04-01 to 2022-04-07 gives the three
contiguous periods of the test. -/
theorem DivideDatePeriod_extra_period_at_chunk_boundary :
    DivideDatePeriod 6 ⟨2022, 4, 1⟩ ⟨2022, 4, 6⟩ 3
      = some ([⟨⟨2022, 4, 1⟩, ⟨2022, 4, 3⟩⟩, ⟨⟨2022, 4, 4⟩, ⟨2022, 4, 6⟩⟩,
          ⟨⟨0, 0, 0⟩, ⟨2022, 4, 6⟩⟩], none) ∧
    (LocalDate.Add ⟨2022, 4, 6⟩ (wrap64 (24 * GoTime.Hour)) ≠ ⟨0, 0, 0⟩) ∧
    DivideDatePeriod 7 ⟨2022, 4, 1⟩ ⟨2022, 4, 7⟩ 3
      = some ([⟨⟨2022, 4, 1⟩, ⟨2022, 4, 3⟩⟩, ⟨⟨2022, 4, 4⟩, ⟨2022, 4, 6⟩⟩,
          ⟨⟨2022, 4, 7⟩, ⟨2022, 4, 7⟩⟩], none) := by
  set_option maxRecDepth 20000 in decide

/-- Claim C12 (the code departs from it): the period appended after a chunk
that ends on the end date runs from the zero date, so it covers far more than
`chunkDays` days. For 2022-04-01 to 2022-04-03 in chunks of 1 day the fourth
period is `(0000-00-00, 04-03)`, which covers 738646 calendar days; and the
single period returned for 2022-04-01 to 2022-04-04 with chunks of 3 days
covers 4 calendar days. -/
theorem DivideDatePeriod_period_longer_than_chunk :
    DivideDatePeriod 3 ⟨2022, 4, 1⟩ ⟨2022, 4, 3⟩ 1
      = some ([⟨⟨2022, 4, 1⟩, ⟨2022, 4, 1⟩⟩, ⟨⟨2022, 4, 2⟩, ⟨2022, 4, 2⟩⟩,
          ⟨⟨2022, 4, 3⟩, ⟨2022, 4, 3⟩⟩, ⟨⟨0, 0, 0⟩, ⟨2022, 4, 3⟩⟩], none) ∧
    ((LocalDate.ToTimeUtc ⟨2022, 4, 3⟩).Unix - (LocalDate.ToTimeUtc ⟨0, 0, 0⟩).Unix) / 86400 + 1
      = 738646 ∧
    DivideDatePeriod 0 ⟨2022, 4, 1⟩ ⟨2022, 4, 4⟩ 3
      = some ([⟨⟨2022, 4, 1⟩, ⟨2022, 4, 4⟩⟩], none) ∧
    ((LocalDate.ToTimeUtc ⟨2022, 4, 4⟩).Unix - (LocalDate.ToTimeUtc ⟨2022, 4, 1⟩).Unix) / 86400
      + 1 = 4 := by
  set_option maxRecDepth 20000 in decide

/-- Claim C13 (the code departs from it): `time.Duration(day)*24*time.Hour`
overflows for `chunkDays = 106752` and wraps to a negative duration, so the
span test fails although the span is within the chunk. For start 2022-04-02
and end 2022-04-01 the exact duration is minus 24 hours, at most 106752 times
24 hours, yet the loop runs and the result is `[(04-02, 04-02)]`, not
`[(04-02, 04-01)]`; with `chunkDays = 106751` the single period is returned
unchanged. -/
theorem DivideDatePeriod_chunk_duration_overflow :
    wrap64 (wrap64 (106752 * 24) * GoTime.Hour) = -9223371273709551616 ∧
    LocalDate.Sub ⟨2022, 4, 1⟩ ⟨2022, 4, 2⟩ = (-86400000000000, true) ∧
    -86400000000000 ≤ 106752 * (24 * GoTime.Hour) ∧
    DivideDatePeriod 1 ⟨2022, 4, 2⟩ ⟨2022, 4, 1⟩ 106752
      = some ([⟨⟨2022, 4, 2⟩, ⟨2022, 4, 2⟩⟩], none) ∧
    DivideDatePeriod 1 ⟨2022, 4, 2⟩ ⟨2022, 4, 1⟩ 106751
      = some ([⟨⟨2022, 4, 2⟩, ⟨2022, 4, 1⟩⟩], none) := by
  set_option maxRecDepth 20000 in decide

/-- When `LocalDate.Valid` returns no error. -/
theorem LocalDate_Valid_none_iff (d : LocalDate) :
    (d.Valid).2 = none ↔
      (d.Year ≤ 999999999 ∧ 1 ≤ d.Month ∧ d.Month ≤ 12 ∧ 1 ≤ d.Day ∧ d.Day ≤ 31) := by
  unfold LocalDate.Valid
  simp only [MinYear, MaxYear, MinMonthOfYear, MaxMonthOfYear, MinDayOfMonth, MaxDayOfMonth]
  split_ifs <;> simp <;> omega

/-- Claim C22: `LocalDate.Valid` returns the receiver unchanged, and no error
if and only if the year is at most 999999999, the month within 1..12 and the
day within 1..31; every error is `ErrOutOfRangeDate`, and the zero date fails
`Valid`. -/
theorem LocalDate_Valid_iff (d : LocalDate) :
    (d.Valid).1 = d ∧
    ((d.Valid).2 = none ↔
      (d.Year ≤ 999999999 ∧ 1 ≤ d.Month ∧ d.Month ≤ 12 ∧ 1 ≤ d.Day ∧ d.Day ≤ 31)) ∧
    ((d.Valid).2 ≠ none → (d.Valid).2 = some Err.ErrOutOfRangeDate) ∧
    (LocalDate.Valid ⟨0, 0, 0⟩).2 = some Err.ErrOutOfRangeDate := by
  refine ⟨?_, ?_, ?_, by decide⟩
  · unfold LocalDate.Valid
    split_ifs <;> rfl
  · unfold LocalDate.Valid
    simp only [MinYear, MaxYear, MinMonthOfYear, MaxMonthOfYear, MinDayOfMonth, MaxDayOfMonth]
    split_ifs <;> simp <;> omega
  · unfold LocalDate.Valid
    split_ifs <;> simp

/-- Claim C23: `NewLocalTime(h, m, s)` and `LocalTime.Valid` return the time
`LocalTime{h, m, s}` in every case, and no error if and only if
`1 <= h <= 23`, `m <= 59` and `s <= 59`; every error is `ErrOutOfRangeDate`.
Every time with hour 0, midnight 00:00:00 included, is rejected, as are hour
24, minute 60 and second 60. -/
theorem NewLocalTime_valid_iff (h m s : Nat) :
    (NewLocalTime h m s).1 = ⟨h, m, s⟩ ∧
    NewLocalTime h m s = LocalTime.Valid ⟨h, m, s⟩ ∧
    ((NewLocalTime h m s).2 = none ↔ (1 ≤ h ∧ h ≤ 23 ∧ m ≤ 59 ∧ s ≤ 59)) ∧
    ((NewLocalTime h m s).2 ≠ none → (NewLocalTime h m s).2 = some Err.ErrOutOfRangeDate) ∧
    (NewLocalTime 0 m s).2 = some Err.ErrOutOfRangeDate ∧
    (NewLocalTime 0 0 0).2 = some Err.ErrOutOfRangeDate ∧
    (NewLocalTime 24 0 0).2 = some Err.ErrOutOfRangeDate ∧
    (NewLocalTime 1 60 0).2 = some Err.ErrOutOfRangeDate ∧
    (NewLocalTime 1 0 60).2 = some Err.ErrOutOfRangeDate := by
  refine ⟨?_, rfl, ?_, ?_, ?_, by decide, by decide, by decide, by decide⟩
  · unfold NewLocalTime LocalTime.Valid
    split_ifs <;> rfl
  · unfold NewLocalTime LocalTime.Valid
    simp only [MinHourOfDay, MaxHourOfDay, MinMinuteOfHour, MaxMinuteOfHour, MinSecOfMinute,
      MaxSecOfMinute]
    split_ifs <;> simp <;> omega
  · unfold NewLocalTime LocalTime.Valid
    split_ifs <;> simp
  · unfold NewLocalTime LocalTime.Valid
    simp [MinHourOfDay]

end Dates

/-! ## Decimal text, patterns and JSON text -/

namespace GoStd

theorem toDigitsCore_acc (fuel : Nat) :
    ∀ (n : Nat) (ds : List Char),
      Nat.toDigitsCore 10 fuel n ds = Nat.toDigitsCore 10 fuel n [] ++ ds := by
  induction fuel with
  | zero =>
    intro n ds
    simp [Nat.toDigitsCore]
  | succ f ih =>
    intro n ds
    simp only [Nat.toDigitsCore]
    split_ifs with h
    · simp
    · rw [ih (n / 10) (Nat.digitChar (n % 10) :: ds), ih (n / 10) [Nat.digitChar (n % 10)]]
      simp

theorem toDigitsCore_fuel (f : Nat) :
    ∀ (g n : Nat), n < f → n < g → Nat.toDigitsCore 10 f n [] = Nat.toDigitsCore 10 g n [] := by
  induction f with
  | zero =>
    intro g n h
    omega
  | succ f ih =>
    intro g n hf hg
    obtain ⟨g0, rfl⟩ : ∃ g0, g = g0 + 1 := ⟨g - 1, by omega⟩
    simp only [Nat.toDigitsCore]
    split_ifs with h
    · rfl
    · rw [toDigitsCore_acc f, toDigitsCore_acc g0, ih g0 (n / 10) (by omega) (by omega)]

/-- A number below ten is written with its one digit. -/
theorem decimal_small (n : Nat) (h : n < 10) : decimal n = [Nat.digitChar n] := by
  have h0 : n / 10 = 0 := by omega
  have h1 : n % 10 = n := by omega
  simp [decimal, Nat.toDigits, Nat.toDigitsCore, h0, h1]

/-- The decimal text of a number from ten on is the text of its tens followed
by its last digit. -/
theorem decimal_step (n : Nat) (h : 10 ≤ n) :
    decimal n = decimal (n / 10) ++ [Nat.digitChar (n % 10)] := by
  have h0 : n / 10 ≠ 0 := by omega
  have e : Nat.toDigitsCore 10 (n + 1) n []
      = Nat.toDigitsCore 10 n (n / 10) [Nat.digitChar (n % 10)] := by
    simp only [Nat.toDigitsCore, h0, if_false]
  unfold decimal Nat.toDigits
  rw [e, toDigitsCore_acc n, toDigitsCore_fuel n (n / 10 + 1) (n / 10) (by omega) (by omega)]

theorem digitChar_isDigit (k : Nat) (h : k < 10) : (Nat.digitChar k).isDigit = true := by
  interval_cases k <;> decide

theorem digitVal_digitChar (k : Nat) (h : k < 10) : digitVal (Nat.digitChar k) = k := by
  interval_cases k <;> decide

theorem digitChar_ne_minus (k : Nat) (h : k < 10) : Nat.digitChar k ≠ '-' := by
  interval_cases k <;> decide

/-- Every character of a decimal text is a digit. -/
theorem decimal_all_digits (n : Nat) : ∀ c ∈ decimal n, c.isDigit = true := by
  induction n using Nat.strong_induction_on with
  | _ n ih =>
    by_cases h : n < 10
    · rw [decimal_small n h]
      intro c hc
      simp only [List.mem_singleton] at hc
      subst hc
      exact digitChar_isDigit n h
    · rw [decimal_step n (by omega)]
      intro c hc
      rw [List.mem_append] at hc
      rcases hc with hc | hc
      · exact ih (n / 10) (by omega) c hc
      · simp only [List.mem_singleton] at hc
        subst hc
        exact digitChar_isDigit _ (by omega)

theorem digitsVal_append (l : List Char) (c : Char) :
    digitsVal (l ++ [c]) = digitsVal l * 10 + digitVal c := by
  simp [digitsVal, List.foldl_append]

/-- Reading a decimal text gives the number back. -/
theorem digitsVal_decimal (n : Nat) : digitsVal (decimal n) = n := by
  induction n using Nat.strong_induction_on with
  | _ n ih =>
    by_cases h : n < 10
    · rw [decimal_small n h]
      simp only [digitsVal, List.foldl_cons, List.foldl_nil, zero_mul, zero_add]
      exact digitVal_digitChar n h
    · rw [decimal_step n (by omega), digitsVal_append, ih (n / 10) (by omega),
        digitVal_digitChar _ (by omega)]
      omega

/-- The number of digits of a decimal text against the powers of ten. -/
theorem decimal_length (n : Nat) :
    (n < 10 → (decimal n).length = 1) ∧ (10 ≤ n → n < 100 → (decimal n).length = 2) ∧
    (100 ≤ n → n < 1000 → (decimal n).length = 3) ∧
    (1000 ≤ n → n < 10000 → (decimal n).length = 4) ∧
    (10000 ≤ n → 5 ≤ (decimal n).length) := by
  have l1 : ∀ k, k < 10 → (decimal k).length = 1 := by
    intro k hk
    rw [decimal_small k hk]
    rfl
  have ls : ∀ k, 10 ≤ k → (decimal k).length = (decimal (k / 10)).length + 1 := by
    intro k hk
    rw [decimal_step k hk, List.length_append]
    rfl
  have l2 : ∀ k, 10 ≤ k → k < 100 → (decimal k).length = 2 := by
    intro k h1 h2
    rw [ls k h1, l1 (k / 10) (by omega)]
  have l3 : ∀ k, 100 ≤ k → k < 1000 → (decimal k).length = 3 := by
    intro k h1 h2
    rw [ls k (by omega), l2 (k / 10) (by omega) (by omega)]
  have l4 : ∀ k, 1000 ≤ k → k < 10000 → (decimal k).length = 4 := by
    intro k h1 h2
    rw [ls k (by omega), l3 (k / 10) (by omega) (by omega)]
  have lpos : ∀ k, 1 ≤ (decimal k).length := by
    intro k
    by_cases hk : k < 10
    · rw [l1 k hk]
    · rw [ls k (by omega)]
      omega
  refine ⟨l1 n, l2 n, l3 n, l4 n, ?_⟩
  intro h
  have a1 := ls n (by omega)
  have a2 := ls (n / 10) (by omega)
  have a3 := ls (n / 10 / 10) (by omega)
  have a4 := ls (n / 10 / 10 / 10) (by omega)
  have a5 := lpos (n / 10 / 10 / 10 / 10)
  omega

end GoStd

namespace GoStd

theorem Itoa_natCast (n : Nat) : Itoa (n : Int) = decimal n := by
  unfold Itoa
  rw [if_neg (by omega)]
  simp

/-- A number below one hundred padded to two places: its two digits. -/
theorem leftpad_two (n : Nat) (h : n ≤ 99) :
    List.leftpad 2 '0' (decimal n) = [Nat.digitChar (n / 10), Nat.digitChar (n % 10)] := by
  by_cases h1 : n < 10
  · rw [decimal_small n h1]
    have e0 : n / 10 = 0 := by omega
    have e1 : n % 10 = n := by omega
    rw [e0, e1]
    rfl
  · rw [decimal_step n (by omega), decimal_small (n / 10) (by omega)]
    rfl

/-- A number below ten thousand padded to four places: its four digits. -/
theorem leftpad_four (n : Nat) (h : n ≤ 9999) :
    List.leftpad 4 '0' (decimal n) = [Nat.digitChar (n / 1000), Nat.digitChar (n / 100 % 10),
      Nat.digitChar (n / 10 % 10), Nat.digitChar (n % 10)] := by
  have d1 : n / 10 / 10 = n / 100 := by omega
  have d2 : n / 100 / 10 = n / 1000 := by omega
  by_cases h1 : n < 10
  · rw [decimal_small n h1]
    have e0 : n / 1000 = 0 := by omega
    have e1 : n / 100 % 10 = 0 := by omega
    have e2 : n / 10 % 10 = 0 := by omega
    have e3 : n % 10 = n := by omega
    rw [e0, e1, e2, e3]
    rfl
  · by_cases h2 : n < 100
    · rw [decimal_step n (by omega), decimal_small (n / 10) (by omega)]
      have e0 : n / 1000 = 0 := by omega
      have e1 : n / 100 % 10 = 0 := by omega
      have e2 : n / 10 % 10 = n / 10 := by omega
      rw [e0, e1, e2]
      rfl
    · by_cases h3 : n < 1000
      · rw [decimal_step n (by omega), decimal_step (n / 10) (by omega), d1,
          decimal_small (n / 100) (by omega)]
        have e0 : n / 1000 = 0 := by omega
        have e1 : n / 100 % 10 = n / 100 := by omega
        rw [e0, e1]
        rfl
      · rw [decimal_step n (by omega), decimal_step (n / 10) (by omega), d1,
          decimal_step (n / 100) (by omega), d2, decimal_small (n / 1000) (by omega)]
        rfl

/-- Padding does nothing to a text that is long enough. -/
theorem leftpad_of_le (k : Nat) (l : List Char) (h : k ≤ l.length) :
    List.leftpad k '0' l = l := by
  simp [List.leftpad, Nat.sub_eq_zero_of_le h]

end GoStd

namespace Dates

open GoInt GoTime GoStd

/-- The year text of `SplitString`: the decimal year padded to four places. -/
theorem SplitString_year (d : LocalDate) (h : d.Year < 9223372036854775808) :
    d.SplitString.1 = List.leftpad 4 '0' (decimal d.Year) := by
  have hl := decimal_length d.Year
  simp only [LocalDate.SplitString, toInt_of_lt d.Year h, Itoa_natCast]
  split_ifs with h1 h2 h3
  · have e := hl.1 h1
    generalize decimal d.Year = l at *
    match l, e with
    | [a], _ => rfl
  · have e := hl.2.1 (by omega) h2
    generalize decimal d.Year = l at *
    match l, e with
    | [a, b], _ => rfl
  · have e := hl.2.2.1 (by omega) h3
    generalize decimal d.Year = l at *
    match l, e with
    | [a, b, c], _ => rfl
  · rw [leftpad_of_le]
    by_cases h4 : d.Year < 10000
    · rw [hl.2.2.2.1 (by omega) h4]
    · have := hl.2.2.2.2 (by omega)
      omega

/-- A month, day, hour, minute or second text of `SplitString`: the decimal
number padded to two places. -/
theorem pad_two_eq (n : Nat) (h : n < 9223372036854775808) :
    (if n < 10 then ['0'] ++ Itoa (toInt n) else Itoa (toInt n))
      = List.leftpad 2 '0' (decimal n) := by
  have hl := decimal_length n
  simp only [toInt_of_lt n h, Itoa_natCast]
  split_ifs with h1
  · have e := hl.1 h1
    generalize decimal n = l at *
    match l, e with
    | [a], _ => rfl
  · rw [leftpad_of_le]
    by_cases h2 : n < 100
    · rw [hl.2.1 (by omega) h2]
    · by_cases h3 : n < 1000
      · rw [hl.2.2.1 (by omega) h3]
        omega
      · by_cases h4 : n < 10000
        · rw [hl.2.2.2.1 (by omega) h4]
          omega
        · have := hl.2.2.2.2 (by omega)
          omega

end Dates

namespace Dates

open GoInt GoTime GoStd

/-- The text of `LocalDate.Value` for fields that `int(...)` does not wrap. -/
theorem LocalDate_text_eq (d : LocalDate) (hy : d.Year < 9223372036854775808)
    (hm : d.Month < 9223372036854775808) (hd : d.Day < 9223372036854775808) :
    d.text = List.leftpad 4 '0' (decimal d.Year) ++ ['-'] ++
      List.leftpad 2 '0' (decimal d.Month) ++ ['-'] ++ List.leftpad 2 '0' (decimal d.Day) := by
  have e1 := SplitString_year d hy
  have e2 : d.SplitString.2.1 = List.leftpad 2 '0' (decimal d.Month) := pad_two_eq d.Month hm
  have e3 : d.SplitString.2.2 = List.leftpad 2 '0' (decimal d.Day) := pad_two_eq d.Day hd
  rw [LocalDate.text, e1, e2, e3]

/-- Claim C16, as amended: for every date whose year is at most
9223372036854775807 (the largest `int`) and whose month and day are at most
99, `Value()` returns no error and the text `Y-MM-DD`, where `Y` is the
decimal year padded with `0` to at least four digits (exactly the larger of 4
and the number of digits of the year) and `MM` and `DD` are the two digits of
the month and the day; `String()` returns the same text, and the zero date
renders as `0000-00-00`. -/
theorem LocalDate_Value_format (d : LocalDate) (hy : d.Year ≤ 9223372036854775807)
    (hm : d.Month ≤ 99) (hd : d.Day ≤ 99) :
    d.Value = (Value.str (List.leftpad 4 '0' (decimal d.Year) ++ ['-'] ++
      [Nat.digitChar (d.Month / 10), Nat.digitChar (d.Month % 10)] ++ ['-'] ++
      [Nat.digitChar (d.Day / 10), Nat.digitChar (d.Day % 10)]), none) ∧
    (List.leftpad 4 '0' (decimal d.Year)).length = max 4 (decimal d.Year).length ∧
    (∀ c ∈ decimal d.Year, c.isDigit = true) ∧
    Value.str d.String = d.Value.1 ∧
    LocalDate.Value ⟨0, 0, 0⟩
      = (Value.str ['0', '0', '0', '0', '-', '0', '0', '-', '0', '0'], none) := by
  refine ⟨?_, List.leftpad_length _ _ _, decimal_all_digits _, rfl, by decide⟩
  rw [LocalDate.Value, LocalDate_text_eq d (by omega) (by omega) (by omega),
    leftpad_two d.Month hm, leftpad_two d.Day hd]

theorem LocalDate_Value_format_witness :
    LocalDate.Value ⟨2020, 1, 3⟩ = (Value.str (List.leftpad 4 '0' (decimal 2020) ++ ['-'] ++
      [Nat.digitChar (1 / 10), Nat.digitChar (1 % 10)] ++ ['-'] ++
      [Nat.digitChar (3 / 10), Nat.digitChar (3 % 10)]), none) ∧
    (List.leftpad 4 '0' (decimal 2020)).length = max 4 (decimal 2020).length ∧
    (∀ c ∈ decimal 2020, c.isDigit = true) ∧
    Value.str (LocalDate.String ⟨2020, 1, 3⟩) = (LocalDate.Value ⟨2020, 1, 3⟩).1 ∧
    LocalDate.Value ⟨0, 0, 0⟩
      = (Value.str ['0', '0', '0', '0', '-', '0', '0', '-', '0', '0'], none) :=
  LocalDate_Value_format ⟨2020, 1, 3⟩ (by decide) (by decide) (by decide)

/-- Claim C16 fails as stated: a year from `2^63` on is converted with
`int(d.Year)` to a negative number, so the year text of
`LocalDate{9223372036854775808, 1, 1}` is `-9223372036854775808`, not the
decimal year. -/
theorem LocalDate_Value_wrapped_year :
    (1 : Nat) ≤ 99 ∧
    LocalDate.Value ⟨9223372036854775808, 1, 1⟩
      = (Value.str ['-', '9', '2', '2', '3', '3', '7', '2', '0', '3', '6', '8', '5', '4', '7',
          '7', '5', '8', '0', '8', '-', '0', '1', '-', '0', '1'], none) ∧
    (LocalDate.Value ⟨9223372036854775808, 1, 1⟩).1
      ≠ Value.str (List.leftpad 4 '0' (decimal 9223372036854775808) ++ ['-'] ++
          ['0', '1'] ++ ['-'] ++ ['0', '1']) := by
  set_option maxRecDepth 20000 in decide

end Dates

namespace GoStd

/-- The characters of the texts of dates: the digits and the separators. -/
theorem decimal_chars (n : Nat) :
    ∀ c ∈ decimal n, c ∈ ['0', '1', '2', '3', '4', '5', '6', '7', '8', '9'] := by
  have hd : ∀ k, k < 10 →
      Nat.digitChar k ∈ ['0', '1', '2', '3', '4', '5', '6', '7', '8', '9'] := by
    intro k hk
    interval_cases k <;> decide
  induction n using Nat.strong_induction_on with
  | _ n ih =>
    by_cases h : n < 10
    · rw [decimal_small n h]
      intro c hc
      rw [List.mem_singleton] at hc
      subst hc
      exact hd n h
    · rw [decimal_step n (by omega)]
      intro c hc
      rw [List.mem_append] at hc
      rcases hc with hc | hc
      · exact ih (n / 10) (by omega) c hc
      · rw [List.mem_singleton] at hc
        subst hc
        exact hd _ (by omega)

theorem Itoa_chars (i : Int) :
    ∀ c ∈ Itoa i, c ∈ ['0', '1', '2', '3', '4', '5', '6', '7', '8', '9', '-', ' ', ':'] := by
  intro c hc
  unfold Itoa at hc
  split_ifs at hc
  · rw [List.mem_cons] at hc
    rcases hc with hc | hc
    · subst hc
      decide
    · have := decimal_chars _ c hc
      simp only [List.mem_cons, List.mem_singleton, List.not_mem_nil, or_false] at this ⊢
      tauto
  · have := decimal_chars _ c hc
    simp only [List.mem_cons, List.mem_singleton, List.not_mem_nil, or_false] at this ⊢
    tauto

/-- The characters of the texts of dates are written to JSON unchanged. -/
theorem jsonEscape_date_char (c : Char)
    (h : c ∈ ['0', '1', '2', '3', '4', '5', '6', '7', '8', '9', '-', ' ', ':']) :
    jsonEscape c = [c] := by
  simp only [List.mem_cons, List.mem_singleton, List.not_mem_nil, or_false] at h
  rcases h with h | h | h | h | h | h | h | h | h | h | h | h | h <;> subst h <;> decide

theorem flatMap_id_of (f : Char → List Char) (l : List Char) (h : ∀ c ∈ l, f c = [c]) :
    l.flatMap f = l := by
  induction l with
  | nil => rfl
  | cons a t ih =>
    rw [List.flatMap_cons, h a (List.mem_cons_self a t),
      ih (fun c hc => h c (List.mem_cons_of_mem a hc))]
    rfl

/-- The JSON text of a string of date characters: the string in quotes. -/
theorem jsonMarshal_date_text (s : List Char)
    (h : ∀ c ∈ s, c ∈ ['0', '1', '2', '3', '4', '5', '6', '7', '8', '9', '-', ' ', ':']) :
    jsonMarshal (some s) = '"' :: (s ++ ['"']) := by
  simp only [jsonMarshal]
  rw [flatMap_id_of jsonEscape s (fun c hc => jsonEscape_date_char c (h c hc))]

end GoStd

namespace Dates

open GoInt GoTime GoStd

theorem pad_chars (p : List Char) (i : Int)
    (hp : ∀ c ∈ p, c ∈ ['0', '1', '2', '3', '4', '5', '6', '7', '8', '9', '-', ' ', ':']) :
    ∀ c ∈ p ++ Itoa i, c ∈ ['0', '1', '2', '3', '4', '5', '6', '7', '8', '9', '-', ' ', ':'] := by
  intro c hc
  rw [List.mem_append] at hc
  rcases hc with hc | hc
  · exact hp c hc
  · exact Itoa_chars i c hc

theorem LocalDate_SplitString_chars (d : LocalDate) :
    (∀ c ∈ d.SplitString.1,
      c ∈ ['0', '1', '2', '3', '4', '5', '6', '7', '8', '9', '-', ' ', ':']) ∧
    (∀ c ∈ d.SplitString.2.1,
      c ∈ ['0', '1', '2', '3', '4', '5', '6', '7', '8', '9', '-', ' ', ':']) ∧
    (∀ c ∈ d.SplitString.2.2,
      c ∈ ['0', '1', '2', '3', '4', '5', '6', '7', '8', '9', '-', ' ', ':']) := by
  simp only [LocalDate.SplitString]
  refine ⟨?_, ?_, ?_⟩ <;> split_ifs <;>
    first
      | exact Itoa_chars _
      | exact pad_chars _ _ (by decide)

theorem LocalTime_SplitString_chars (t : LocalTime) :
    (∀ c ∈ t.SplitString.1,
      c ∈ ['0', '1', '2', '3', '4', '5', '6', '7', '8', '9', '-', ' ', ':']) ∧
    (∀ c ∈ t.SplitString.2.1,
      c ∈ ['0', '1', '2', '3', '4', '5', '6', '7', '8', '9', '-', ' ', ':']) ∧
    (∀ c ∈ t.SplitString.2.2,
      c ∈ ['0', '1', '2', '3', '4', '5', '6', '7', '8', '9', '-', ' ', ':']) := by
  simp only [LocalTime.SplitString]
  refine ⟨?_, ?_, ?_⟩ <;> split_ifs <;>
    first
      | exact Itoa_chars _
      | exact pad_chars _ _ (by decide)

theorem LocalDate_text_chars (d : LocalDate) :
    ∀ c ∈ d.text, c ∈ ['0', '1', '2', '3', '4', '5', '6', '7', '8', '9', '-', ' ', ':'] := by
  obtain ⟨h1, h2, h3⟩ := LocalDate_SplitString_chars d
  intro c hc
  simp only [LocalDate.text, List.mem_append, List.mem_singleton] at hc
  rcases hc with (((hc | hc) | hc) | hc) | hc
  · exact h1 c hc
  · subst hc; decide
  · exact h2 c hc
  · subst hc; decide
  · exact h3 c hc

theorem LocalDatetime_text_chars (dt : LocalDatetime) :
    ∀ c ∈ dt.text, c ∈ ['0', '1', '2', '3', '4', '5', '6', '7', '8', '9', '-', ' ', ':'] := by
  obtain ⟨h1, h2, h3⟩ := LocalDate_SplitString_chars dt.LocalDate
  obtain ⟨h4, h5, h6⟩ := LocalTime_SplitString_chars dt.LocalTime
  intro c hc
  simp only [LocalDatetime.text, List.mem_append, List.mem_singleton] at hc
  rcases hc with (((((((((hc | hc) | hc) | hc) | hc) | hc) | hc) | hc) | hc) | hc) | hc
  · exact h1 c hc
  · subst hc; decide
  · exact h2 c hc
  · subst hc; decide
  · exact h3 c hc
  · subst hc; decide
  · exact h4 c hc
  · subst hc; decide
  · exact h5 c hc
  · subst hc; decide
  · exact h6 c hc

/-- Claim C17: `MarshalJSON` of a `LocalDate` and of a `LocalDatetime` returns
no error; it returns the JSON literal `null` if and only if the value is
zero, and otherwise the text of `String()` enclosed in double quotes. -/
theorem MarshalJSON_null_iff_zero (d : LocalDate) (dt : LocalDatetime) :
    (d.MarshalJSON.2 = none ∧ (d.MarshalJSON.1 = ['n', 'u', 'l', 'l'] ↔ d.IsZero = true) ∧
      (d.IsZero = false → d.MarshalJSON.1 = '"' :: (d.String ++ ['"']))) ∧
    (dt.MarshalJSON.2 = none ∧ (dt.MarshalJSON.1 = ['n', 'u', 'l', 'l'] ↔ dt.IsZero = true) ∧
      (dt.IsZero = false → dt.MarshalJSON.1 = '"' :: (dt.String ++ ['"']))) := by
  have e1 : jsonMarshal (some d.String) = '"' :: (d.String ++ ['"']) :=
    jsonMarshal_date_text _ (LocalDate_text_chars d)
  have e2 : jsonMarshal (some dt.String) = '"' :: (dt.String ++ ['"']) :=
    jsonMarshal_date_text _ (LocalDatetime_text_chars dt)
  refine ⟨?_, ?_⟩
  · cases hz : d.IsZero
    · simp [LocalDate.MarshalJSON, hz, MarshalJSON, e1]
    · simp [LocalDate.MarshalJSON, hz, MarshalJSON, jsonMarshal]
  · cases hz : dt.IsZero
    · simp [LocalDatetime.MarshalJSON, hz, MarshalJSON, e2]
    · simp [LocalDatetime.MarshalJSON, hz, MarshalJSON, jsonMarshal]

end Dates

namespace GoStd

theorem isDigit_ne_sign (a : Char) (h : a.isDigit = true) : a ≠ '-' ∧ a ≠ '+' := by
  constructor <;> intro e <;> subst e <;> exact absurd h (by decide)

/-- The function `Atoi` on a text of digits that spells a value of `int`. -/
theorem Atoi_digits (a : Char) (r : List Char) (ha : a.isDigit = true)
    (hr : r.all Char.isDigit = true) (hv : (digitsVal (a :: r) : Int) ≤ 9223372036854775807) :
    Atoi (a :: r) = some (digitsVal (a :: r) : Int) := by
  obtain ⟨h1, h2⟩ := isDigit_ne_sign a ha
  have hall : (a :: r).all Char.isDigit = true := by
    simp only [List.all_cons, ha, hr, Bool.and_self]
  have hb : stripSign (a :: r) = a :: r := by
    unfold stripSign
    split
    · rename_i heq
      simp only [List.cons.injEq] at heq
      exact absurd heq.1 h1
    · rename_i heq
      simp only [List.cons.injEq] at heq
      exact absurd heq.1 h2
    · rfl
  have hn : ¬ (a :: r).head? = some '-' := by
    simp only [List.head?_cons, Option.some.injEq]
    exact h1
  have h0 : (0 : Int) ≤ (digitsVal (a :: r) : Int) := Int.natCast_nonneg _
  unfold Atoi
  simp only [hb, hall, if_neg hn]
  simp only [List.cons_ne_nil, Bool.not_true, Bool.false_eq_true, or_self, if_false]
  rw [if_pos ⟨by omega, hv⟩]

theorem Atoi_two (n : Nat) (h : n ≤ 99) :
    Atoi [Nat.digitChar (n / 10), Nat.digitChar (n % 10)] = some (n : Int) := by
  have e : digitsVal [Nat.digitChar (n / 10), Nat.digitChar (n % 10)] = n := by
    simp only [digitsVal, List.foldl_cons, List.foldl_nil, zero_mul, zero_add]
    rw [digitVal_digitChar _ (by omega), digitVal_digitChar _ (by omega)]
    omega
  rw [Atoi_digits _ _ (digitChar_isDigit _ (by omega))
    (by simp [digitChar_isDigit (n % 10) (by omega)]) (by rw [e]; omega), e]

theorem Atoi_four (n : Nat) (h : n ≤ 9999) :
    Atoi [Nat.digitChar (n / 1000), Nat.digitChar (n / 100 % 10), Nat.digitChar (n / 10 % 10),
      Nat.digitChar (n % 10)] = some (n : Int) := by
  have e : digitsVal [Nat.digitChar (n / 1000), Nat.digitChar (n / 100 % 10),
      Nat.digitChar (n / 10 % 10), Nat.digitChar (n % 10)] = n := by
    simp only [digitsVal, List.foldl_cons, List.foldl_nil, zero_mul, zero_add]
    rw [digitVal_digitChar _ (by omega), digitVal_digitChar _ (by omega),
      digitVal_digitChar _ (by omega), digitVal_digitChar _ (by omega)]
    omega
  rw [Atoi_digits _ _ (digitChar_isDigit _ (by omega))
    (by simp [digitChar_isDigit (n / 100 % 10) (by omega),
      digitChar_isDigit (n / 10 % 10) (by omega), digitChar_isDigit (n % 10) (by omega)])
    (by rw [e]; omega), e]

end GoStd

namespace Dates

open GoInt GoTime GoStd

/-- The match of `LocalDateRegex` on a text that starts with four digits, a
hyphen, two digits, a hyphen and two digits: the three groups, whatever
follows. -/
theorem FindStringSubmatch_date (a b c d e f g h : Char) (t : List Char)
    (ha : a.isDigit = true) (hb : b.isDigit = true) (hc : c.isDigit = true)
    (hd : d.isDigit = true) (he : e.isDigit = true) (hf : f.isDigit = true)
    (hg : g.isDigit = true) (hh : h.isDigit = true) :
    FindStringSubmatch LocalDateRegex ([a, b, c, d, '-', e, f, '-', g, h] ++ t)
      = [[a, b, c, d, '-', e, f, '-', g, h], [a, b, c, d], [e, f], [g, h]] := by
  simp [FindStringSubmatch, LocalDateRegex, matchItems, matchDigits, matchLength, ha, hb, hc,
    hd, he, hf, hg, hh]

end Dates

namespace Dates

open GoInt GoTime GoStd

/-- The text of a date with a year of at most four digits and a month and a
day of at most two digits: ten characters. -/
theorem LocalDate_text_digits (d : LocalDate) (hy : d.Year ≤ 9999) (hm : d.Month ≤ 99)
    (hd : d.Day ≤ 99) :
    d.text = [Nat.digitChar (d.Year / 1000), Nat.digitChar (d.Year / 100 % 10),
      Nat.digitChar (d.Year / 10 % 10), Nat.digitChar (d.Year % 10), '-',
      Nat.digitChar (d.Month / 10), Nat.digitChar (d.Month % 10), '-',
      Nat.digitChar (d.Day / 10), Nat.digitChar (d.Day % 10)] := by
  rw [LocalDate_text_eq d (by omega) (by omega) (by omega), leftpad_four d.Year hy,
    leftpad_two d.Month hm, leftpad_two d.Day hd]
  rfl

/-- Scanning a text that starts with the text of a date stores that date. -/
theorem LocalDate_Scan_text (d r : LocalDate) (t : List Char) (hy : d.Year ≤ 9999)
    (hm : d.Month ≤ 99) (hd : d.Day ≤ 99) :
    LocalDate.Scan (some r) (Value.str (d.text ++ t)) = Outcome.done (some d) none := by
  have hg := FindStringSubmatch_date (Nat.digitChar (d.Year / 1000))
    (Nat.digitChar (d.Year / 100 % 10)) (Nat.digitChar (d.Year / 10 % 10))
    (Nat.digitChar (d.Year % 10)) (Nat.digitChar (d.Month / 10)) (Nat.digitChar (d.Month % 10))
    (Nat.digitChar (d.Day / 10)) (Nat.digitChar (d.Day % 10)) t
    (digitChar_isDigit _ (by omega)) (digitChar_isDigit _ (by omega))
    (digitChar_isDigit _ (by omega)) (digitChar_isDigit _ (by omega))
    (digitChar_isDigit _ (by omega)) (digitChar_isDigit _ (by omega))
    (digitChar_isDigit _ (by omega)) (digitChar_isDigit _ (by omega))
  rw [LocalDate_text_digits d hy hm hd]
  simp only [LocalDate.Scan, ConvertValue, hg]
  simp only [List.getD_cons_succ, List.getD_cons_zero, Atoi_four d.Year hy,
    Atoi_two d.Month hm, Atoi_two d.Day hd]
  rw [toUint_natCast d.Year (by omega), toUint_natCast d.Month (by omega),
    toUint_natCast d.Day (by omega)]
  simp

/-- The pattern `LocalDateRegex` does not match a text that starts with five
digits. -/
theorem FindStringSubmatch_five_digits (a b c d e : Char) (t : List Char)
    (ha : a.isDigit = true) (hb : b.isDigit = true) (hc : c.isDigit = true)
    (hd : d.isDigit = true) (he : e.isDigit = true) :
    FindStringSubmatch LocalDateRegex (a :: b :: c :: d :: e :: t) = [] := by
  have hne := (isDigit_ne_sign e he).1
  simp [FindStringSubmatch, LocalDateRegex, matchItems, matchDigits, ha, hb, hc, hd, hne]

/-- Scanning a text that starts with five digits fails. -/
theorem LocalDate_Scan_long_year (d r : LocalDate) (hlo : 10000 ≤ d.Year)
    (hhi : d.Year < 9223372036854775808) :
    LocalDate.Scan (some r) (Value.str d.text) = Outcome.done (some r) (some Err.ErrScan) := by
  have hl := (decimal_length d.Year).2.2.2.2 hlo
  have hdig := decimal_all_digits d.Year
  have ey : d.SplitString.1 = decimal d.Year := by
    simp only [LocalDate.SplitString, toInt_of_lt d.Year hhi, Itoa_natCast]
    rw [if_neg (by omega), if_neg (by omega), if_neg (by omega)]
  rw [LocalDate.text, ey]
  generalize decimal d.Year = l at *
  match l, hl, hdig with
  | a :: b :: c :: d0 :: e :: rest, _, hdig =>
    have hg := FindStringSubmatch_five_digits a b c d0 e
      (rest ++ ['-'] ++ d.SplitString.2.1 ++ ['-'] ++ d.SplitString.2.2)
      (hdig a (by simp)) (hdig b (by simp)) (hdig c (by simp)) (hdig d0 (by simp))
      (hdig e (by simp))
    simp only [List.cons_append, List.append_assoc] at hg ⊢
    simp only [LocalDate.Scan, ConvertValue, hg]
    simp

/-- Claim C19: `LocalDate.Scan` ignores everything after the date. For the
text `c` that `Value()` gives for a date with year at most 9999 and month and
day at most 99, and every suffix `t`, `Scan(c ++ t)` succeeds and stores that
date, the date that `Scan(c)` stores; `Scan("2020-01-03 15:00:00")` stores
`{2020, 1, 3}`. -/
theorem LocalDate_Scan_ignores_suffix (d r : LocalDate) (t : List Char) (hy : d.Year ≤ 9999)
    (hm : d.Month ≤ 99) (hd : d.Day ≤ 99) :
    d.Value.1 = Value.str d.text ∧
    LocalDate.Scan (some r) (Value.str (d.text ++ t)) = Outcome.done (some d) none ∧
    LocalDate.Scan (some r) (Value.str (d.text ++ t)) = LocalDate.Scan (some r) d.Value.1 ∧
    LocalDate.Scan (some r) (Value.str ['2', '0', '2', '0', '-', '0', '1', '-', '0', '3', ' ',
      '1', '5', ':', '0', '0', ':', '0', '0']) = Outcome.done (some ⟨2020, 1, 3⟩) none := by
  have h1 := LocalDate_Scan_text d r t hy hm hd
  have h2 := LocalDate_Scan_text d r [] hy hm hd
  rw [List.append_nil] at h2
  refine ⟨rfl, h1, ?_, ?_⟩
  · rw [h1]
    exact h2.symm
  · have h3 := LocalDate_Scan_text ⟨2020, 1, 3⟩ r [' ', '1', '5', ':', '0', '0', ':', '0', '0']
      (by decide) (by decide) (by decide)
    rw [LocalDate_text_digits ⟨2020, 1, 3⟩ (by decide) (by decide) (by decide)] at h3
    exact h3

theorem LocalDate_Scan_ignores_suffix_witness :
    (LocalDate.Value ⟨2020, 1, 3⟩).1 = Value.str (LocalDate.text ⟨2020, 1, 3⟩) ∧
    LocalDate.Scan (some ⟨0, 0, 0⟩) (Value.str (LocalDate.text ⟨2020, 1, 3⟩ ++ ['T', '1']))
      = Outcome.done (some ⟨2020, 1, 3⟩) none ∧
    LocalDate.Scan (some ⟨0, 0, 0⟩) (Value.str (LocalDate.text ⟨2020, 1, 3⟩ ++ ['T', '1']))
      = LocalDate.Scan (some ⟨0, 0, 0⟩) (LocalDate.Value ⟨2020, 1, 3⟩).1 ∧
    LocalDate.Scan (some ⟨0, 0, 0⟩) (Value.str ['2', '0', '2', '0', '-', '0', '1', '-', '0',
      '3', ' ', '1', '5', ':', '0', '0', ':', '0', '0']) = Outcome.done (some ⟨2020, 1, 3⟩) none :=
  LocalDate_Scan_ignores_suffix ⟨2020, 1, 3⟩ ⟨0, 0, 0⟩ ['T', '1'] (by decide) (by decide)
    (by decide)

/-- Claim C37: the storage round trip of dates. For a date `d` that passes
`Valid`, scanning the text of `d.Value()` into a `LocalDate` succeeds and
stores `d` when the year is at most 9999, and fails with `ErrScan`, the
receiver unchanged, when the year is 10000 or more (years up to 999999999
pass `Valid`). -/
theorem LocalDate_Value_Scan_round_trip (d r : LocalDate) (hv : d.Valid.2 = none) :
    (d.Year ≤ 9999 → LocalDate.Scan (some r) d.Value.1 = Outcome.done (some d) none) ∧
    (10000 ≤ d.Year →
      LocalDate.Scan (some r) d.Value.1 = Outcome.done (some r) (some Err.ErrScan)) ∧
    (LocalDate.Valid ⟨10000, 1, 1⟩).2 = none ∧
    LocalDate.Scan (some ⟨0, 0, 0⟩) (LocalDate.Value ⟨10000, 1, 1⟩).1
      = Outcome.done (some ⟨0, 0, 0⟩) (some Err.ErrScan) := by
  obtain ⟨hY, hM1, hM2, hD1, hD2⟩ := (LocalDate_Valid_none_iff d).mp hv
  refine ⟨?_, ?_, by decide, by decide⟩
  · intro hy
    have h := LocalDate_Scan_text d r [] hy (by omega) (by omega)
    rw [List.append_nil] at h
    exact h
  · intro hy
    exact LocalDate_Scan_long_year d r hy (by omega)

theorem LocalDate_Value_Scan_round_trip_witness :
    ((2020 : Nat) ≤ 9999 → LocalDate.Scan (some ⟨0, 0, 0⟩) (LocalDate.Value ⟨2020, 1, 3⟩).1
      = Outcome.done (some ⟨2020, 1, 3⟩) none) ∧
    (10000 ≤ (2020 : Nat) → LocalDate.Scan (some ⟨0, 0, 0⟩) (LocalDate.Value ⟨2020, 1, 3⟩).1
      = Outcome.done (some ⟨0, 0, 0⟩) (some Err.ErrScan)) ∧
    (LocalDate.Valid ⟨10000, 1, 1⟩).2 = none ∧
    LocalDate.Scan (some ⟨0, 0, 0⟩) (LocalDate.Value ⟨10000, 1, 1⟩).1
      = Outcome.done (some ⟨0, 0, 0⟩) (some Err.ErrScan) :=
  LocalDate_Value_Scan_round_trip ⟨2020, 1, 3⟩ ⟨0, 0, 0⟩ (by decide)

end Dates

namespace Dates

open GoInt GoTime GoStd

/-- The match of `LocalDateTimeRegex` on a text that starts with a date of
ten characters, a space and a time of eight characters: the six groups. -/
theorem FindStringSubmatch_datetime (a b c d e f g h i j k l m n : Char) (t : List Char)
    (ha : a.isDigit = true) (hb : b.isDigit = true) (hc : c.isDigit = true)
    (hd : d.isDigit = true) (he : e.isDigit = true) (hf : f.isDigit = true)
    (hg : g.isDigit = true) (hh : h.isDigit = true) (hi : i.isDigit = true)
    (hj : j.isDigit = true) (hk : k.isDigit = true) (hl : l.isDigit = true)
    (hm : m.isDigit = true) (hn : n.isDigit = true) :
    FindStringSubmatch LocalDateTimeRegex
        ([a, b, c, d, '-', e, f, '-', g, h, ' ', i, j, ':', k, l, ':', m, n] ++ t)
      = [[a, b, c, d, '-', e, f, '-', g, h, ' ', i, j, ':', k, l, ':', m, n], [a, b, c, d],
          [e, f], [g, h], [i, j], [k, l], [m, n]] := by
  simp [FindStringSubmatch, LocalDateTimeRegex, matchItems, matchDigits, matchLength, ha, hb,
    hc, hd, he, hf, hg, hh, hi, hj, hk, hl, hm, hn]

/-- The text of a time of day with fields of at most two digits. -/
theorem LocalTime_SplitString_digits (t : LocalTime) (hh : t.Hour ≤ 99) (hm : t.Minute ≤ 99)
    (hs : t.Second ≤ 99) :
    t.SplitString = ([Nat.digitChar (t.Hour / 10), Nat.digitChar (t.Hour % 10)],
      [Nat.digitChar (t.Minute / 10), Nat.digitChar (t.Minute % 10)],
      [Nat.digitChar (t.Second / 10), Nat.digitChar (t.Second % 10)]) := by
  have e1 := pad_two_eq t.Hour (by omega)
  have e2 := pad_two_eq t.Minute (by omega)
  have e3 := pad_two_eq t.Second (by omega)
  rw [leftpad_two _ hh] at e1
  rw [leftpad_two _ hm] at e2
  rw [leftpad_two _ hs] at e3
  simp only [LocalTime.SplitString, e1, e2, e3]

/-- The text of a datetime with a year of at most four digits and other
fields of at most two digits: nineteen characters. -/
theorem LocalDatetime_text_digits (dt : LocalDatetime) (hy : dt.LocalDate.Year ≤ 9999)
    (hmo : dt.LocalDate.Month ≤ 99) (hd : dt.LocalDate.Day ≤ 99) (hh : dt.LocalTime.Hour ≤ 99)
    (hm : dt.LocalTime.Minute ≤ 99) (hs : dt.LocalTime.Second ≤ 99) :
    dt.text = [Nat.digitChar (dt.LocalDate.Year / 1000),
      Nat.digitChar (dt.LocalDate.Year / 100 % 10), Nat.digitChar (dt.LocalDate.Year / 10 % 10),
      Nat.digitChar (dt.LocalDate.Year % 10), '-',
      Nat.digitChar (dt.LocalDate.Month / 10), Nat.digitChar (dt.LocalDate.Month % 10), '-',
      Nat.digitChar (dt.LocalDate.Day / 10), Nat.digitChar (dt.LocalDate.Day % 10), ' ',
      Nat.digitChar (dt.LocalTime.Hour / 10), Nat.digitChar (dt.LocalTime.Hour % 10), ':',
      Nat.digitChar (dt.LocalTime.Minute / 10), Nat.digitChar (dt.LocalTime.Minute % 10), ':',
      Nat.digitChar (dt.LocalTime.Second / 10), Nat.digitChar (dt.LocalTime.Second % 10)] := by
  have e1 := LocalDate_text_digits dt.LocalDate hy hmo hd
  have e2 := LocalTime_SplitString_digits dt.LocalTime hh hm hs
  have e3 : dt.text = dt.LocalDate.text ++ [' '] ++ dt.LocalTime.SplitString.1 ++ [':'] ++
      dt.LocalTime.SplitString.2.1 ++ [':'] ++ dt.LocalTime.SplitString.2.2 := rfl
  rw [e3, e1, e2]
  rfl

/-- Claim C38: the storage round trip of datetimes. For a datetime with a year
of at most 9999 and month, day, hour, minute and second of at most 99 each,
`Value()` returns `Y-MM-DD HH:MM:SS` with four year digits and two digits for
every other field, and scanning that text into a `LocalDatetime` succeeds and
stores the datetime exactly, whatever its fields (no range is checked); the
zero value renders as `0000-00-00 00:00:00`. -/
theorem LocalDatetime_Value_Scan_round_trip (dt r : LocalDatetime)
    (hy : dt.LocalDate.Year ≤ 9999) (hmo : dt.LocalDate.Month ≤ 99)
    (hd : dt.LocalDate.Day ≤ 99) (hh : dt.LocalTime.Hour ≤ 99)
    (hm : dt.LocalTime.Minute ≤ 99) (hs : dt.LocalTime.Second ≤ 99) :
    dt.Value = (Value.str [Nat.digitChar (dt.LocalDate.Year / 1000),
      Nat.digitChar (dt.LocalDate.Year / 100 % 10), Nat.digitChar (dt.LocalDate.Year / 10 % 10),
      Nat.digitChar (dt.LocalDate.Year % 10), '-',
      Nat.digitChar (dt.LocalDate.Month / 10), Nat.digitChar (dt.LocalDate.Month % 10), '-',
      Nat.digitChar (dt.LocalDate.Day / 10), Nat.digitChar (dt.LocalDate.Day % 10), ' ',
      Nat.digitChar (dt.LocalTime.Hour / 10), Nat.digitChar (dt.LocalTime.Hour % 10), ':',
      Nat.digitChar (dt.LocalTime.Minute / 10), Nat.digitChar (dt.LocalTime.Minute % 10), ':',
      Nat.digitChar (dt.LocalTime.Second / 10), Nat.digitChar (dt.LocalTime.Second % 10)],
      none) ∧
    LocalDatetime.Scan (some r) dt.Value.1 = Outcome.done (some dt) none ∧
    LocalDatetime.Value ⟨⟨0, 0, 0⟩, ⟨0, 0, 0⟩⟩ = (Value.str ['0', '0', '0', '0', '-', '0', '0',
      '-', '0', '0', ' ', '0', '0', ':', '0', '0', ':', '0', '0'], none) ∧
    LocalDatetime.Scan (some ⟨⟨1, 1, 1⟩, ⟨1, 1, 1⟩⟩) (LocalDatetime.Value ⟨⟨0, 0, 0⟩, ⟨0, 0, 0⟩⟩).1
      = Outcome.done (some ⟨⟨0, 0, 0⟩, ⟨0, 0, 0⟩⟩) none ∧
    LocalDatetime.Scan (some ⟨⟨0, 0, 0⟩, ⟨0, 0, 0⟩⟩)
        (LocalDatetime.Value ⟨⟨9999, 99, 99⟩, ⟨99, 99, 99⟩⟩).1
      = Outcome.done (some ⟨⟨9999, 99, 99⟩, ⟨99, 99, 99⟩⟩) none := by
  have et := LocalDatetime_text_digits dt hy hmo hd hh hm hs
  refine ⟨?_, ?_, by decide, by decide, by decide⟩
  · rw [LocalDatetime.Value, et]
  · have hg := FindStringSubmatch_datetime (Nat.digitChar (dt.LocalDate.Year / 1000))
      (Nat.digitChar (dt.LocalDate.Year / 100 % 10)) (Nat.digitChar (dt.LocalDate.Year / 10 % 10))
      (Nat.digitChar (dt.LocalDate.Year % 10))
      (Nat.digitChar (dt.LocalDate.Month / 10)) (Nat.digitChar (dt.LocalDate.Month % 10))
      (Nat.digitChar (dt.LocalDate.Day / 10)) (Nat.digitChar (dt.LocalDate.Day % 10))
      (Nat.digitChar (dt.LocalTime.Hour / 10)) (Nat.digitChar (dt.LocalTime.Hour % 10))
      (Nat.digitChar (dt.LocalTime.Minute / 10)) (Nat.digitChar (dt.LocalTime.Minute % 10))
      (Nat.digitChar (dt.LocalTime.Second / 10)) (Nat.digitChar (dt.LocalTime.Second % 10)) []
      (digitChar_isDigit _ (by omega)) (digitChar_isDigit _ (by omega))
      (digitChar_isDigit _ (by omega)) (digitChar_isDigit _ (by omega))
      (digitChar_isDigit _ (by omega)) (digitChar_isDigit _ (by omega))
      (digitChar_isDigit _ (by omega)) (digitChar_isDigit _ (by omega))
      (digitChar_isDigit _ (by omega)) (digitChar_isDigit _ (by omega))
      (digitChar_isDigit _ (by omega)) (digitChar_isDigit _ (by omega))
      (digitChar_isDigit _ (by omega)) (digitChar_isDigit _ (by omega))
    rw [List.append_nil] at hg
    rw [LocalDatetime.Value, et]
    simp only [LocalDatetime.Scan, ConvertValue, hg]
    simp only [List.getD_cons_succ, List.getD_cons_zero, Atoi_four dt.LocalDate.Year hy,
      Atoi_two dt.LocalDate.Month hmo, Atoi_two dt.LocalDate.Day hd,
      Atoi_two dt.LocalTime.Hour hh, Atoi_two dt.LocalTime.Minute hm,
      Atoi_two dt.LocalTime.Second hs]
    rw [toUint_natCast dt.LocalDate.Year (by omega), toUint_natCast dt.LocalDate.Month (by omega),
      toUint_natCast dt.LocalDate.Day (by omega), toUint_natCast dt.LocalTime.Hour (by omega),
      toUint_natCast dt.LocalTime.Minute (by omega),
      toUint_natCast dt.LocalTime.Second (by omega)]
    simp

theorem LocalDatetime_Value_Scan_round_trip_witness :
    LocalDatetime.Scan (some ⟨⟨0, 0, 0⟩, ⟨0, 0, 0⟩⟩)
        (LocalDatetime.Value ⟨⟨2020, 1, 1⟩, ⟨13, 15, 10⟩⟩).1
      = Outcome.done (some ⟨⟨2020, 1, 1⟩, ⟨13, 15, 10⟩⟩) none :=
  (LocalDatetime_Value_Scan_round_trip ⟨⟨2020, 1, 1⟩, ⟨13, 15, 10⟩⟩ ⟨⟨0, 0, 0⟩, ⟨0, 0, 0⟩⟩
    (by decide) (by decide) (by decide) (by decide) (by decide) (by decide)).2.1

end Dates

namespace Dates

open GoInt GoTime GoStd

/-- A call of `LocalDate.Scan` returns; with an error, the error is `ErrScan`
and the receiver is unchanged. -/
theorem LocalDate_Scan_error (r : Option LocalDate) (v : GoStd.Value) :
    LocalDate.Scan r v = Outcome.done r (some Err.ErrScan) ∨
      ∃ d, LocalDate.Scan r v = Outcome.done (some d) none := by
  unfold LocalDate.Scan
  split_ifs with h1
  · exact Or.inl rfl
  · split
    · simp only
      split_ifs with h2
      · exact Or.inl rfl
      · split
        · exact Or.inr ⟨_, rfl⟩
        · exact Or.inl rfl
    · exact Or.inl rfl

/-- A call of `LocalDatetime.Scan` returns; with an error, the error is
`ErrScan` and the receiver is unchanged. -/
theorem LocalDatetime_Scan_error (r : Option LocalDatetime) (v : GoStd.Value) :
    LocalDatetime.Scan r v = Outcome.done r (some Err.ErrScan) ∨
      ∃ d, LocalDatetime.Scan r v = Outcome.done (some d) none := by
  unfold LocalDatetime.Scan
  split_ifs with h1
  · exact Or.inl rfl
  · split
    · simp only
      split_ifs with h2
      · exact Or.inl rfl
      · split
        · exact Or.inr ⟨_, rfl⟩
        · exact Or.inl rfl
    · exact Or.inl rfl

theorem FindStringSubmatch_none (items : List ReItem) (s : List Char)
    (h : matchItems items s = none) : FindStringSubmatch items s = [] := by
  simp [FindStringSubmatch, h]

/-- Claim C20: `LocalDate.Scan` and `LocalDatetime.Scan` fail with `ErrScan`
when the receiver is nil, when the value is nil, when the value is a byte
slice (also one that spells a date), and when the value is a string that does
not start with the pattern, such as the empty string or `2020/01/03`; and
whenever `Scan` returns an error the value of a non-nil receiver is what it
was before the call. -/
theorem Scan_fails_with_ErrScan (r : Option LocalDate) (rt : Option LocalDatetime)
    (v : GoStd.Value) (b s : List Char) :
    (LocalDate.Scan none v = Outcome.done none (some Err.ErrScan) ∧
      LocalDate.Scan r Value.null = Outcome.done r (some Err.ErrScan) ∧
      LocalDate.Scan r (Value.bytes b) = Outcome.done r (some Err.ErrScan) ∧
      (matchItems LocalDateRegex s = none →
        LocalDate.Scan r (Value.str s) = Outcome.done r (some Err.ErrScan)) ∧
      (∀ r1 e, LocalDate.Scan r v = Outcome.done r1 (some e) → r1 = r ∧ e = Err.ErrScan) ∧
      LocalDate.Scan r v ≠ Outcome.panic) ∧
    (LocalDatetime.Scan none v = Outcome.done none (some Err.ErrScan) ∧
      LocalDatetime.Scan rt Value.null = Outcome.done rt (some Err.ErrScan) ∧
      LocalDatetime.Scan rt (Value.bytes b) = Outcome.done rt (some Err.ErrScan) ∧
      (matchItems LocalDateTimeRegex s = none →
        LocalDatetime.Scan rt (Value.str s) = Outcome.done rt (some Err.ErrScan)) ∧
      (∀ r1 e, LocalDatetime.Scan rt v = Outcome.done r1 (some e) →
        r1 = rt ∧ e = Err.ErrScan) ∧
      LocalDatetime.Scan rt v ≠ Outcome.panic) ∧
    (matchItems LocalDateRegex [] = none ∧
      matchItems LocalDateRegex ['2', '0', '2', '0', '/', '0', '1', '/', '0', '3'] = none ∧
      matchItems LocalDateTimeRegex [] = none ∧
      matchItems LocalDateTimeRegex ['2', '0', '2', '0', '-', '0', '1', '-', '0', '3'] = none ∧
      LocalDate.Scan (some ⟨2000, 1, 1⟩)
          (Value.bytes ['2', '0', '2', '0', '-', '0', '1', '-', '0', '3'])
        = Outcome.done (some ⟨2000, 1, 1⟩) (some Err.ErrScan) ∧
      LocalDate.Scan (some ⟨2000, 1, 1⟩)
          (Value.str ['2', '0', '2', '0', '/', '0', '1', '/', '0', '3'])
        = Outcome.done (some ⟨2000, 1, 1⟩) (some Err.ErrScan)) := by
  refine ⟨⟨?_, ?_, ?_, ?_, ?_, ?_⟩, ⟨?_, ?_, ?_, ?_, ?_, ?_⟩, by decide⟩
  · simp [LocalDate.Scan]
  · simp [LocalDate.Scan]
  · cases r <;> simp [LocalDate.Scan, ConvertValue]
  · intro h
    cases r <;> simp [LocalDate.Scan, ConvertValue, FindStringSubmatch_none _ _ h]
  · intro r1 e h
    rcases LocalDate_Scan_error r v with h1 | ⟨d, h1⟩
    · rw [h1] at h
      simp only [Outcome.done.injEq, Option.some.injEq] at h
      exact ⟨h.1.symm, h.2.symm⟩
    · rw [h1] at h
      simp at h
  · rcases LocalDate_Scan_error r v with h1 | ⟨d, h1⟩ <;> rw [h1] <;> simp
  · simp [LocalDatetime.Scan]
  · simp [LocalDatetime.Scan]
  · cases rt <;> simp [LocalDatetime.Scan, ConvertValue]
  · intro h
    cases rt <;> simp [LocalDatetime.Scan, ConvertValue, FindStringSubmatch_none _ _ h]
  · intro r1 e h
    rcases LocalDatetime_Scan_error rt v with h1 | ⟨d, h1⟩
    · rw [h1] at h
      simp only [Outcome.done.injEq, Option.some.injEq] at h
      exact ⟨h.1.symm, h.2.symm⟩
    · rw [h1] at h
      simp at h
  · rcases LocalDatetime_Scan_error rt v with h1 | ⟨d, h1⟩ <;> rw [h1] <;> simp

end Dates

namespace GoStd

theorem digitsVal_two_digits (n : Nat) (h : n ≤ 99) :
    digitsVal [Nat.digitChar (n / 10), Nat.digitChar (n % 10)] = n := by
  simp only [digitsVal, List.foldl_cons, List.foldl_nil, zero_mul, zero_add]
  rw [digitVal_digitChar _ (by omega), digitVal_digitChar _ (by omega)]
  omega

theorem digitsVal_four_digits (n : Nat) (h : n ≤ 9999) :
    digitsVal [Nat.digitChar (n / 1000), Nat.digitChar (n / 100 % 10),
      Nat.digitChar (n / 10 % 10), Nat.digitChar (n % 10)] = n := by
  simp only [digitsVal, List.foldl_cons, List.foldl_nil, zero_mul, zero_add]
  rw [digitVal_digitChar _ (by omega), digitVal_digitChar _ (by omega),
    digitVal_digitChar _ (by omega), digitVal_digitChar _ (by omega)]
  omega

end GoStd

namespace Dates

open GoInt GoTime GoStd

/-- The fields `parse` reads with the layout `2006-01-02` from four digits, a
hyphen, two digits, a hyphen and two digits, the month within 1..12. -/
theorem parseChunks_DateHyphen (a b c d e f g h : Char)
    (ha : a.isDigit = true) (hb : b.isDigit = true) (hc : c.isDigit = true)
    (hd : d.isDigit = true) (he : e.isDigit = true) (hf : f.isDigit = true)
    (hg : g.isDigit = true) (hh : h.isDigit = true)
    (hm1 : 1 ≤ digitsVal [e, f]) (hm2 : digitsVal [e, f] ≤ 12) :
    parseChunks Format.DateHyphen.chunks ParseState.init [a, b, c, d, '-', e, f, '-', g, h]
      = some ({ ParseState.init with year := (digitsVal [a, b, c, d] : Int),
                                     month := (digitsVal [e, f] : Int),
                                     day := (digitsVal [g, h] : Int) }, []) := by
  have hm1i : ¬ ((digitsVal [e, f] : Int) ≤ 0) := by omega
  have hm2i : ¬ ((12 : Int) < (digitsVal [e, f] : Int)) := by omega
  simp [Format.DateHyphen, parseChunks, skip, skipFrom, parseStd, getnum, isDigitAt, ha, hb, hc, hd,
    he, hf, hg, hh, hm1i, hm2i]

end Dates

namespace Dates

open GoInt GoTime GoStd

/-- Parsing the text of a date that exists in the calendar, with a year of at
most four digits, gives the midnight of that date in UTC. -/
theorem ParseInLocation_date_text (d : LocalDate) (hy : d.Year ≤ 9999) (hm1 : 1 ≤ d.Month)
    (hm2 : d.Month ≤ 12) (hd1 : 1 ≤ d.Day) (hd2 : (d.Day : Int) ≤ daysIn d.Month d.Year) :
    ParseInLocation Format.DateHyphen d.text Timezone.UTC.Location
      = some (GoTime.Date d.Year d.Month d.Day 0 0 0 0 (FixedZone 0)) := by
  have hdi := daysIn_pos d.Month d.Year (by omega) (by omega)
  have hd3 : d.Day ≤ 99 := by omega
  have e4 := digitsVal_four_digits d.Year hy
  have em := digitsVal_two_digits d.Month (by omega)
  have ed := digitsVal_two_digits d.Day hd3
  have hp := parseChunks_DateHyphen (Nat.digitChar (d.Year / 1000))
    (Nat.digitChar (d.Year / 100 % 10)) (Nat.digitChar (d.Year / 10 % 10))
    (Nat.digitChar (d.Year % 10)) (Nat.digitChar (d.Month / 10)) (Nat.digitChar (d.Month % 10))
    (Nat.digitChar (d.Day / 10)) (Nat.digitChar (d.Day % 10))
    (digitChar_isDigit _ (by omega)) (digitChar_isDigit _ (by omega))
    (digitChar_isDigit _ (by omega)) (digitChar_isDigit _ (by omega))
    (digitChar_isDigit _ (by omega)) (digitChar_isDigit _ (by omega))
    (digitChar_isDigit _ (by omega)) (digitChar_isDigit _ (by omega))
    (by rw [em]; exact hm1) (by rw [em]; exact hm2)
  rw [e4, em, ed] at hp
  rw [LocalDate_text_digits d hy (by omega) hd3]
  unfold ParseInLocation
  rw [hp]
  simp only [Format.DateHyphen, skip, skipFrom, ParseState.init, utc_location]
  have c1 : ¬ ((d.Month : Int) < 0) := by omega
  have c2 : ¬ ((d.Day : Int) < 0) := by omega
  have c3 : ¬ ((d.Day : Int) < 1 ∨ daysIn d.Month d.Year < (d.Day : Int)) := by omega
  simp [c1, c2, c3]
  exact ⟨by omega, hd2⟩

/-- Claim C15, as amended: the text round trip. For every date `d` that
passes `Valid`, has a year of at most 9999 and a day that exists in its month
(at most the number of days of that month in that year),
`ParseLocalDate(DateHyphen, d.String())` returns no error and the date `d`. -/
theorem ParseLocalDate_String_round_trip (d : LocalDate) (hv : d.Valid.2 = none)
    (hy : d.Year ≤ 9999) (hday : (d.Day : Int) ≤ daysIn d.Month d.Year) :
    ParseLocalDate Format.DateHyphen d.String = (d, none) := by
  obtain ⟨hY, hM1, hM2, hD1, hD2⟩ := (LocalDate_Valid_none_iff d).mp hv
  have hp := ParseInLocation_date_text d hy hM1 hM2 hD1 hday
  have hs : d.String = d.text := rfl
  obtain ⟨f1, f2, f3, -, -, -⟩ := Date_fixed_fields d.Year d.Month d.Day 0 0 0 0
    (by omega) (by omega) (by omega)
    (by omega) (by omega) hday (by omega) (by omega) (by omega) (by omega) (by omega) (by omega)
  simp only [ParseLocalDate, hs, hp, LocalDateFromTime, f1, f2, f3]
  rw [toUint_natCast d.Year (by omega), toUint_natCast d.Month (by omega),
    toUint_natCast d.Day (by omega)]

theorem ParseLocalDate_String_round_trip_witness :
    ParseLocalDate Format.DateHyphen (LocalDate.String ⟨2020, 4, 5⟩) = (⟨2020, 4, 5⟩, none) :=
  ParseLocalDate_String_round_trip ⟨2020, 4, 5⟩ (by decide) (by decide) (by decide)

/-- Claim C15 fails as stated: the date `{2020, 2, 31}` passes `Valid`, which
only checks the day against 31, but its text `2020-02-31` does not parse (the
day is out of range for February); and `{10000, 1, 1}` passes `Valid` but its
text has a year of five digits, which the layout `2006-01-02` does not
read. -/
theorem ParseLocalDate_rejects_valid_dates :
    (LocalDate.Valid ⟨2020, 2, 31⟩).2 = none ∧
    ParseLocalDate Format.DateHyphen (LocalDate.String ⟨2020, 2, 31⟩)
      = (⟨0, 0, 0⟩, some Err.ErrParse) ∧
    (LocalDate.Valid ⟨10000, 1, 1⟩).2 = none ∧
    ParseLocalDate Format.DateHyphen (LocalDate.String ⟨10000, 1, 1⟩)
      = (⟨0, 0, 0⟩, some Err.ErrParse) := by
  set_option maxRecDepth 20000 in decide

end Dates

namespace Dates

open GoInt GoTime GoStd

/-- Claim C18 (the code departs from it): `UnmarshalJSON` of the literal
`null`. `json.Unmarshal` of `null` into the string variable leaves it empty
and reports no error; the empty string then fails to parse, so
`LocalDate.UnmarshalJSON` and `LocalDatetime.UnmarshalJSON` return an
`ErrUnmarshalJSON` error and leave the receiver as it was (here 2020-01-01),
not zero. `MarshalJSON` of the zero value writes `null`, and the nullable
types accept `null`. -/
theorem UnmarshalJSON_null_is_an_error :
    jsonUnmarshalString ['n', 'u', 'l', 'l'] [] = some [] ∧
    LocalDate.UnmarshalJSON (some ⟨2020, 1, 1⟩) ['n', 'u', 'l', 'l']
      = Outcome.done (some ⟨2020, 1, 1⟩) (some Err.ErrUnmarshalJSON) ∧
    LocalDate.UnmarshalJSON (some ⟨0, 0, 0⟩) ['n', 'u', 'l', 'l']
      = Outcome.done (some ⟨0, 0, 0⟩) (some Err.ErrUnmarshalJSON) ∧
    LocalDatetime.UnmarshalJSON (some ⟨⟨2020, 1, 1⟩, ⟨10, 0, 0⟩⟩) ['n', 'u', 'l', 'l']
      = Outcome.done (some ⟨⟨2020, 1, 1⟩, ⟨10, 0, 0⟩⟩) (some Err.ErrUnmarshalJSON) ∧
    (LocalDate.MarshalJSON ⟨0, 0, 0⟩).1 = ['n', 'u', 'l', 'l'] ∧
    Nulldates.LocalDate.UnmarshalJSON (some ⟨⟨2020, 1, 1⟩, true⟩) ['n', 'u', 'l', 'l']
      = Outcome.done (some ⟨⟨0, 0, 0⟩, false⟩) none := by
  set_option maxRecDepth 20000 in decide

/-- Claim C21 (the code departs from it): `LocalDatetime.UnmarshalFlag` has no
test of its receiver, so with a nil receiver and the text
`2020-04-01 15:16:17`, which parses, the assignment through the nil pointer
panics. `LocalDate.UnmarshalFlag` returns an `ErrUnmarshalFlag` error for a nil
receiver. With the text `2022-04-01` of the test, which does not parse as a
datetime, the nil receiver is not reached; the empty text is an error on any
receiver. -/
theorem LocalDatetime_UnmarshalFlag_nil_receiver_panics :
    LocalDatetime.UnmarshalFlag none ['2', '0', '2', '0', '-', '0', '4', '-', '0', '1', ' ',
      '1', '5', ':', '1', '6', ':', '1', '7'] = Outcome.panic ∧
    LocalDatetime.UnmarshalFlag (some ⟨⟨0, 0, 0⟩, ⟨0, 0, 0⟩⟩) ['2', '0', '2', '0', '-', '0', '4',
      '-', '0', '1', ' ', '1', '5', ':', '1', '6', ':', '1', '7']
      = Outcome.done (some ⟨⟨2020, 4, 1⟩, ⟨15, 16, 17⟩⟩) none ∧
    LocalDate.UnmarshalFlag none ['2', '0', '2', '2', '-', '0', '4', '-', '0', '1']
      = Outcome.done none (some Err.ErrUnmarshalFlag) ∧
    LocalDatetime.UnmarshalFlag none ['2', '0', '2', '2', '-', '0', '4', '-', '0', '1']
      = Outcome.done none (some Err.ErrParse) ∧
    LocalDatetime.UnmarshalFlag none [] = Outcome.done none (some Err.ErrParse) ∧
    LocalDatetime.UnmarshalFlag (some ⟨⟨2020, 4, 1⟩, ⟨15, 16, 17⟩⟩) []
      = Outcome.done (some ⟨⟨2020, 4, 1⟩, ⟨15, 16, 17⟩⟩) (some Err.ErrParse) ∧
    LocalDate.UnmarshalFlag (some ⟨2020, 4, 1⟩) []
      = Outcome.done (some ⟨2020, 4, 1⟩) (some Err.ErrUnmarshalFlag) := by
  set_option maxRecDepth 20000 in decide

/-- Claim C31: `LocalDatetimeFromTime` ignores the time zone. Every time
whose wall clock in its own zone reads a real calendar tuple of year 1 or
later converts to `NewLocalDatetime` of that tuple, whatever its zone and its
instant. For every fixed offset from UTC and a year of at most 292277024626,
the last year that `time.Time` holds in full, the time that `time.Date` makes
of the tuple in the zone of that offset has this wall-clock reading, and it
converts to the tuple itself: the offset shifts no field. Likewise the parsed
input `2020-04-05T16:00:00+06:00` gives 2020-04-05 16:00:00. -/
theorem LocalDatetimeFromTime_ignores_zone (tm : Time) (y m d h mi s : Nat) (off : Int)
    (hy1 : 1 ≤ y) (hm1 : 1 ≤ m) (hm2 : m ≤ 12) (hd1 : 1 ≤ d)
    (hd2 : (d : Int) ≤ daysIn m y) (hh : h ≤ 23) (hmi : mi ≤ 59) (hs : s ≤ 59) :
    ((tm.Year = y ∧ tm.Month = m ∧ tm.Day = d ∧ tm.Hour = h ∧ tm.Minute = mi ∧
        tm.Second = s) →
      LocalDatetimeFromTime tm = NewLocalDatetime y m d h mi s) ∧
    (y ≤ 292277024626 →
      ((GoTime.Date y m d h mi s 0 (FixedZone off)).Year = y ∧
        (GoTime.Date y m d h mi s 0 (FixedZone off)).Month = m ∧
        (GoTime.Date y m d h mi s 0 (FixedZone off)).Day = d ∧
        (GoTime.Date y m d h mi s 0 (FixedZone off)).Hour = h ∧
        (GoTime.Date y m d h mi s 0 (FixedZone off)).Minute = mi ∧
        (GoTime.Date y m d h mi s 0 (FixedZone off)).Second = s) ∧
      LocalDatetimeFromTime (GoTime.Date y m d h mi s 0 (FixedZone off))
        = NewLocalDatetime y m d h mi s ∧
      NewLocalDatetime y m d h mi s = ⟨⟨y, m, d⟩, ⟨h, mi, s⟩⟩) ∧
    ParseLocalDatetime Format.RFC3339 ['2', '0', '2', '0', '-', '0', '4', '-', '0', '5', 'T',
      '1', '6', ':', '0', '0', ':', '0', '0', '+', '0', '6', ':', '0', '0']
      = (NewLocalDatetime 2020 4 5 16 0 0, none) := by
  have hdi := daysIn_pos m y (by omega) (by omega)
  have hconv : ∀ t : Time, (t.Year = y ∧ t.Month = m ∧ t.Day = d ∧ t.Hour = h ∧ t.Minute = mi ∧
      t.Second = s) → LocalDatetimeFromTime t = NewLocalDatetime y m d h mi s := by
    intro t ht
    obtain ⟨f1, f2, f3, f4, f5, f6⟩ := ht
    obtain ⟨-, hyr⟩ := Time_Year_range t
    rw [f1] at hyr
    simp only [LocalDatetimeFromTime, f1, f2, f3, f4, f5, f6]
    rw [toUint_natCast y (by omega), toUint_natCast m (by omega), toUint_natCast d (by omega)]
  refine ⟨hconv tm, ?_, by set_option maxRecDepth 20000 in decide⟩
  intro hy2
  have hf := Date_fixed_fields y m d h mi s off (by omega) (by omega) (by omega) (by omega)
    (by omega) hd2 (by omega) (by omega) (by omega) (by omega) (by omega) (by omega)
  exact ⟨hf, hconv _ hf,
    (constructors_of_calendar y m d h mi s hy1 hy2 hm1 hm2 hd1 hd2 hh hmi hs).1⟩

theorem LocalDatetimeFromTime_ignores_zone_witness :
    LocalDatetimeFromTime (GoTime.Date (2020 : Nat) (11 : Nat) (1 : Nat) (15 : Nat) (10 : Nat)
      (5 : Nat) 0 (FixedZone (-36000))) = NewLocalDatetime 2020 11 1 (15 : Nat) (10 : Nat)
      (5 : Nat) :=
  ((LocalDatetimeFromTime_ignores_zone (GoTime.Date 2020 11 1 15 10 5 0 (FixedZone (-36000)))
    2020 11 1 15 10 5 (-36000) (by decide) (by decide)
    (by decide) (by decide) (by decide) (by decide) (by decide) (by decide)).2.1
    (by decide)).2.1

/-- Claim C35 (the code departs from it): `LocalDateFromTime` has no test for
instants before year 1, `LocalDatetimeFromTime` has one. For the instant
0000-12-31 00:00:00 UTC the first gives the date `{0, 12, 31}`, the second the
zero datetime, whose date is `{0, 0, 0}`; so both `ParseLocalDate` and
`ParseLocalDatetime` succeed on `0000-12-31` with the format `2006-01-02` and
disagree. On `2020-04-05 14:15:18` with the format `2006-01-02 15:04:05` they
agree. -/
theorem LocalDateFromTime_differs_before_year_one :
    LocalDateFromTime (GoTime.Date 0 12 31 0 0 0 0 (FixedZone 0)) = ⟨0, 12, 31⟩ ∧
    (LocalDatetimeFromTime (GoTime.Date 0 12 31 0 0 0 0 (FixedZone 0))).LocalDate = ⟨0, 0, 0⟩ ∧
    ParseLocalDate Format.DateHyphen ['0', '0', '0', '0', '-', '1', '2', '-', '3', '1']
      = (⟨0, 12, 31⟩, none) ∧
    ParseLocalDatetime Format.DateHyphen ['0', '0', '0', '0', '-', '1', '2', '-', '3', '1']
      = (⟨⟨0, 0, 0⟩, ⟨0, 0, 0⟩⟩, none) ∧
    ParseLocalDate Format.DateTimeHyphen ['2', '0', '2', '0', '-', '0', '4', '-', '0', '5', ' ',
      '1', '4', ':', '1', '5', ':', '1', '8'] = (⟨2020, 4, 5⟩, none) ∧
    ParseLocalDatetime Format.DateTimeHyphen ['2', '0', '2', '0', '-', '0', '4', '-', '0', '5',
      ' ', '1', '4', ':', '1', '5', ':', '1', '8'] = (⟨⟨2020, 4, 5⟩, ⟨14, 15, 18⟩⟩, none) := by
  set_option maxRecDepth 20000 in decide

end Dates

/-! ## The package `nulldates` -/

namespace Nulldates

open GoInt GoTime GoStd Dates

theorem zero_date_IsZero : Dates.LocalDate.zero.IsZero = true := rfl

theorem zero_datetime_IsZero : Dates.LocalDatetime.zero.IsZero = true := rfl

theorem LocalDateFromDate_eq (d : Dates.LocalDate) :
    ((LocalDateFromDate d).Valid = true ↔ (LocalDateFromDate d).LocalDate.IsZero = false) ∧
    ((LocalDateFromDate d).Valid = false → (LocalDateFromDate d).LocalDate = Dates.LocalDate.zero) ∧
    ((LocalDateFromDate d).Valid = true → (LocalDateFromDate d).LocalDate = d) := by
  unfold LocalDateFromDate
  cases h : d.IsZero <;> simp [h, zero_date_IsZero]

theorem LocalDatetimeFromDatetime_eq (dt : Dates.LocalDatetime) :
    ((LocalDatetimeFromDatetime dt).Valid = true ↔
      (LocalDatetimeFromDatetime dt).LocalDatetime.IsZero = false) ∧
    ((LocalDatetimeFromDatetime dt).Valid = false →
      (LocalDatetimeFromDatetime dt).LocalDatetime = Dates.LocalDatetime.zero) ∧
    ((LocalDatetimeFromDatetime dt).Valid = true →
      (LocalDatetimeFromDatetime dt).LocalDatetime = dt) := by
  unfold LocalDatetimeFromDatetime
  cases h : dt.IsZero <;> simp [h, zero_datetime_IsZero]

/-- Claim C24: the nullable constructors `NewLocalDate`, `LocalDateFromDate`,
`LocalDateFromPtr`, `NewLocalDatetime`, `LocalDatetimeFromDate`,
`LocalDatetimeFromDatetime` and `LocalDatetimeFromPtr`. For every input the
result has `Valid = true` if and only if its inner value is not zero; when
`Valid` is false the inner value is the zero value (also for a nil pointer);
when `Valid` is true the inner value is the supplied value, or the value
normalised by the constructor of `dates`. -/
theorem constructors_valid_iff_nonzero (y m d : Int) (uy um ud : Nat) (h mi s : Int)
    (date : Dates.LocalDate) (dt : Dates.LocalDatetime) :
    (((NewLocalDate y m d).Valid = true ↔ (NewLocalDate y m d).LocalDate.IsZero = false) ∧
      ((NewLocalDate y m d).Valid = false →
        (NewLocalDate y m d).LocalDate = Dates.LocalDate.zero) ∧
      ((NewLocalDate y m d).Valid = true →
        (NewLocalDate y m d).LocalDate = Dates.NewLocalDate y m d)) ∧
    (((LocalDateFromDate date).Valid = true ↔
        (LocalDateFromDate date).LocalDate.IsZero = false) ∧
      ((LocalDateFromDate date).Valid = false →
        (LocalDateFromDate date).LocalDate = Dates.LocalDate.zero) ∧
      ((LocalDateFromDate date).Valid = true → (LocalDateFromDate date).LocalDate = date)) ∧
    (LocalDateFromPtr none = ⟨Dates.LocalDate.zero, false⟩ ∧
      LocalDateFromPtr (some date) = LocalDateFromDate date) ∧
    (((NewLocalDatetime uy um ud h mi s).Valid = true ↔
        (NewLocalDatetime uy um ud h mi s).LocalDatetime.IsZero = false) ∧
      ((NewLocalDatetime uy um ud h mi s).Valid = false →
        (NewLocalDatetime uy um ud h mi s).LocalDatetime = Dates.LocalDatetime.zero) ∧
      ((NewLocalDatetime uy um ud h mi s).Valid = true →
        (NewLocalDatetime uy um ud h mi s).LocalDatetime
          = Dates.NewLocalDatetime uy um ud h mi s)) ∧
    (((LocalDatetimeFromDate date).Valid = true ↔
        (LocalDatetimeFromDate date).LocalDatetime.IsZero = false) ∧
      ((LocalDatetimeFromDate date).Valid = false →
        (LocalDatetimeFromDate date).LocalDatetime = Dates.LocalDatetime.zero) ∧
      ((LocalDatetimeFromDate date).Valid = true →
        (LocalDatetimeFromDate date).LocalDatetime = date.LocalDatetime)) ∧
    (((LocalDatetimeFromDatetime dt).Valid = true ↔
        (LocalDatetimeFromDatetime dt).LocalDatetime.IsZero = false) ∧
      ((LocalDatetimeFromDatetime dt).Valid = false →
        (LocalDatetimeFromDatetime dt).LocalDatetime = Dates.LocalDatetime.zero) ∧
      ((LocalDatetimeFromDatetime dt).Valid = true →
        (LocalDatetimeFromDatetime dt).LocalDatetime = dt)) ∧
    (LocalDatetimeFromPtr none = ⟨Dates.LocalDatetime.zero, false⟩ ∧
      LocalDatetimeFromPtr (some dt) = LocalDatetimeFromDatetime dt) := by
  refine ⟨?_, LocalDateFromDate_eq date, ⟨rfl, rfl⟩, ?_, ?_, LocalDatetimeFromDatetime_eq dt,
    ⟨rfl, rfl⟩⟩
  · unfold NewLocalDate
    cases h0 : (Dates.NewLocalDate y m d).IsZero <;> simp [h0, zero_date_IsZero]
  · unfold NewLocalDatetime
    cases h0 : (Dates.NewLocalDatetime uy um ud h mi s).IsZero <;>
      simp [h0, zero_datetime_IsZero]
  · unfold LocalDatetimeFromDate
    cases h0 : date.LocalDatetime.IsZero <;> simp [h0, zero_datetime_IsZero]

/-- Claim C25 (the code departs from it): `LocalDatetimeFromTime` tests
`t.IsZero()`, not the converted value. The instant 0000-12-31 00:00:00 UTC is
not the zero time, and `dates.LocalDatetimeFromTime` collapses it to the zero
datetime, so the result is the zero inner value with `Valid = true`; the
pointer variant returns the same. `nulldates.NewLocalDatetime` of the same
fields has `Valid = false`. -/
theorem LocalDatetimeFromTime_zero_inner_valid :
    timeIsZero (GoTime.Date 0 12 31 0 0 0 0 (FixedZone 0)) = false ∧
    LocalDatetimeFromTime (GoTime.Date 0 12 31 0 0 0 0 (FixedZone 0))
      = ⟨⟨⟨0, 0, 0⟩, ⟨0, 0, 0⟩⟩, true⟩ ∧
    LocalDatetimeFromTimePtr (some (GoTime.Date 0 12 31 0 0 0 0 (FixedZone 0)))
      = ⟨⟨⟨0, 0, 0⟩, ⟨0, 0, 0⟩⟩, true⟩ ∧
    NewLocalDatetime 0 12 31 0 0 0 = ⟨⟨⟨0, 0, 0⟩, ⟨0, 0, 0⟩⟩, false⟩ ∧
    LocalDatetimeFromTime (GoTime.Date 1 1 1 0 0 0 0 (FixedZone 0))
      = ⟨⟨⟨0, 0, 0⟩, ⟨0, 0, 0⟩⟩, false⟩ := by
  set_option maxRecDepth 20000 in decide

end Nulldates

namespace Dates

open GoInt GoTime GoStd

/-- What `LocalDate.MarshalJSON` returns: `null` for the zero date, the quoted
text otherwise. -/
theorem LocalDate_MarshalJSON_eq (d : LocalDate) :
    d.MarshalJSON
      = if d.IsZero then (['n', 'u', 'l', 'l'], none) else ('"' :: (d.String ++ ['"']), none) := by
  have e1 : jsonMarshal (some d.String) = '"' :: (d.String ++ ['"']) :=
    jsonMarshal_date_text _ (LocalDate_text_chars d)
  cases hz : d.IsZero
  · simp [LocalDate.MarshalJSON, hz, MarshalJSON, e1]
  · simp [LocalDate.MarshalJSON, hz, MarshalJSON, jsonMarshal]

/-- What `LocalDatetime.MarshalJSON` returns. -/
theorem LocalDatetime_MarshalJSON_eq (dt : LocalDatetime) :
    dt.MarshalJSON
      = if dt.IsZero then (['n', 'u', 'l', 'l'], none)
        else ('"' :: (dt.String ++ ['"']), none) := by
  have e2 : jsonMarshal (some dt.String) = '"' :: (dt.String ++ ['"']) :=
    jsonMarshal_date_text _ (LocalDatetime_text_chars dt)
  cases hz : dt.IsZero
  · simp [LocalDatetime.MarshalJSON, hz, MarshalJSON, e2]
  · simp [LocalDatetime.MarshalJSON, hz, MarshalJSON, jsonMarshal]

end Dates

namespace Nulldates

open GoInt GoTime GoStd Dates

/-- Claim C26, as amended: `MarshalJSON` of a nullable date or datetime returns
no error, and returns the JSON literal `null` exactly when `Valid` is false or
the inner value is zero; otherwise it returns the quoted text of the inner
value. -/
theorem MarshalJSON_null_iff_invalid_or_zero (d : Nulldates.LocalDate)
    (dt : Nulldates.LocalDatetime) :
    (d.MarshalJSON.2 = none ∧
      (d.MarshalJSON.1 = ['n', 'u', 'l', 'l'] ↔ (d.Valid = false ∨ d.LocalDate.IsZero = true)) ∧
      (d.Valid = true → d.LocalDate.IsZero = false →
        d.MarshalJSON.1 = '"' :: (d.LocalDate.String ++ ['"']))) ∧
    (dt.MarshalJSON.2 = none ∧
      (dt.MarshalJSON.1 = ['n', 'u', 'l', 'l'] ↔
        (dt.Valid = false ∨ dt.LocalDatetime.IsZero = true)) ∧
      (dt.Valid = true → dt.LocalDatetime.IsZero = false →
        dt.MarshalJSON.1 = '"' :: (dt.LocalDatetime.String ++ ['"']))) := by
  have e1 := LocalDate_MarshalJSON_eq d.LocalDate
  have e2 := LocalDatetime_MarshalJSON_eq dt.LocalDatetime
  refine ⟨?_, ?_⟩
  · cases hv : d.Valid <;> cases hz : d.LocalDate.IsZero <;>
      simp [LocalDate.MarshalJSON, hv, hz, e1, jsonMarshal]
  · cases hv : dt.Valid <;> cases hz : dt.LocalDatetime.IsZero <;>
      simp [LocalDatetime.MarshalJSON, hv, hz, e2, jsonMarshal]

/-- Claim C26 fails as stated: a nullable date with a zero inner value and
`Valid = true` marshals to `null` although `Valid` is true, because the inner
`MarshalJSON` writes `null` for the zero date. -/
theorem MarshalJSON_null_although_valid :
    (Nulldates.LocalDate.mk ⟨0, 0, 0⟩ true).Valid = true ∧
    (Nulldates.LocalDate.MarshalJSON ⟨⟨0, 0, 0⟩, true⟩).1 = ['n', 'u', 'l', 'l'] ∧
    (Nulldates.LocalDatetime.MarshalJSON ⟨⟨⟨0, 0, 0⟩, ⟨0, 0, 0⟩⟩, true⟩).1
      = ['n', 'u', 'l', 'l'] := by
  decide

/-- Claim C27: `Value()` of a nullable date or datetime returns no error,
returns nil exactly when `Valid` is false, and returns the text of the inner
value when `Valid` is true, for example `2020-01-01` and
`2020-01-01 13:15:10`. -/
theorem Value_nil_iff_invalid (d : Nulldates.LocalDate) (dt : Nulldates.LocalDatetime) :
    (d.Value.2 = none ∧ (d.Value.1 = Value.null ↔ d.Valid = false) ∧
      (d.Valid = true → d.Value = d.LocalDate.Value ∧
        d.Value.1 = Value.str d.LocalDate.String)) ∧
    (dt.Value.2 = none ∧ (dt.Value.1 = Value.null ↔ dt.Valid = false) ∧
      (dt.Valid = true → dt.Value = dt.LocalDatetime.Value ∧
        dt.Value.1 = Value.str dt.LocalDatetime.String)) ∧
    (Nulldates.LocalDate.Value ⟨⟨2020, 1, 1⟩, true⟩).1
      = Value.str ['2', '0', '2', '0', '-', '0', '1', '-', '0', '1'] ∧
    (Nulldates.LocalDatetime.Value ⟨⟨⟨2020, 1, 1⟩, ⟨13, 15, 10⟩⟩, true⟩).1
      = Value.str ['2', '0', '2', '0', '-', '0', '1', '-', '0', '1', ' ', '1', '3', ':', '1',
          '5', ':', '1', '0'] := by
  refine ⟨?_, ?_, by decide, by decide⟩
  · cases hv : d.Valid <;>
      simp [LocalDate.Value, hv, Dates.LocalDate.Value, Dates.LocalDate.String, assertString]
  · cases hv : dt.Valid <;>
      simp [LocalDatetime.Value, hv, Dates.LocalDatetime.Value, Dates.LocalDatetime.String,
        assertString]

/-- Claim C28 (the code departs from it): when the inner `Scan` fails,
`nulldates.LocalDate.Scan` only clears `Valid`; the inner value stays what it
was. A receiver holding 2020-01-01 keeps that date after scanning
`2020/02/01` or a byte slice, with `Valid = false` and the `ErrScan` error;
`UnmarshalFlag` on the same text zeroes the inner value. -/
theorem Scan_error_keeps_inner_value :
    Nulldates.LocalDate.Scan (some ⟨⟨2020, 1, 1⟩, true⟩)
        (Value.str ['2', '0', '2', '0', '/', '0', '2', '/', '0', '1'])
      = Outcome.done (some ⟨⟨2020, 1, 1⟩, false⟩) (some Err.ErrScan) ∧
    Nulldates.LocalDate.Scan (some ⟨⟨2020, 1, 1⟩, true⟩)
        (Value.bytes ['2', '0', '2', '0', '-', '0', '2', '-', '0', '1'])
      = Outcome.done (some ⟨⟨2020, 1, 1⟩, false⟩) (some Err.ErrScan) ∧
    Nulldates.LocalDatetime.Scan (some ⟨⟨⟨2020, 1, 1⟩, ⟨13, 15, 10⟩⟩, true⟩)
        (Value.str ['2', '0', '2', '0', '/', '0', '2', '/', '0', '1'])
      = Outcome.done (some ⟨⟨⟨2020, 1, 1⟩, ⟨13, 15, 10⟩⟩, false⟩) (some Err.ErrScan) ∧
    Nulldates.LocalDate.UnmarshalFlag (some ⟨⟨2020, 1, 1⟩, true⟩)
        ['2', '0', '2', '0', '/', '0', '2', '/', '0', '1']
      = Outcome.done (some ⟨⟨0, 0, 0⟩, false⟩) (some Err.ErrParse) ∧
    Nulldates.LocalDate.Scan (some ⟨⟨0, 0, 0⟩, false⟩)
        (Value.str ['2', '0', '2', '0', '/', '0', '2', '/', '0', '1'])
      = Outcome.done (some ⟨⟨0, 0, 0⟩, false⟩) (some Err.ErrScan) := by
  set_option maxRecDepth 20000 in decide

/-- Claim C29 (the code departs from it): with a nil receiver
`nulldates.LocalDate.Scan` and `nulldates.LocalDatetime.Scan` enter the branch
`d == nil || value == nil` and assign through the nil pointer, so the call
panics for every value. With a non-nil receiver and a nil value they return no
error and leave the receiver as the zero inner value with `Valid = false`. -/
theorem Scan_nil_receiver_panics (v : GoStd.Value) (r : Nulldates.LocalDate)
    (rt : Nulldates.LocalDatetime) :
    Nulldates.LocalDate.Scan none v = Outcome.panic ∧
    Nulldates.LocalDatetime.Scan none v = Outcome.panic ∧
    Nulldates.LocalDate.Scan (some r) Value.null
      = Outcome.done (some ⟨Dates.LocalDate.zero, false⟩) none ∧
    Nulldates.LocalDatetime.Scan (some rt) Value.null
      = Outcome.done (some ⟨Dates.LocalDatetime.zero, false⟩) none := by
  refine ⟨rfl, rfl, ?_, ?_⟩
  · simp [LocalDate.Scan]
  · simp [LocalDatetime.Scan]

/-- Claim C30: absent input is accepted by the nullable decoders. For a
non-nil receiver in any state, `UnmarshalJSON` with a payload that is `null`
in any letter case or empty, and `UnmarshalFlag` with the empty string, return
no error and leave the receiver as the zero inner value with `Valid = false`;
with a nil receiver both return an error. -/
theorem decoders_accept_absent_input (r : Nulldates.LocalDate) (rt : Nulldates.LocalDatetime)
    (data : List Char) (hnull : data = [] ∨ data.map Char.toLower = ['n', 'u', 'l', 'l']) :
    Nulldates.LocalDate.UnmarshalJSON (some r) data
      = Outcome.done (some ⟨Dates.LocalDate.zero, false⟩) none ∧
    Nulldates.LocalDatetime.UnmarshalJSON (some rt) data
      = Outcome.done (some ⟨Dates.LocalDatetime.zero, false⟩) none ∧
    Nulldates.LocalDate.UnmarshalFlag (some r) []
      = Outcome.done (some ⟨Dates.LocalDate.zero, false⟩) none ∧
    Nulldates.LocalDatetime.UnmarshalFlag (some rt) []
      = Outcome.done (some ⟨Dates.LocalDatetime.zero, false⟩) none ∧
    (∀ s, Nulldates.LocalDate.UnmarshalJSON none s
      = Outcome.done none (some Err.ErrUnmarshalJSON)) ∧
    (∀ s, Nulldates.LocalDatetime.UnmarshalJSON none s
      = Outcome.done none (some Err.ErrUnmarshalJSON)) ∧
    (∀ s, Nulldates.LocalDate.UnmarshalFlag none s
      = Outcome.done none (some Err.ErrUnmarshalFlag)) ∧
    (∀ s, Nulldates.LocalDatetime.UnmarshalFlag none s
      = Outcome.done none (some Err.ErrUnmarshalFlag)) := by
  have hc : data.length = 0 ∨ equalFoldNull data = true := by
    rcases hnull with h | h
    · exact Or.inl (by rw [h]; rfl)
    · exact Or.inr (by simp [equalFoldNull, h])
  refine ⟨?_, ?_, ?_, ?_, fun _ => rfl, fun _ => rfl, fun _ => rfl, fun _ => rfl⟩
  · simp only [LocalDate.UnmarshalJSON]
    rw [if_pos hc]
  · simp only [LocalDatetime.UnmarshalJSON]
    rw [if_pos hc]
  · simp [LocalDate.UnmarshalFlag]
  · simp [LocalDatetime.UnmarshalFlag]

theorem decoders_accept_absent_input_witness :
    Nulldates.LocalDate.UnmarshalJSON (some ⟨⟨2020, 1, 1⟩, true⟩) ['N', 'u', 'L', 'l']
      = Outcome.done (some ⟨Dates.LocalDate.zero, false⟩) none :=
  (decoders_accept_absent_input ⟨⟨2020, 1, 1⟩, true⟩ ⟨⟨⟨2020, 1, 1⟩, ⟨1, 1, 1⟩⟩, true⟩
    ['N', 'u', 'L', 'l'] (Or.inr (by decide))).1

end Nulldates
